import Mathlib

/-!
# Random beacon of go-wanchain: a shallow embedding

The development follows `pos/randombeacon/random_beacon.go` and, in its last
part, `pos/posavgretrate/posavgretrate.go`.  The stateful
methods of `RandomBeacon` are functions that take the receiver's fields and
return the new fields together with what they returned and the list of
observable events (log entries at function entry, chain reads named in the
specification, calls of the transaction hook).

Everything the file imports from other packages (`bn256`, `wanpos`, `vm`,
`pos`, `posdb`, `slotleader`, `crypto`, `crypto/rand`, `abi`) is a field of `Env` or is
modelled from the specification, and says so.
-/

/-- Go byte slices. -/
abbrev Bytes := List (Fin 256)

/-- The value `new(big.Int).SetBytes(b)`: `b` read as a big-endian unsigned integer. -/
def SetBytes (b : Bytes) : Nat :=
  b.foldl (fun acc x => acc * 256 + x.val) 0

/-- Big-endian digits of `n`, most significant first, none for zero; the first
argument bounds the number of digits. -/
def natBytes : Nat → Nat → Bytes → Bytes
  | 0, _, acc => acc
  | fuel + 1, n, acc =>
    if n = 0 then acc else natBytes fuel (n / 256) (⟨n % 256, Nat.mod_lt _ (by decide)⟩ :: acc)

/-- The value `x.Bytes()` of a `*big.Int`: the big-endian bytes of the absolute value. -/
def bigBytes (x : Int) : Bytes :=
  natBytes x.natAbs x.natAbs []

/-- The value `new(big.Int).ModInverse(g, n)`: the inverse of `g` modulo `n` in
`[0, n)`, and `none` (Go returns nil) when `g` has no inverse. -/
def ModInverse (g n : Nat) : Option Nat :=
  (List.range n).find? (fun r => decide ((r * g) % n = 1 % n))

namespace bn256

/-- Modelled from the spec: the group `G1` of package bn256 (§4.1), cyclic of
order `q` with generator `g1`; a point is kept as its discrete logarithm to `g1`. -/
structure G1 (q : ℕ) where
  dlog : ZMod q
deriving DecidableEq

/-- Modelled from the spec: the group `G2` of package bn256 (§4.1), cyclic of
order `q` with generator `g2`; a point is kept as its discrete logarithm to `g2`. -/
structure G2 (q : ℕ) where
  dlog : ZMod q
deriving DecidableEq

/-- Modelled from the spec: the target group of the pairing (§4.1); an element is
kept as its discrete logarithm to `e(g1, g2)`. -/
structure GT (q : ℕ) where
  dlog : ZMod q
deriving DecidableEq

variable {q : ℕ}

/-- Modelled from the spec: point addition in `G1` (`(*G1).Add`). -/
def G1.Add (a b : G1 q) : G1 q := ⟨a.dlog + b.dlog⟩

/-- Modelled from the spec: scalar multiplication in `G1` by a big integer (`(*G1).ScalarMult`). -/
def G1.ScalarMult (a : G1 q) (k : Nat) : G1 q := ⟨(k : ZMod q) * a.dlog⟩

/-- Modelled from the spec: `k · g1` (`(*G1).ScalarBaseMult`). -/
def G1.ScalarBaseMult (k : Nat) : G1 q := ⟨(k : ZMod q)⟩

/-- Modelled from the spec: the canonical encoding of a `G1` point (`(*G1).String`),
equal exactly for equal points. -/
def G1.String (a : G1 q) : ZMod q := a.dlog

/-- Modelled from the spec: point addition in `G2` (`(*G2).Add`). -/
def G2.Add (a b : G2 q) : G2 q := ⟨a.dlog + b.dlog⟩

/-- Modelled from the spec: scalar multiplication in `G2` (`(*G2).ScalarMult`). -/
def G2.ScalarMult (a : G2 q) (k : Nat) : G2 q := ⟨(k : ZMod q) * a.dlog⟩

/-- Modelled from the spec: `k · g2` (`(*G2).ScalarBaseMult`). -/
def G2.ScalarBaseMult (k : Nat) : G2 q := ⟨(k : ZMod q)⟩

/-- Modelled from the spec: the canonical encoding of a target-group element (`(*GT).String`). -/
def GT.String (a : GT q) : ZMod q := a.dlog

/-- Modelled from the spec: the bilinear map `e : G1 × G2 → GT` (`bn256.Pair`),
`e(a·g1, b·g2) = e(g1, g2)^(a·b)`. -/
def Pair (a : G1 q) (b : G2 q) : GT q := ⟨a.dlog * b.dlog⟩

end bn256

namespace wanpos

open bn256

variable {q : ℕ}

/-- Modelled from the spec: a DLEQ proof `(a1, a2, z)` (§4.3) of package wanpos_crypto. -/
structure DLEQproof (q : ℕ) where
  a1 : G1 q
  a2 : G2 q
  z : Nat
deriving DecidableEq

/-- Modelled from the spec: `rand_poly(degree, const_term)` (§4.2), the coefficients
`[s, a_1, …, a_t]`; `a` is the random source the function draws `a_1 … a_t` from. -/
def RandPoly (degree : Nat) (constant : Nat) (a : Nat → Nat) : List (ZMod q) :=
  (constant : ZMod q) :: (List.range degree).map (fun i => ((a (i + 1) : ℕ) : ZMod q))

/-- Modelled from the spec: `eval(poly, x)` (§4.2), Horner evaluation modulo `q` of
the first `degree + 1` coefficients. -/
def EvaluatePoly (f : List (ZMod q)) (x : Nat) (degree : Nat) : ZMod q :=
  (f.take (degree + 1)).foldr (fun c acc => c + (x : ZMod q) * acc) 0

/-- Inverse of a scalar modulo `q` by search; `0` for a scalar without inverse. -/
def scalarInv (a : ZMod q) : ZMod q :=
  ((List.range q).find? (fun (r : ℕ) => decide ((r : ZMod q) * a = 1))).elim 0
    (fun (r : ℕ) => (r : ZMod q))

/-- Modelled from the spec: `lagrange_coeffs(xs, t)` (§4.2): from the first `t+1`
abscissas, `λ_i = Π_{j≠i} (-x_j)/(x_i - x_j)`; fails on too few or on duplicate abscissas. -/
def evaluateB (x : List Nat) (degree : Nat) : Option (List (ZMod q)) :=
  let xs : List (ZMod q) := (x.take (degree + 1)).map (fun (v : ℕ) => (v : ZMod q))
  if x.length < degree + 1 then none
  else if ¬ xs.Nodup then none
  else some ((List.range (degree + 1)).map (fun i =>
    (((List.range (degree + 1)).filter (fun j => decide (j ≠ i))).map
      (fun j => (-(xs.getD j 0)) * scalarInv (xs.getD i 0 - xs.getD j 0))).prod))

/-- Modelled from the spec: `lagrange_g1(points, xs)` (§4.2), `Σ λ_i · points[i]` over
the first `t+1` entries; fails when fewer points are given or `evaluateB` fails. -/
def LagrangeSig (sig : List (G1 q)) (x : List Nat) (degree : Nat) : Option (G1 q) :=
  if sig.length < degree + 1 then none
  else (evaluateB x degree).map (fun (b : List (ZMod q)) =>
    (List.zipWith (fun (s : G1 q) (bi : ZMod q) => s.ScalarMult bi.val) sig b).foldl
      G1.Add (G1.ScalarBaseMult 0))

/-- Modelled from the spec: `lagrange_g2(points, xs)` (§4.2), `Σ λ_i · points[i]` over
the first `t+1` entries; fails when fewer points are given or `evaluateB` fails. -/
def LagrangePub (c : List (G2 q)) (x : List Nat) (degree : Nat) : Option (G2 q) :=
  if c.length < degree + 1 then none
  else (evaluateB x degree).map (fun (b : List (ZMod q)) =>
    (List.zipWith (fun (s : G2 q) (bi : ZMod q) => s.ScalarMult bi.val) c b).foldl
      G2.Add (G2.ScalarBaseMult 0))

end wanpos

namespace vm

open bn256

/-- The payload type `vm.RbDKGTxPayload`, with the fields in the order in which
`generateDKG` fills them. -/
structure RbDKGTxPayload (q : ℕ) where
  EpochId : Nat
  ProposerId : Nat
  Enshare : List (G1 q)
  Commit : List (G2 q)
  Proof : List (wanpos.DLEQproof q)
deriving DecidableEq

/-- The payload type `vm.RbSIGTxPayload`, with the fields in the order in which
`doSIG` fills them. -/
structure RbSIGTxPayload (q : ℕ) where
  EpochId : Nat
  ProposerId : Nat
  Gsigshare : G1 q
deriving DecidableEq

/-- Modelled from the spec: the stage constant `vm.RB_DKG_STAGE`, first in the order
`DKG < SIGN < AFTER_SIGN` (§4.7). -/
def RB_DKG_STAGE : Int := 0

/-- Modelled from the spec: the stage constant `vm.RB_SIGN_STAGE` (§4.7). -/
def RB_SIGN_STAGE : Int := 1

/-- Modelled from the spec: the stage constant `vm.RB_AFTER_SIGH_STAGE` (§4.7). -/
def RB_AFTER_SIGH_STAGE : Int := 2

end vm

open bn256 vm

/-- The error values of the package: one constructor for each `errors.New` of
`random_beacon.go`, and `external` for an error handed back by a collaborator
(`slotleader`, `crypto/rand`, `vm.GetRBM`, the `abi` encoding, the transaction
hook). -/
inductive Err where
  | invalidLoopParam
  | rollback
  | noProposerGroup
  | insufficientProposer
  | getRandomFail
  | pairingCheckFailed
  | invalidRandom
  | external (code : Nat)
deriving DecidableEq, Repr

/-- What a call of a method with result type `error` does: it returns nil, returns
an error, or does not return because of a runtime panic (nil dereference, index
out of range). -/
inductive Outcome where
  | nil
  | err (e : Err)
  | panic
deriving DecidableEq, Repr

/-- The three messages handed to the transaction hook (`sendDKG`, `sendSIG`,
`sendRandom`).  A random is kept as the two arguments that
`getGenRTxPayloadBytes` packs: the big integer made from `int64(epochId)`, which
can be negative, and the random. -/
inductive RbMsg (q : ℕ) where
  | dkg (p : RbDKGTxPayload q)
  | sig (p : RbSIGTxPayload q)
  | genR (epochId : Int) (random : Nat)
deriving DecidableEq

/-- Observable events of a call, in program order. -/
inductive Event (q : ℕ) where
  | beginDKG (epochId proposerId : Nat)
  | beginSIG (epochId proposerId : Nat)
  | getRBM (epochId : Nat)
  | lagrangeSig
  | lagrangePub
  | pair
  | sendTx (m : RbMsg q)
deriving DecidableEq

/-- The configuration `pos.Cfg()`; a nil `SelfPuK` or `SelfPrK` is `none`. -/
structure Config (q : ℕ) where
  SelfPuK : Option (G1 q)
  SelfPrK : Option Nat
  PolymDegree : Nat
  MinRBProposerCnt : Nat

/-- The collaborators of the beacon during one call.  The chain view is read-only
during a call; the random source and the transaction hook may answer differently
each time and are therefore given the events so far. -/
structure Env (q : ℕ) where
  cfg : Config q
  /-- The field `getRBProposerGroupF` (`posdb.GetRBProposerGroup`). -/
  getRBProposerGroupF : Nat → List (G1 q)
  /-- The function `slotleader.GetEpochSlotID`, with the error code when it fails. -/
  GetEpochSlotID : Except Nat (Nat × Nat)
  /-- The function `vm.GetRBStage`. -/
  GetRBStage : Nat → Int
  /-- The function `vm.GetDkg`: `some` exactly when it returns a payload and no error. -/
  GetDkg : Nat → Nat → Option (RbDKGTxPayload q)
  /-- The function `vm.GetSig`: `some` exactly when it returns a payload and no error. -/
  GetSig : Nat → Nat → Option (RbSIGTxPayload q)
  /-- The function `vm.GetR`: `none` when it returns nil. -/
  GetR : Nat → Option Int
  /-- The function `vm.GetRBM`, with the error code when it fails. -/
  GetRBM : Nat → Except Nat Bytes
  /-- The function `vm.GetPolynomialX`. -/
  GetPolynomialX : G1 q → Nat → Bytes
  /-- The function `crypto.Keccak256`. -/
  Keccak256 : Bytes → Bytes
  /-- The method `(*bn256.G1).Marshal`. -/
  Marshal : G1 q → Bytes
  /-- The variable `wanpos.Hbase`, of the type `bn256.Pair` takes second. -/
  Hbase : G2 q
  /-- The function `wanpos.DLEQ`. -/
  DLEQ : G1 q → G2 q → ZMod q → wanpos.DLEQproof q
  /-- The call `rand.Int(rand.Reader, bn256.Order)`, with the error code when it fails. -/
  randInt : List (Event q) → Except Nat Nat
  /-- The random source inside `wanpos.RandPoly`. -/
  randCoef : List (Event q) → Nat → Nat
  /-- The encoding of `getGenRTxPayloadBytes` (`abi.JSON` of the beacon's ABI
  definition and `rbAbi.Pack("genR", ..)` of the two big integers): `none` when the
  payload is packed, the error code when one of the two calls fails. -/
  PackGenR : Int → Nat → Option Nat
  /-- The call `pos.SendTx` behind `doSendRBTx`: `none` when it succeeds, the error
  code when it fails.  For a DKG or signature payload the message is the payload
  object, and a failure of its encoding counts as a failure of this call. -/
  SendTx : List (Event q) → RbMsg q → Option Nat

/-- The fields `epochStage` and `epochId` of `RandomBeacon`.  The handles `statedb`,
`epocher` and `rpcClient` that `Loop` stores are behind the collaborators of `Env`;
the key is in `Config`. -/
structure RandomBeacon where
  epochStage : Int
  epochId : Nat
deriving DecidableEq, Repr

/-- The variable `maxUint64`. -/
def maxUint64 : Nat := 2 ^ 64 - 1

/-- The conversion `int64(x)` of a `uint64`: values from `2^63` on wrap around to
negative ones. -/
def int64 (x : Nat) : Int :=
  if x % 2 ^ 64 < 2 ^ 63 then ((x % 2 ^ 64 : ℕ) : Int) else ((x % 2 ^ 64 : ℕ) : Int) - 2 ^ 64

namespace RandomBeacon

variable {q : ℕ}

/-- The method `Init`: the fields after initialisation. -/
def Init : RandomBeacon := { epochStage := RB_DKG_STAGE, epochId := maxUint64 }

/-- The method `getRBProposerGroup`. -/
def getRBProposerGroup (env : Env q) (epochId : Nat) : List (G1 q) :=
  env.getRBProposerGroupF epochId

/-- The method `doSendRBTx`, applied to the message whose encoding is the payload. -/
def doSendRBTx (env : Env q) (h : List (Event q)) (m : RbMsg q) : Outcome × List (Event q) :=
  match env.SendTx h m with
  | none => (Outcome.nil, [Event.sendTx m])
  | some c => (Outcome.err (Err.external c), [Event.sendTx m])

/-- The method `sendDKG`.  The payload object is handed on in place of its encoding
by `getRBDKGTxPayloadBytes`; an error of that encoding is not told apart from an
error of `SendTx`. -/
def sendDKG (env : Env q) (h : List (Event q)) (payloadObj : RbDKGTxPayload q) :
    Outcome × List (Event q) :=
  doSendRBTx env h (RbMsg.dkg payloadObj)

/-- The method `sendSIG`.  The payload object is handed on in place of its encoding
by `getRBSIGTxPayloadBytes`; an error of that encoding is not told apart from an
error of `SendTx`. -/
def sendSIG (env : Env q) (h : List (Event q)) (payloadObj : RbSIGTxPayload q) :
    Outcome × List (Event q) :=
  doSendRBTx env h (RbMsg.sig payloadObj)

/-- The function `getGenRTxPayloadBytes`; a nil `random` is `none`.  The epoch id
is packed as `big.NewInt(int64(epochId))`. -/
def getGenRTxPayloadBytes (env : Env q) (epochId : Nat) (random : Option Nat) :
    Except Err (RbMsg q) :=
  match random with
  | none => Except.error Err.invalidRandom
  | some r =>
    match env.PackGenR (int64 epochId) r with
    | some c => Except.error (Err.external c)
    | none => Except.ok (RbMsg.genR (int64 epochId) r)

/-- The method `sendRandom`: an error of the encoding is returned before the hook
is called. -/
def sendRandom (env : Env q) (h : List (Event q)) (epochId : Nat) (random : Option Nat) :
    Outcome × List (Event q) :=
  match getGenRTxPayloadBytes env epochId random with
  | Except.error e => (Outcome.err e, [])
  | Except.ok payload => doSendRBTx env h payload

/-- The method `saveRandom`; a nil `random` is `none`. -/
def saveRandom (env : Env q) (h : List (Event q)) (epochId : Nat) (random : Option Nat) :
    Outcome × List (Event q) :=
  match random with
  | none => (Outcome.err Err.invalidRandom, [])
  | some r => sendRandom env h epochId (some r)

/-- The method `getMyRBProposerId`; `uint32(i)` is `i % 2^32`. -/
def getMyRBProposerId (env : Env q) (epochId : Nat) : List Nat :=
  let pks := getRBProposerGroup env epochId
  if pks.length = 0 then []
  else match env.cfg.SelfPuK with
    | none => []
    | some selfPk =>
      ((List.range pks.length).filter
        (fun i => decide ((pks[i]?).map G1.String = some selfPk.String))).map
        (fun i => i % 2 ^ 32)

/-- The method `generateDKG`.  The abscissa of member `i` is
`SetBytes(GetPolynomialX(pks[i], i)) mod Order`. -/
def generateDKG (env : Env q) (h : List (Event q)) (epochId proposerId : Nat) :
    Except Err (RbDKGTxPayload q) :=
  let pks := getRBProposerGroup env epochId
  let nr := pks.length
  if nr = 0 then Except.error Err.noProposerGroup
  else
    let x : List Nat := (List.range nr).map (fun i =>
      SetBytes (env.GetPolynomialX (pks.getD i (G1.ScalarBaseMult 0)) (i % 2 ^ 32)) % q)
    match env.randInt h with
    | Except.error c => Except.error (Err.external c)
    | Except.ok s =>
      let poly : List (ZMod q) := wanpos.RandPoly env.cfg.PolymDegree s (env.randCoef h)
      let sshare : List (ZMod q) := x.map (fun xi =>
        wanpos.EvaluatePoly poly xi env.cfg.PolymDegree)
      let enshare : List (G1 q) := List.zipWith (fun pk si => G1.ScalarMult pk si.val) pks sshare
      let commit : List (G2 q) := sshare.map (fun si => G2.ScalarBaseMult si.val)
      let proof : List (wanpos.DLEQproof q) :=
        List.zipWith (fun pk si => env.DLEQ pk env.Hbase si) pks sshare
      Except.ok ⟨epochId, proposerId, enshare, commit, proof⟩

/-- The method `doDKG`. -/
def doDKG (env : Env q) (h : List (Event q)) (epochId proposerId : Nat) :
    Outcome × List (Event q) :=
  let ev := [Event.beginDKG epochId proposerId]
  match generateDKG env (h ++ ev) epochId proposerId with
  | Except.error e => (Outcome.err e, ev)
  | Except.ok txPayload =>
    let r := sendDKG env (h ++ ev) txPayload
    (r.1, ev ++ r.2)

/-- The method `doDKGs`. -/
def doDKGs (env : Env q) (h : List (Event q)) (epochId : Nat) :
    List Nat → Outcome × List (Event q)
  | [] => (Outcome.nil, [])
  | id :: rest =>
    let r := doDKG env h epochId id
    match r.1 with
    | Outcome.nil =>
      let r2 := doDKGs env (h ++ r.2) epochId rest
      (r2.1, r.2 ++ r2.2)
    | o => (o, r.2)

/-- One round of the loop of `doSIG` that adds `skinver · Enshare[proposerId]` to
`gskshare`; `none` when the round panics (index out of range, nil `skinver`). -/
def gskStep (proposerId : Nat) (skinver : Option Nat) (acc : Option (G1 q))
    (data : RbDKGTxPayload q) : Option (G1 q) :=
  match acc, data.Enshare[proposerId]?, skinver with
  | some g, some e, some k => some (g.Add (e.ScalarMult k))
  | _, _, _ => none

/-- The method `doSIG`.  The key of the collector is not read and is left out;
`Enshare[proposerId]` out of range, a nil private key and a nil `skinver` panic. -/
def doSIG (env : Env q) (h : List (Event q)) (epochId proposerId : Nat) :
    Outcome × List (Event q) :=
  let ev := [Event.beginSIG epochId proposerId]
  let pks := getRBProposerGroup env epochId
  if pks.length = 0 then (Outcome.err Err.noProposerGroup, ev)
  else
    let datas : List (RbDKGTxPayload q) :=
      (List.range pks.length).filterMap (fun id => env.GetDkg epochId (id % 2 ^ 32))
    let dkgCount := datas.length
    if dkgCount < env.cfg.MinRBProposerCnt then (Outcome.err Err.insufficientProposer, ev)
    else
      match env.cfg.SelfPrK with
      | none => (Outcome.panic, ev)
      | some prikey =>
        let skinver := ModInverse prikey q
        let gskshare : Option (G1 q) :=
          datas.foldl (gskStep proposerId skinver) (some (G1.ScalarBaseMult 0))
        match gskshare with
        | none => (Outcome.panic, ev)
        | some gsk =>
          let ev2 := ev ++ [Event.getRBM epochId]
          match env.GetRBM epochId with
          | Except.error c => (Outcome.err (Err.external c), ev2)
          | Except.ok mBuf =>
            let m := SetBytes mBuf
            let gsigshare := gsk.ScalarMult m
            let r := sendSIG env (h ++ ev2) ⟨epochId, proposerId, gsigshare⟩
            (r.1, ev2 ++ r.2)

/-- The method `doSIGs`. -/
def doSIGs (env : Env q) (h : List (Event q)) (epochId : Nat) :
    List Nat → Outcome × List (Event q)
  | [] => (Outcome.nil, [])
  | id :: rest =>
    let r := doSIG env h epochId id
    match r.1 with
    | Outcome.nil =>
      let r2 := doSIGs env (h ++ r.2) epochId rest
      (r2.1, r.2 ++ r2.2)
    | o => (o, r.2)

/-- The `for { switch rb.epochStage { … } }` of `Loop`, run for at most `fuel`
iterations; `none` when the iterations are used up before a `return`. -/
def stageLoop (env : Env q) (epochId : Nat) (myProposerIds : List Nat) (rbStage : Int) :
    Nat → RandomBeacon → List (Event q) → Option (Outcome × RandomBeacon × List (Event q))
  | 0, _, _ => none
  | fuel + 1, rb, tr =>
    if rb.epochStage = RB_DKG_STAGE then
      if rbStage = RB_DKG_STAGE then
        let r := doDKGs env tr epochId myProposerIds
        match r.1 with
        | Outcome.nil =>
          stageLoop env epochId myProposerIds rbStage fuel
            { rb with epochStage := RB_SIGN_STAGE } (tr ++ r.2)
        | o => some (o, rb, tr ++ r.2)
      else
        stageLoop env epochId myProposerIds rbStage fuel
          { rb with epochStage := RB_SIGN_STAGE } tr
    else if rb.epochStage = RB_SIGN_STAGE then
      if rbStage < RB_SIGN_STAGE then some (Outcome.nil, rb, tr)
      else if rbStage = RB_SIGN_STAGE then
        let r := doSIGs env tr epochId myProposerIds
        match r.1 with
        | Outcome.nil =>
          stageLoop env epochId myProposerIds rbStage fuel
            { rb with epochStage := RB_AFTER_SIGH_STAGE } (tr ++ r.2)
        | o => some (o, rb, tr ++ r.2)
      else
        stageLoop env epochId myProposerIds rbStage fuel
          { rb with epochStage := RB_AFTER_SIGH_STAGE } tr
    else some (Outcome.nil, rb, tr)

/-- The method `Loop`.  The three arguments say whether `statedb`, `epocher` and
`rc` are non-nil; the result is what the tick returned, the fields after it and
the events of the tick. -/
def Loop (fuel : Nat) (env : Env q) (rb : RandomBeacon) (statedb epocher rc : Bool) :
    Option (Outcome × RandomBeacon × List (Event q)) :=
  if statedb = false ∨ epocher = false ∨ rc = false then
    some (Outcome.err Err.invalidLoopParam, rb, [])
  else
    match env.GetEpochSlotID with
    | Except.error _ => some (Outcome.nil, rb, [])
    | Except.ok (epochId, slotId) =>
      if rb.epochId ≠ maxUint64 ∧ rb.epochId > epochId then
        some (Outcome.err Err.rollback, rb, [])
      else
        let rb1 : RandomBeacon :=
          if rb.epochId = maxUint64 then { epochStage := RB_DKG_STAGE, epochId := epochId }
          else rb
        let rb2 : RandomBeacon :=
          if rb1.epochId < epochId then { epochStage := RB_DKG_STAGE, epochId := epochId }
          else rb1
        let myProposerIds := getMyRBProposerId env epochId
        if myProposerIds.length = 0 then some (Outcome.nil, rb2, [])
        else
          let rbStage := env.GetRBStage slotId
          stageLoop env epochId myProposerIds rbStage fuel rb2 []

end RandomBeacon

/-- The test `randomInt != nil && randomInt.Cmp(big.NewInt(0)) != 0` of
`DoComputeRandom`. -/
def randomExists : Option Int → Bool
  | some randomInt => decide (randomInt ≠ 0)
  | none => false

/-- The type `RbDKGDataCollector`. -/
structure RbDKGDataCollector (q : ℕ) where
  data : RbDKGTxPayload q
  pk : G1 q

/-- The type `RbSIGDataCollector`. -/
structure RbSIGDataCollector (q : ℕ) where
  data : RbSIGTxPayload q
  pk : G1 q

/-- All entries of a list of indexed reads, or `none` when one of the reads is out
of range (the Go loop panics at the first such read). -/
def allInRange {α : Type} : List (Option α) → Option (List α)
  | [] => some []
  | none :: _ => none
  | some a :: rest => (allInRange rest).map (fun l => a :: l)

namespace RandomBeacon

variable {q : ℕ}

/-- The slice `dkgDatas` of `DoComputeRandom` after the collecting loop. -/
def collectDkg (env : Env q) (epochId : Nat) : List (RbDKGDataCollector q) :=
  let pks := getRBProposerGroup env epochId
  (List.range pks.length).filterMap (fun id =>
    (env.GetDkg epochId (id % 2 ^ 32)).map (fun d => ⟨d, pks.getD id (G1.ScalarBaseMult 0)⟩))

/-- The slice `sigDatas` of `DoComputeRandom` after the collecting loop. -/
def collectSig (env : Env q) (epochId : Nat) : List (RbSIGDataCollector q) :=
  let pks := getRBProposerGroup env epochId
  (List.range pks.length).filterMap (fun id =>
    (env.GetSig epochId (id % 2 ^ 32)).map (fun d => ⟨d, pks.getD id (G1.ScalarBaseMult 0)⟩))

/-- The slice `xSig` of `DoComputeRandom`: `SetBytes(GetPolynomialX(pk, ProposerId))`
of each collected signature payload. -/
def xSig (env : Env q) (epochId : Nat) : List Nat :=
  (collectSig env epochId).map (fun d => SetBytes (env.GetPolynomialX d.pk d.data.ProposerId))

/-- The slice `xAll` of `DoComputeRandom`. -/
def xAll (env : Env q) (epochId : Nat) : List Nat :=
  let pks := getRBProposerGroup env epochId
  (List.range pks.length).map (fun i =>
    SetBytes (env.GetPolynomialX (pks.getD i (G1.ScalarBaseMult 0)) (i % 2 ^ 32)) % q)

/-- The value `gsig` of `DoComputeRandom`; `none` when `LagrangeSig` fails. -/
def computeGsig (env : Env q) (epochId : Nat) : Option (G1 q) :=
  let gsigshare := (collectSig env epochId).map (fun d => d.data.Gsigshare)
  wanpos.LagrangeSig gsigshare (xSig env epochId) env.cfg.PolymDegree

/-- One round of the inner loop of `DoComputeRandom` that adds
`dkgDatas[j].data.Commit[i]` to `c[i]`; `none` when the index is out of range. -/
def commitStep (i : Nat) (acc : Option (G2 q)) (d : RbDKGDataCollector q) : Option (G2 q) :=
  match acc, d.data.Commit[i]? with
  | some a, some ci => some (a.Add ci)
  | _, _ => none

/-- The slice `c` of `DoComputeRandom`, `c[i] = Σ_j dkgDatas[j].data.Commit[i]`;
`none` when a `Commit[i]` is out of range. -/
def commitSums (env : Env q) (epochId : Nat) : Option (List (G2 q)) :=
  let nr := (getRBProposerGroup env epochId).length
  allInRange ((List.range nr).map (fun i =>
    (collectDkg env epochId).foldl (commitStep i) (some (G2.ScalarBaseMult 0))))

/-- The method `DoComputeRandom`; `epochId+1` is taken modulo `2^64`. -/
def DoComputeRandom (env : Env q) (h : List (Event q)) (epochId : Nat) :
    Outcome × List (Event q) :=
  let next := (epochId + 1) % 2 ^ 64
  if randomExists (env.GetR next) = true then (Outcome.nil, [])
  else
    let pks := getRBProposerGroup env epochId
    if pks.length = 0 then (Outcome.err Err.noProposerGroup, [])
    else
      let sigDatas := collectSig env epochId
      if sigDatas.length < env.cfg.MinRBProposerCnt then
        match env.GetR epochId with
        | none => (Outcome.err Err.getRandomFail, [])
        | some randomInt =>
          let newRandom := env.Keccak256 (bigBytes randomInt)
          saveRandom env h next (some (SetBytes newRandom))
      else
        let ev1 := [Event.lagrangeSig]
        match computeGsig env epochId with
        | none => (Outcome.panic, ev1)
        | some gsig =>
          let random := env.Keccak256 (env.Marshal gsig)
          match commitSums env epochId with
          | none => (Outcome.panic, ev1)
          | some c =>
            let ev2 := ev1 ++ [Event.lagrangePub]
            match wanpos.LagrangePub c (xAll env epochId) env.cfg.PolymDegree with
            | none => (Outcome.panic, ev2)
            | some gPub =>
              let ev3 := ev2 ++ [Event.getRBM epochId]
              match env.GetRBM epochId with
              | Except.error code => (Outcome.err (Err.external code), ev3)
              | Except.ok mBuf =>
                let m := SetBytes mBuf
                let mG : G1 q := G1.ScalarBaseMult m
                let pair1 := Pair gsig env.Hbase
                let pair2 := Pair mG gPub
                let ev4 := ev3 ++ [Event.pair]
                if pair1.String ≠ pair2.String then (Outcome.err Err.pairingCheckFailed, ev4)
                else
                  let r := saveRandom env (h ++ ev4) next (some (SetBytes random))
                  (r.1, ev4 ++ r.2)

/-- The value `gPub` of `DoComputeRandom`; `none` when a `Commit[i]` is out of range
or `LagrangePub` fails. -/
def computeGPub (env : Env q) (epochId : Nat) : Option (G2 q) :=
  (commitSums env epochId).bind (fun c =>
    wanpos.LagrangePub c (xAll env epochId) env.cfg.PolymDegree)

/-- The messages handed to the transaction hook among a call's events. -/
def submissions (ev : List (Event q)) : List (RbMsg q) :=
  ev.filterMap (fun e => match e with
    | Event.sendTx m => some m
    | _ => none)

/-- The proposer ids for which a dealer run was begun among a call's events. -/
def dealerRuns (ev : List (Event q)) : List Nat :=
  ev.filterMap (fun e => match e with
    | Event.beginDKG _ id => some id
    | _ => none)

/-- The proposer ids for which a signer run was begun among a call's events. -/
def signerRuns (ev : List (Event q)) : List Nat :=
  ev.filterMap (fun e => match e with
    | Event.beginSIG _ id => some id
    | _ => none)

/-- The fields after each tick of a sequence of ticks, the first tick first; a
tick is the environment it runs in together with the three non-nil flags. -/
def runTicks (fuel : Nat) : RandomBeacon → List (Env q × Bool × Bool × Bool) → List RandomBeacon
  | _, [] => []
  | rb, (env, a, b, c) :: rest =>
    match Loop fuel env rb a b c with
    | none => []
    | some r => r.2.1 :: runTicks fuel r.2.1 rest

/-- The abscissa of committee member `i` as a scalar: `SetBytes(GetPolynomialX(PK[i], i))`
modulo the group order. -/
def abscissa (env : Env q) (epochId i : Nat) : ZMod q :=
  ((SetBytes (env.GetPolynomialX
    ((getRBProposerGroup env epochId).getD i (G1.ScalarBaseMult 0)) (i % 2 ^ 32)) : ℕ) : ZMod q)

/-- A DKG payload whose shares are the values of one polynomial `F` with at most
`PolymDegree + 1` coefficients: `Enshare[j] = F(x_j)·PK[j]` and `Commit[j] = F(x_j)·g2`
for every committee index `j`. -/
def honestDeal (env : Env q) (epochId : Nat) (p : RbDKGTxPayload q) : Prop :=
  ∃ F : Polynomial (ZMod q), (∀ m, env.cfg.PolymDegree + 1 ≤ m → F.coeff m = 0) ∧
    ∀ j, j < (getRBProposerGroup env epochId).length →
      p.Enshare[j]? = some (G1.ScalarMult
        ((getRBProposerGroup env epochId).getD j (G1.ScalarBaseMult 0))
        (F.eval (abscissa env epochId j)).val) ∧
      p.Commit[j]? = some (G2.ScalarBaseMult (F.eval (abscissa env epochId j)).val)

end RandomBeacon

/-- The proposer id that a hook message is for; `none` for a random. -/
def msgProposerId {q : ℕ} : RbMsg q → Option Nat
  | RbMsg.dkg p => some p.ProposerId
  | RbMsg.sig p => some p.ProposerId
  | RbMsg.genR _ _ => none

/-- The epoch id that a hook message carries. -/
def msgEpochId {q : ℕ} : RbMsg q → Int
  | RbMsg.dkg p => (p.EpochId : Int)
  | RbMsg.sig p => (p.EpochId : Int)
  | RbMsg.genR e _ => e

/-- Whether a hook message is a DKG payload. -/
def isDkgMsg {q : ℕ} : RbMsg q → Bool
  | RbMsg.dkg _ => true
  | _ => false

/-- Whether a hook message is a signature payload. -/
def isSigMsg {q : ℕ} : RbMsg q → Bool
  | RbMsg.sig _ => true
  | _ => false

/-! ## Average return rate: `pos/posavgretrate/posavgretrate.go` -/

namespace binary.BigEndian

/-- The function `binary.BigEndian.Uint64`: the first eight bytes of the slice read
as a big-endian integer; `none` when the slice has fewer than eight bytes (the Go
function panics with an index out of range). -/
def Uint64 (b : Bytes) : Option Nat :=
  if b.length < 8 then none else some (SetBytes (b.take 8))

/-- The function `binary.BigEndian.PutUint64` on a fresh buffer of eight bytes:
byte `i` is `byte(v >> (56 - 8·i))`. -/
def PutUint64 (v : Nat) : Bytes :=
  [⟨v / 2 ^ 56 % 256, Nat.mod_lt _ (by decide)⟩, ⟨v / 2 ^ 48 % 256, Nat.mod_lt _ (by decide)⟩,
   ⟨v / 2 ^ 40 % 256, Nat.mod_lt _ (by decide)⟩, ⟨v / 2 ^ 32 % 256, Nat.mod_lt _ (by decide)⟩,
   ⟨v / 2 ^ 24 % 256, Nat.mod_lt _ (by decide)⟩, ⟨v / 2 ^ 16 % 256, Nat.mod_lt _ (by decide)⟩,
   ⟨v / 2 ^ 8 % 256, Nat.mod_lt _ (by decide)⟩, ⟨v % 256, Nat.mod_lt _ (by decide)⟩]

end binary.BigEndian

/-- Errors returned by the methods of `PosAvgRet`: the two messages of
`GetAllStakeAndReturn` and the errors handed on from other packages. -/
inductive AvgErr where
  | noEpocher
  | unknownBlock
  | external (code : Nat)
deriving DecidableEq, Repr

/-- The state database returned by `StateAt`, as far as the file reads it. -/
structure StateDB where
  /-- The value `GetBalance(vm.WanCscPrecompileAddr)`. -/
  GetBalance : Int

/-- The block chain of the epocher instance, as far as the file reads it. -/
structure BlockChain where
  /-- The field `Root` of `GetHeaderByNumber(n)`; `none` for a nil header. -/
  GetHeaderByNumber : Nat → Option Nat
  /-- The method `StateAt`, with the error code when it fails. -/
  StateAt : Nat → Except Nat StateDB

/-- What `posavgretrate.go` takes from other packages. -/
structure AvgEnv where
  /-- The function `incentive.YearReward`. -/
  YearReward : Nat → Int
  /-- The constant `posconfig.RETURN_DIVIDE`. -/
  RETURN_DIVIDE : Int
  /-- The function `util.GetEpochBlock`. -/
  GetEpochBlock : Nat → Nat
  /-- The block chain `GetBlkChain()` of `epochLeader.GetEpocher()`; `none` when
  the epocher instance is nil. -/
  GetEpocher : Option BlockChain

/-- The database `avgdb` as an explicit key-value store: the entry stored under
`(epochID, 0, "")`, if any.  `GetWithIndex` finds exactly the stored entries and
`PutWithIndex` always stores. -/
abbrev AvgDb := Nat → Option Bytes

/-- Observable events of a call of `GetPosAverageReturnRate`, in program order:
the call of `incentive.YearReward`, the stake lookup, the write to `avgdb`. -/
inductive AvgEvent where
  | yearReward (epochID : Nat)
  | stake (epochID : Nat)
  | put (epochID : Nat) (buf : Bytes)
deriving DecidableEq

/-- What a call of `GetPosAverageReturnRate` leaves: the returned pair (`none` when
the call panics), the database and the events. -/
structure AvgResult where
  ret : Option (Nat × Option AvgErr)
  db : AvgDb
  events : List AvgEvent

namespace PosAvgRet

/-- The method `GetAllStakeAndReturn`. -/
def GetAllStakeAndReturn (env : AvgEnv) (epochID : Nat) : Except AvgErr Int :=
  let targetBlkNum := env.GetEpochBlock epochID
  match env.GetEpocher with
  | none => Except.error AvgErr.noEpocher
  | some chain =>
    match chain.GetHeaderByNumber targetBlkNum with
    | none => Except.error AvgErr.unknownBlock
    | some root =>
      match chain.StateAt root with
      | Except.error c => Except.error (AvgErr.external c)
      | Except.ok stateDb => Except.ok stateDb.GetBalance

/-- The part of `GetPosAverageReturnRate` after the lookup in `avgdb`: `Div` is
Euclidean division and panics on a zero divisor, `Uint64()` gives the low 64 bits
of the absolute value, and the result of `PutWithIndex` is not looked at. -/
def computeRate (env : AvgEnv) (db : AvgDb) (epochID : Nat) : AvgResult :=
  let reward := env.YearReward epochID
  let ev := [AvgEvent.yearReward epochID, AvgEvent.stake epochID]
  match GetAllStakeAndReturn env epochID with
  | Except.error err => ⟨some (0, some err), db, ev⟩
  | Except.ok amount =>
    let a := reward * env.RETURN_DIVIDE
    if amount = 0 then ⟨none, db, ev⟩
    else
      let p2 := (Int.ediv a amount).natAbs % 2 ^ 64
      let buf := binary.BigEndian.PutUint64 p2
      ⟨some (p2, none), fun k => if k = epochID then some buf else db k,
        ev ++ [AvgEvent.put epochID buf]⟩

/-- The method `GetPosAverageReturnRate`. -/
def GetPosAverageReturnRate (env : AvgEnv) (db : AvgDb) (epochID : Nat) : AvgResult :=
  match db epochID with
  | some val =>
    match binary.BigEndian.Uint64 val with
    | none => ⟨none, db, []⟩
    | some p2 => if p2 ≠ 0 then ⟨some (p2, none), db, []⟩ else computeRate env db epochID
  | none => computeRate env db epochID

end PosAvgRet

/-! ## Concrete environments -/

/-- A committee of three members over the group of order 7, with keys `1·g1`,
`2·g1`, `3·g1`, abscissa bytes `[i+1]` for member `i`, degree 1 and quorum 2; no
payload is on chain and every collaborator succeeds. -/
def baseEnv : Env 7 where
  cfg := { SelfPuK := some ⟨1⟩, SelfPrK := some 1, PolymDegree := 1, MinRBProposerCnt := 2 }
  getRBProposerGroupF := fun _ => [⟨1⟩, ⟨2⟩, ⟨3⟩]
  GetEpochSlotID := Except.ok (10, 0)
  GetRBStage := fun slot => if slot < 4 then 0 else if slot < 8 then 1 else 2
  GetDkg := fun _ _ => none
  GetSig := fun _ _ => none
  GetR := fun _ => none
  GetRBM := fun _ => Except.ok [3]
  GetPolynomialX := fun _ i => [⟨(i + 1) % 256, Nat.mod_lt _ (by decide)⟩]
  Keccak256 := fun b => b
  Marshal := fun p => [⟨p.dlog.val % 256, Nat.mod_lt _ (by decide)⟩]
  Hbase := ⟨1⟩
  DLEQ := fun _ _ s => ⟨⟨0⟩, ⟨0⟩, s.val⟩
  randInt := fun _ => Except.ok 2
  randCoef := fun _ i => i
  PackGenR := fun _ _ => none
  SendTx := fun _ _ => none

/-- The second tick of scenario E: the chain reports epoch 9, slot 10. -/
def scenarioE : Env 7 := { baseEnv with GetEpochSlotID := Except.ok (9, 10) }

/-- An outcome that a dealer or signer run can hand back to `Loop`: never one of
the two errors that `Loop` itself creates. -/
def calleeOutcome (o : Outcome) : Prop :=
  o ≠ Outcome.err Err.rollback ∧ o ≠ Outcome.err Err.invalidLoopParam

/-- A committee in which the node with key `1·g1` owns the slots 0 and 2. -/
def ownsTwo : Env 7 := { baseEnv with getRBProposerGroupF := fun _ => [⟨1⟩, ⟨2⟩, ⟨1⟩] }

/-- The fields of `RandomBeacon` after the two epoch checks of an accepted tick for
`epochId`: reset to stage DKG when the stored id is `maxUint64` or smaller. -/
def afterReset (rb : RandomBeacon) (epochId : Nat) : RandomBeacon :=
  if rb.epochId = maxUint64 ∨ rb.epochId < epochId then ⟨RB_DKG_STAGE, epochId⟩ else rb

/-- A node whose key is not in the committee. -/
def notMember : Env 7 :=
  { baseEnv with cfg := { SelfPuK := some ⟨5⟩, SelfPrK := some 5, PolymDegree := 1,
                          MinRBProposerCnt := 2 } }

/-- A tick of epoch 10 in a slot of stage SIGN. -/
def signTick : Env 7 := { baseEnv with GetEpochSlotID := Except.ok (10, 5) }

/-- A tick that reads the epoch id `maxUint64` in a slot of stage AFTER_SIGN. -/
def maxTickLate : Env 7 := { baseEnv with GetEpochSlotID := Except.ok (maxUint64, 9) }

/-- A tick that reads the epoch id `maxUint64` in a slot of stage DKG. -/
def maxTickEarly : Env 7 := { baseEnv with GetEpochSlotID := Except.ok (maxUint64, 0) }

/-- A chain on which `R[10] = 5`, `R[11]` is unset and no signature payload is stored. -/
def fallbackEnv : Env 7 :=
  { baseEnv with GetR := fun e => if e = 10 then some 5 else none }

/-- The chain of `fallbackEnv` after the fallback random 5 was recorded as `R[11]`. -/
def recordedEnv : Env 7 :=
  { baseEnv with GetR := fun e => if e = 10 then some 5 else if e = 11 then some 5 else none }

/-- A chain with `R[11] = 5` and an empty committee for every epoch. -/
def emptyCommitteeEnv : Env 7 :=
  { baseEnv with
    getRBProposerGroupF := fun _ => []
    GetR := fun e => if e = 11 then some 5 else none }

/-- The signature payload handed to the hook among a call's events, if any. -/
def submittedSig {q : ℕ} (ev : List (Event q)) : Option (RbSIGTxPayload q) :=
  ev.findSome? (fun e => match e with
    | Event.sendTx (RbMsg.sig p) => some p
    | _ => none)

/-- The chain of `baseEnv` after the three members dealt for epoch 10: the payload
stored for index `i` is what `generateDKG` returns for it. -/
def dkgChain : Env 7 :=
  { baseEnv with
    GetDkg := fun e i =>
      if e = 10 ∧ i < 3 then (RandomBeacon.generateDKG baseEnv [] 10 i).toOption else none }

/-- The environment of the node that owns slot `d` of `dkgChain`, with key `d + 1`. -/
def signerEnv (d : Nat) : Env 7 :=
  { dkgChain with
    cfg := { SelfPuK := some (G1.ScalarBaseMult (d + 1)), SelfPrK := some (d + 1),
             PolymDegree := 1, MinRBProposerCnt := 2 } }

/-- The chain of `dkgChain` after the owners of slots 0 and 1 signed for epoch 10:
the payload stored for index `d` is what `doSIG` handed to the hook. -/
def sigChain : Env 7 :=
  { dkgChain with
    GetSig := fun e d =>
      if e = 10 ∧ d < 2 then submittedSig (RandomBeacon.doSIG (signerEnv d) [] 10 d).2
      else none }

/-- A node that owns all three slots of the committee and whose hook fails, with
code 1, for every message of proposer id 1. -/
def hookFailsAtOne : Env 7 :=
  { baseEnv with
    getRBProposerGroupF := fun _ => [⟨1⟩, ⟨1⟩, ⟨1⟩]
    SendTx := fun _ m => if msgProposerId m = some 1 then some 1 else none }

/-- A committee of one member with degree 1: smaller than `PolymDegree + 1`. -/
def smallCommittee : Env 7 := { baseEnv with getRBProposerGroupF := fun _ => [⟨1⟩] }


/-- A chain on which `vm.GetPolynomialX` gives, for proposer id `i`, the bytes of
`i + 8`, a value above the group order 7, and on which the owners of slots 0 and 1
have stored a signature payload for epoch 10. -/
def wideHash : Env 7 :=
  { baseEnv with
    GetPolynomialX := fun _ i => [⟨(i + 8) % 256, Nat.mod_lt _ (by decide)⟩]
    GetSig := fun e d => if e = 10 ∧ d < 2 then some ⟨10, d, ⟨1⟩⟩ else none }

/-- The chain seen by the owner of slot 1 (key 2) when every stored DKG payload of
epoch 10 has one `Enshare` entry and two `Commit` entries, for a committee of
three, and the owners of slots 0 and 1 have stored a signature payload. -/
def shortVectors : Env 7 :=
  { baseEnv with
    cfg := { SelfPuK := some (G1.ScalarBaseMult 2), SelfPrK := some 2,
             PolymDegree := 1, MinRBProposerCnt := 2 }
    GetDkg := fun e i =>
      if e = 10 ∧ i < 3 then some ⟨10, i, [⟨1⟩], [⟨1⟩, ⟨1⟩], []⟩ else none
    GetSig := fun e d => if e = 10 ∧ d < 2 then some ⟨10, d, ⟨1⟩⟩ else none }

/-- A chain for `GetPosAverageReturnRate`: yearly reward 1000, `RETURN_DIVIDE`
10000, epoch `e` ends at block `10·e`, the header of block `n` has root `n` and the
stake at every root is 2500000. -/
def avgEnv : AvgEnv where
  YearReward := fun _ => 1000
  RETURN_DIVIDE := 10000
  GetEpochBlock := fun e => 10 * e
  GetEpocher := some
    { GetHeaderByNumber := fun n => some n
      StateAt := fun _ => Except.ok ⟨2500000⟩ }

/-- The chain of `fallbackEnv` with an encoding of the random that fails with code 7. -/
def packFails : Env 7 := { fallbackEnv with PackGenR := fun _ _ => some 7 }

/-- A chain at epoch `2^63 - 1` with `R[2^63 - 1] = 5`, no `R[2^63]` and no
signature payload. -/
def lateEpoch : Env 7 :=
  { baseEnv with GetR := fun e => if e = 2 ^ 63 - 1 then some 5 else none }

/-- A committee in which the node with key `1·g1` owns all three slots. -/
def ownsAll : Env 7 := { baseEnv with getRBProposerGroupF := fun _ => [⟨1⟩, ⟨1⟩, ⟨1⟩] }

/-- The chain of `ownsAll` after the node dealt for its three slots in epoch 10. -/
def ownsAllDealt : Env 7 :=
  { ownsAll with
    GetDkg := fun e i =>
      if e = 10 ∧ i < 3 then (RandomBeacon.generateDKG ownsAll [] 10 i).toOption else none }

/-- The chain of `sigChain` with `Hbase` the generator `2·g2` instead of `g2`. -/
def independentH : Env 7 := { sigChain with Hbase := G2.ScalarBaseMult 2 }
/-! ## Theorems -/

namespace RandomBeacon

variable {q : ℕ}

lemma doSendRBTx_fst (env : Env q) (h : List (Event q)) (m : RbMsg q) :
    (doSendRBTx env h m).1 = Outcome.nil ∨
      ∃ c, (doSendRBTx env h m).1 = Outcome.err (Err.external c) := by
  unfold doSendRBTx
  cases env.SendTx h m with
  | none => exact Or.inl rfl
  | some c => exact Or.inr ⟨c, rfl⟩

lemma doSendRBTx_snd (env : Env q) (h : List (Event q)) (m : RbMsg q) :
    (doSendRBTx env h m).2 = [Event.sendTx m] := by
  unfold doSendRBTx
  cases env.SendTx h m <;> rfl

lemma generateDKG_error (env : Env q) (h : List (Event q)) (e id : Nat) (err : Err)
    (hg : generateDKG env h e id = Except.error err) :
    err = Err.noProposerGroup ∨ ∃ c, err = Err.external c := by
  unfold generateDKG at hg
  simp only at hg
  split_ifs at hg with h0
  · left; cases hg; rfl
  · split at hg
    · right; cases hg; exact ⟨_, rfl⟩
    · cases hg

lemma doDKG_callee (env : Env q) (h : List (Event q)) (e id : Nat) :
    calleeOutcome (doDKG env h e id).1 := by
  unfold doDKG
  simp only
  cases hg : generateDKG env (h ++ [Event.beginDKG e id]) e id with
  | error err =>
    rcases generateDKG_error env _ e id err hg with h1 | ⟨c, h1⟩ <;> subst h1 <;>
      simp [calleeOutcome]
  | ok p =>
    simp only [sendDKG]
    rcases doSendRBTx_fst env (h ++ [Event.beginDKG e id]) (RbMsg.dkg p) with h1 | ⟨c, h1⟩ <;>
      simp [h1, calleeOutcome]

lemma doSIG_callee (env : Env q) (h : List (Event q)) (e id : Nat) :
    calleeOutcome (doSIG env h e id).1 := by
  unfold doSIG
  simp only [sendSIG]
  split_ifs
  · simp [calleeOutcome]
  · simp [calleeOutcome]
  · split
    · simp [calleeOutcome]
    · split
      · simp [calleeOutcome]
      · split
        · simp [calleeOutcome]
        · rename_i g _ _ mBuf _
          rcases doSendRBTx_fst env (h ++ ([Event.beginSIG e id] ++ [Event.getRBM e]))
            (RbMsg.sig ⟨e, id, g.ScalarMult (SetBytes mBuf)⟩) with h1 | ⟨c, h1⟩ <;>
            simp [calleeOutcome] <;> simp_all

lemma doDKGs_cons (env : Env q) (h : List (Event q)) (e id : Nat) (rest : List Nat) :
    doDKGs env h e (id :: rest) =
      if (doDKG env h e id).1 = Outcome.nil then
        ((doDKGs env (h ++ (doDKG env h e id).2) e rest).1,
          (doDKG env h e id).2 ++ (doDKGs env (h ++ (doDKG env h e id).2) e rest).2)
      else doDKG env h e id := by
  rw [doDKGs]
  generalize doDKG env h e id = r
  obtain ⟨o, ev⟩ := r
  cases o <;> simp

lemma doSIGs_cons (env : Env q) (h : List (Event q)) (e id : Nat) (rest : List Nat) :
    doSIGs env h e (id :: rest) =
      if (doSIG env h e id).1 = Outcome.nil then
        ((doSIGs env (h ++ (doSIG env h e id).2) e rest).1,
          (doSIG env h e id).2 ++ (doSIGs env (h ++ (doSIG env h e id).2) e rest).2)
      else doSIG env h e id := by
  rw [doSIGs]
  generalize doSIG env h e id = r
  obtain ⟨o, ev⟩ := r
  cases o <;> simp

lemma doDKGs_callee (env : Env q) (e : Nat) (ids : List Nat) :
    ∀ h : List (Event q), calleeOutcome (doDKGs env h e ids).1 := by
  induction ids with
  | nil => intro h; simp [doDKGs, calleeOutcome]
  | cons id rest ih =>
    intro h
    rw [doDKGs_cons]
    split_ifs
    · exact ih _
    · exact doDKG_callee env h e id

lemma doSIGs_callee (env : Env q) (e : Nat) (ids : List Nat) :
    ∀ h : List (Event q), calleeOutcome (doSIGs env h e ids).1 := by
  induction ids with
  | nil => intro h; simp [doSIGs, calleeOutcome]
  | cons id rest ih =>
    intro h
    rw [doSIGs_cons]
    split_ifs
    · exact ih _
    · exact doSIG_callee env h e id

lemma stageLoop_after (env : Env q) (e : Nat) (ids : List Nat) (rbStage : Int) (fuel : Nat)
    (rb : RandomBeacon) (tr : List (Event q))
    (h1 : rb.epochStage ≠ RB_DKG_STAGE) (h2 : rb.epochStage ≠ RB_SIGN_STAGE) :
    stageLoop env e ids rbStage (fuel + 1) rb tr = some (Outcome.nil, rb, tr) := by
  rw [stageLoop, if_neg h1, if_neg h2]

lemma stageLoop_sign (env : Env q) (e : Nat) (ids : List Nat) (rbStage : Int) (fuel : Nat)
    (rb : RandomBeacon) (tr : List (Event q)) (hs : rb.epochStage = RB_SIGN_STAGE) :
    stageLoop env e ids rbStage (fuel + 2) rb tr =
      if rbStage < RB_SIGN_STAGE then some (Outcome.nil, rb, tr)
      else if rbStage = RB_SIGN_STAGE then
        (if (doSIGs env tr e ids).1 = Outcome.nil then
          some (Outcome.nil, { rb with epochStage := RB_AFTER_SIGH_STAGE },
            tr ++ (doSIGs env tr e ids).2)
        else some ((doSIGs env tr e ids).1, rb, tr ++ (doSIGs env tr e ids).2))
      else some (Outcome.nil, { rb with epochStage := RB_AFTER_SIGH_STAGE }, tr) := by
  have hne : rb.epochStage ≠ RB_DKG_STAGE := by rw [hs]; decide
  have hafter : ∀ tr2 : List (Event q),
      stageLoop env e ids rbStage (fuel + 1) { rb with epochStage := RB_AFTER_SIGH_STAGE } tr2
        = some (Outcome.nil, { rb with epochStage := RB_AFTER_SIGH_STAGE }, tr2) := by
    intro tr2
    apply stageLoop_after
    · show RB_AFTER_SIGH_STAGE ≠ RB_DKG_STAGE; decide
    · show RB_AFTER_SIGH_STAGE ≠ RB_SIGN_STAGE; decide
  rw [stageLoop, if_neg hne, if_pos hs]
  split_ifs with ha hb hc
  · rfl
  · simp only [hc]; exact hafter _
  · generalize doSIGs env tr e ids = r at hc ⊢
    obtain ⟨o, ev⟩ := r
    cases o <;> simp at hc ⊢
  · exact hafter _

lemma stageLoop_dkg (env : Env q) (e : Nat) (ids : List Nat) (rbStage : Int) (fuel : Nat)
    (rb : RandomBeacon) (tr : List (Event q)) (hd : rb.epochStage = RB_DKG_STAGE) :
    stageLoop env e ids rbStage (fuel + 3) rb tr =
      if rbStage = RB_DKG_STAGE then
        (if (doDKGs env tr e ids).1 = Outcome.nil then
          some (Outcome.nil, { rb with epochStage := RB_SIGN_STAGE },
            tr ++ (doDKGs env tr e ids).2)
        else some ((doDKGs env tr e ids).1, rb, tr ++ (doDKGs env tr e ids).2))
      else stageLoop env e ids rbStage (fuel + 2) { rb with epochStage := RB_SIGN_STAGE } tr := by
  rw [stageLoop, if_pos hd]
  split_ifs with ha hb
  · simp only [hb]
    rw [stageLoop_sign env e ids rbStage fuel _ _ rfl]
    have : rbStage < RB_SIGN_STAGE := by rw [ha]; decide
    simp [this]
  · generalize doDKGs env tr e ids = r at hb ⊢
    obtain ⟨o, ev⟩ := r
    cases o <;> simp at hb ⊢
  · rfl

lemma stageLoop_total (env : Env q) (e : Nat) (ids : List Nat) (rbStage : Int) (fuel : Nat)
    (hf : 3 ≤ fuel) (rb : RandomBeacon) (tr : List (Event q)) :
    ∃ r, stageLoop env e ids rbStage fuel rb tr = some r ∧
      (r.1 = Outcome.nil ∨ calleeOutcome r.1) := by
  obtain ⟨n, rfl⟩ : ∃ n, fuel = n + 3 := ⟨fuel - 3, by omega⟩
  have hsign : ∀ (rb : RandomBeacon) (tr : List (Event q)), rb.epochStage = RB_SIGN_STAGE →
      ∃ r, stageLoop env e ids rbStage (n + 2) rb tr = some r ∧
        (r.1 = Outcome.nil ∨ calleeOutcome r.1) := by
    intro rb tr hs
    rw [stageLoop_sign env e ids rbStage n rb tr hs]
    split_ifs
    · exact ⟨_, rfl, Or.inl rfl⟩
    · exact ⟨_, rfl, Or.inl rfl⟩
    · exact ⟨_, rfl, Or.inr (doSIGs_callee env e ids tr)⟩
    · exact ⟨_, rfl, Or.inl rfl⟩
  by_cases hd : rb.epochStage = RB_DKG_STAGE
  · rw [stageLoop_dkg env e ids rbStage n rb tr hd]
    split_ifs
    · exact ⟨_, rfl, Or.inl rfl⟩
    · exact ⟨_, rfl, Or.inr (doDKGs_callee env e ids tr)⟩
    · exact hsign _ _ rfl
  · by_cases hs : rb.epochStage = RB_SIGN_STAGE
    · have := hsign rb tr hs
      rw [stageLoop_sign env e ids rbStage n rb tr hs] at this
      rw [stageLoop_sign env e ids rbStage (n + 1) rb tr hs]
      exact this
    · rw [stageLoop_after env e ids rbStage (n + 2) rb tr hd hs]
      exact ⟨_, rfl, Or.inl rfl⟩

lemma Loop_accepted (fuel : Nat) (env : Env q) (rb : RandomBeacon) (e s : Nat)
    (hread : env.GetEpochSlotID = Except.ok (e, s))
    (hno : ¬ (rb.epochId ≠ maxUint64 ∧ e < rb.epochId)) :
    Loop fuel env rb true true true =
      if (getMyRBProposerId env e).length = 0 then
        some (Outcome.nil,
          (if rb.epochId = maxUint64 ∨ rb.epochId < e then ⟨RB_DKG_STAGE, e⟩ else rb), [])
      else
        stageLoop env e (getMyRBProposerId env e) (env.GetRBStage s) fuel
          (if rb.epochId = maxUint64 ∨ rb.epochId < e then ⟨RB_DKG_STAGE, e⟩ else rb) [] := by
  have hrb2 : (if (if rb.epochId = maxUint64 then
        ({ epochStage := RB_DKG_STAGE, epochId := e } : RandomBeacon) else rb).epochId < e
      then ({ epochStage := RB_DKG_STAGE, epochId := e } : RandomBeacon)
      else (if rb.epochId = maxUint64 then
        ({ epochStage := RB_DKG_STAGE, epochId := e } : RandomBeacon) else rb)) =
      (if rb.epochId = maxUint64 ∨ rb.epochId < e then ⟨RB_DKG_STAGE, e⟩ else rb) := by
    by_cases h1 : rb.epochId = maxUint64
    · simp [h1]
    · by_cases h2 : rb.epochId < e <;> simp [h1, h2]
  unfold Loop
  simp only [hread, gt_iff_lt, hno, if_false, Bool.true_eq_false, or_self]
  rw [hrb2]

lemma Loop_rollback (fuel : Nat) (env : Env q) (rb : RandomBeacon) (e s : Nat)
    (hread : env.GetEpochSlotID = Except.ok (e, s))
    (hrb : rb.epochId ≠ maxUint64 ∧ e < rb.epochId) :
    Loop fuel env rb true true true = some (Outcome.err Err.rollback, rb, []) := by
  unfold Loop
  simp [hread, hrb]

end RandomBeacon

open RandomBeacon

/-- C1: a tick with valid parameters and a successful epoch/slot read returns
the "blockchain rollback" error exactly when the stored epoch id is not the
sentinel `maxUint64` and is larger than the epoch id read; in that case the stored
fields are unchanged and the tick has no event at all, so no dealer or signer
step is run. -/
theorem Loop_rollback_iff {q : ℕ} (fuel : Nat) (hf : 3 ≤ fuel) (env : Env q)
    (rb : RandomBeacon) (epochId slotId : Nat)
    (hread : env.GetEpochSlotID = Except.ok (epochId, slotId)) :
    ∃ r, Loop fuel env rb true true true = some r ∧
      (r.1 = Outcome.err Err.rollback ↔ (rb.epochId ≠ maxUint64 ∧ epochId < rb.epochId)) ∧
      (r.1 = Outcome.err Err.rollback →
        r.2.1 = rb ∧ r.2.2 = [] ∧ dealerRuns r.2.2 = [] ∧ signerRuns r.2.2 = []) := by
  by_cases hrb : rb.epochId ≠ maxUint64 ∧ epochId < rb.epochId
  · refine ⟨_, Loop_rollback fuel env rb epochId slotId hread hrb, ?_, ?_⟩
    · simp [hrb]
    · intro _; exact ⟨rfl, rfl, rfl, rfl⟩
  · rw [Loop_accepted fuel env rb epochId slotId hread hrb]
    have key : ∀ r : Outcome × RandomBeacon × List (Event q),
        (r.1 = Outcome.nil ∨ calleeOutcome r.1) → r.1 ≠ Outcome.err Err.rollback := by
      intro r hr
      rcases hr with h1 | h1
      · rw [h1]; simp
      · exact h1.1
    generalize (if rb.epochId = maxUint64 ∨ rb.epochId < epochId then
      (⟨RB_DKG_STAGE, epochId⟩ : RandomBeacon) else rb) = rb2
    by_cases h0 : (getMyRBProposerId env epochId).length = 0
    · rw [if_pos h0]
      refine ⟨_, rfl, ?_, ?_⟩
      · simp [hrb]
      · intro h; simp at h
    · rw [if_neg h0]
      obtain ⟨r, hr, hout⟩ := stageLoop_total env epochId (getMyRBProposerId env epochId)
        (env.GetRBStage slotId) fuel hf rb2 []
      refine ⟨r, hr, ?_, ?_⟩
      · constructor
        · intro h; exact absurd h (key r hout)
        · intro h; exact absurd h hrb
      · intro h; exact absurd h (key r hout)

/-- Witness of C1 (scenario E): stored epoch 10, stage SIGN, tick for epoch 9. -/
theorem Loop_rollback_iff_witness :
    ∃ r, Loop 3 scenarioE ⟨RB_SIGN_STAGE, 10⟩ true true true = some r ∧
      (r.1 = Outcome.err Err.rollback ↔
        ((⟨RB_SIGN_STAGE, 10⟩ : RandomBeacon).epochId ≠ maxUint64 ∧
          9 < (⟨RB_SIGN_STAGE, 10⟩ : RandomBeacon).epochId)) ∧
      (r.1 = Outcome.err Err.rollback →
        r.2.1 = ⟨RB_SIGN_STAGE, 10⟩ ∧ r.2.2 = [] ∧ dealerRuns r.2.2 = [] ∧
          signerRuns r.2.2 = []) :=
  Loop_rollback_iff 3 (by decide) scenarioE ⟨RB_SIGN_STAGE, 10⟩ 9 10 rfl

namespace RandomBeacon

variable {q : ℕ}

lemma G1_String_inj (a b : G1 q) : a.String = b.String ↔ a = b := by
  cases a; cases b; simp [G1.String]

lemma getMyRBProposerId_eq (env : Env q) (e : Nat) (pk : G1 q)
    (hpk : env.cfg.SelfPuK = some pk) (hN : (env.getRBProposerGroupF e).length ≤ 2 ^ 32) :
    getMyRBProposerId env e =
      (List.range (env.getRBProposerGroupF e).length).filter
        (fun i => decide ((env.getRBProposerGroupF e)[i]? = some pk)) := by
  unfold getMyRBProposerId getRBProposerGroup
  simp only [hpk]
  split_ifs with h0
  · rw [h0]; rfl
  · have hfilter : (List.range (env.getRBProposerGroupF e).length).filter
        (fun i => decide (((env.getRBProposerGroupF e)[i]?).map G1.String = some pk.String)) =
        (List.range (env.getRBProposerGroupF e).length).filter
          (fun i => decide ((env.getRBProposerGroupF e)[i]? = some pk)) := by
      apply List.filter_congr
      intro i _
      cases hi : (env.getRBProposerGroupF e)[i]? with
      | none => simp
      | some a => simp [G1_String_inj]
    rw [hfilter]
    conv_rhs => rw [← List.map_id (List.filter _ _)]
    apply List.map_congr_left
    intro i hi
    have hi2 : i < (env.getRBProposerGroupF e).length := by
      have := (List.mem_filter.mp hi).1
      simpa using this
    simp only [id]
    exact Nat.mod_eq_of_lt (by omega)

end RandomBeacon

/-- C10: for a committee of at most `2^32` members, `getMyRBProposerId` returns
the strictly ascending list of exactly the indices `i` with `PK[i]` equal to the
node's key, each once; it returns the empty list when the committee is empty or
the node's public key is not configured. -/
theorem getMyRBProposerId_spec {q : ℕ} (env : Env q) (epochId : Nat)
    (hN : (env.getRBProposerGroupF epochId).length ≤ 2 ^ 32) :
    (getMyRBProposerId env epochId).Pairwise (fun a b => a < b) ∧
    (getMyRBProposerId env epochId).Nodup ∧
    (∀ i, i ∈ getMyRBProposerId env epochId ↔
      (i < (env.getRBProposerGroupF epochId).length ∧
        ∃ pk, env.cfg.SelfPuK = some pk ∧ (env.getRBProposerGroupF epochId)[i]? = some pk)) ∧
    (env.getRBProposerGroupF epochId = [] ∨ env.cfg.SelfPuK = none →
      getMyRBProposerId env epochId = []) := by
  have hempty : env.getRBProposerGroupF epochId = [] ∨ env.cfg.SelfPuK = none →
      getMyRBProposerId env epochId = [] := by
    intro h
    unfold getMyRBProposerId getRBProposerGroup
    rcases h with h | h
    · simp [h]
    · simp only [h]
      split_ifs <;> rfl
  cases hpk : env.cfg.SelfPuK with
  | none =>
    rw [hpk] at hempty
    simp [hempty (Or.inr rfl)]
  | some pk =>
    rw [hpk] at hempty
    rw [getMyRBProposerId_eq env epochId pk hpk hN]
    have hsorted : ((List.range (env.getRBProposerGroupF epochId).length).filter
        (fun i => decide ((env.getRBProposerGroupF epochId)[i]? = some pk))).Pairwise
        (fun a b => a < b) :=
      List.Pairwise.filter _ (List.pairwise_lt_range _)
    refine ⟨hsorted, ?_, ?_, ?_⟩
    · exact (List.nodup_range _).filter _
    · intro i
      simp only [List.mem_filter, List.mem_range, decide_eq_true_eq, Option.some.injEq]
      constructor
      · rintro ⟨h1, h2⟩; exact ⟨h1, pk, rfl, h2⟩
      · rintro ⟨h1, pk2, h2, h3⟩; subst h2; exact ⟨h1, h3⟩
    · intro h
      rw [← getMyRBProposerId_eq env epochId pk hpk hN]
      exact hempty h

/-- Witness of C10: the node owns slots 0 and 2 of a committee of three. -/
theorem getMyRBProposerId_spec_witness :
    getMyRBProposerId ownsTwo 0 = [0, 2] ∧
    (getMyRBProposerId ownsTwo 0).Pairwise (fun a b => a < b) ∧
    (∀ i, i ∈ getMyRBProposerId ownsTwo 0 ↔
      (i < (ownsTwo.getRBProposerGroupF 0).length ∧
        ∃ pk, ownsTwo.cfg.SelfPuK = some pk ∧ (ownsTwo.getRBProposerGroupF 0)[i]? = some pk)) :=
  ⟨by decide,
    (getMyRBProposerId_spec ownsTwo 0 (by decide)).1,
    (getMyRBProposerId_spec ownsTwo 0 (by decide)).2.2.1⟩

namespace RandomBeacon

variable {q : ℕ}

lemma dealerRuns_append (a b : List (Event q)) :
    dealerRuns (a ++ b) = dealerRuns a ++ dealerRuns b := by
  simp [dealerRuns, List.filterMap_append]

lemma signerRuns_append (a b : List (Event q)) :
    signerRuns (a ++ b) = signerRuns a ++ signerRuns b := by
  simp [signerRuns, List.filterMap_append]

lemma doDKG_events (env : Env q) (h : List (Event q)) (e id : Nat) :
    (doDKG env h e id).2 = [Event.beginDKG e id] ∨
      ∃ m, (doDKG env h e id).2 = [Event.beginDKG e id, Event.sendTx m] := by
  unfold doDKG
  simp only
  cases generateDKG env (h ++ [Event.beginDKG e id]) e id with
  | error err => left; rfl
  | ok p =>
    right
    exact ⟨RbMsg.dkg p, by simp [sendDKG, doSendRBTx_snd]⟩

lemma doSIG_events (env : Env q) (h : List (Event q)) (e id : Nat) :
    (doSIG env h e id).2 = [Event.beginSIG e id] ∨
      (doSIG env h e id).2 = [Event.beginSIG e id, Event.getRBM e] ∨
      ∃ m, (doSIG env h e id).2 = [Event.beginSIG e id, Event.getRBM e, Event.sendTx m] := by
  unfold doSIG
  simp only [sendSIG]
  split_ifs
  · left; rfl
  · left; rfl
  · split
    · left; rfl
    · split
      · left; rfl
      · split
        · right; left; rfl
        · right; right
          rename_i g _ _ mBuf _
          refine ⟨RbMsg.sig ⟨e, id, g.ScalarMult (SetBytes mBuf)⟩, ?_⟩
          rw [doSendRBTx_snd]
          rfl

lemma dealerRuns_doDKG (env : Env q) (h : List (Event q)) (e id : Nat) :
    dealerRuns (doDKG env h e id).2 = [id] := by
  rcases doDKG_events env h e id with h1 | ⟨m, h1⟩ <;> rw [h1] <;> rfl

lemma signerRuns_doDKG (env : Env q) (h : List (Event q)) (e id : Nat) :
    signerRuns (doDKG env h e id).2 = [] := by
  rcases doDKG_events env h e id with h1 | ⟨m, h1⟩ <;> rw [h1] <;> rfl

lemma signerRuns_doSIG (env : Env q) (h : List (Event q)) (e id : Nat) :
    signerRuns (doSIG env h e id).2 = [id] := by
  rcases doSIG_events env h e id with h1 | h1 | ⟨m, h1⟩ <;> rw [h1] <;> rfl

lemma dealerRuns_doSIG (env : Env q) (h : List (Event q)) (e id : Nat) :
    dealerRuns (doSIG env h e id).2 = [] := by
  rcases doSIG_events env h e id with h1 | h1 | ⟨m, h1⟩ <;> rw [h1] <;> rfl

lemma dealerRuns_doDKGs (env : Env q) (e : Nat) (ids : List Nat) :
    ∀ h : List (Event q),
      dealerRuns (doDKGs env h e ids).2 <+: ids ∧
      ((doDKGs env h e ids).1 = Outcome.nil → dealerRuns (doDKGs env h e ids).2 = ids) ∧
      (ids ≠ [] → dealerRuns (doDKGs env h e ids).2 ≠ []) ∧
      signerRuns (doDKGs env h e ids).2 = [] := by
  induction ids with
  | nil => intro h; simp [doDKGs, dealerRuns, signerRuns]
  | cons id rest ih =>
    intro h
    rw [doDKGs_cons]
    split_ifs with h1
    · obtain ⟨i1, i2, _, i4⟩ := ih (h ++ (doDKG env h e id).2)
      simp only [dealerRuns_append, signerRuns_append, dealerRuns_doDKG, signerRuns_doDKG,
        List.singleton_append, List.nil_append]
      refine ⟨?_, ?_, by simp, i4⟩
      · exact (List.prefix_cons_inj id).mpr i1
      · intro hn; rw [i2 hn]
    · simp only [dealerRuns_doDKG, signerRuns_doDKG]
      refine ⟨?_, ?_, by simp, trivial⟩
      · exact List.prefix_append [id] rest
      · intro hn; exact absurd hn h1

lemma signerRuns_doSIGs (env : Env q) (e : Nat) (ids : List Nat) :
    ∀ h : List (Event q),
      signerRuns (doSIGs env h e ids).2 <+: ids ∧
      ((doSIGs env h e ids).1 = Outcome.nil → signerRuns (doSIGs env h e ids).2 = ids) ∧
      (ids ≠ [] → signerRuns (doSIGs env h e ids).2 ≠ []) ∧
      dealerRuns (doSIGs env h e ids).2 = [] := by
  induction ids with
  | nil => intro h; simp [doSIGs, dealerRuns, signerRuns]
  | cons id rest ih =>
    intro h
    rw [doSIGs_cons]
    split_ifs with h1
    · obtain ⟨i1, i2, _, i4⟩ := ih (h ++ (doSIG env h e id).2)
      simp only [dealerRuns_append, signerRuns_append, dealerRuns_doSIG, signerRuns_doSIG,
        List.singleton_append, List.nil_append]
      refine ⟨?_, ?_, by simp, i4⟩
      · exact (List.prefix_cons_inj id).mpr i1
      · intro hn; rw [i2 hn]
    · simp only [dealerRuns_doSIG, signerRuns_doSIG]
      refine ⟨?_, ?_, by simp, trivial⟩
      · exact List.prefix_append [id] rest
      · intro hn; exact absurd hn h1

lemma Loop_accepted_reset (fuel : Nat) (env : Env q) (rb : RandomBeacon) (e s : Nat)
    (hread : env.GetEpochSlotID = Except.ok (e, s))
    (hno : ¬ (rb.epochId ≠ maxUint64 ∧ e < rb.epochId)) :
    Loop fuel env rb true true true =
      if (getMyRBProposerId env e).length = 0 then some (Outcome.nil, afterReset rb e, [])
      else stageLoop env e (getMyRBProposerId env e) (env.GetRBStage s) fuel
        (afterReset rb e) [] := by
  rw [Loop_accepted fuel env rb e s hread hno]
  rfl

lemma afterReset_epochId (rb : RandomBeacon) (e : Nat)
    (hno : ¬ (rb.epochId ≠ maxUint64 ∧ e < rb.epochId)) : (afterReset rb e).epochId = e := by
  unfold afterReset
  split_ifs with h
  · rfl
  · push_neg at h hno
    have := hno h.1
    omega

end RandomBeacon

/-- C6, counterexample: a first tick (not a rollback, starting in stage DKG, slot
stage DKG) of a node that owns no proposer index stores stage DKG and runs no
dealer. -/
theorem Loop_dkg_state_counterexample :
    notMember.GetEpochSlotID = Except.ok (10, 0) ∧
    notMember.GetRBStage 0 = RB_DKG_STAGE ∧
    Loop 3 notMember Init true true true = some (Outcome.nil, ⟨RB_DKG_STAGE, 10⟩, []) :=
  ⟨rfl, by decide, by decide⟩

/-- C6, amended: for a tick that reads `(epochId, slot)`, is not a rollback and
is in stage DKG after the epoch checks.  A node that owns no index returns nil
with the stage left at DKG.  Otherwise, when the slot's stage is DKG the tick is
the run of `doDKGs` over the owned indices (in order, up to the first failure):
if it succeeds every owned index was dealt once and the stored stage is SIGN, if
it fails its error is returned and the stage stays DKG; when the slot's stage is
not DKG no dealer is run and the stored stage is SIGN or AFTER_SIGN. -/
theorem Loop_dkg_state {q : ℕ} (fuel : Nat) (hf : 3 ≤ fuel) (env : Env q)
    (rb : RandomBeacon) (epochId slotId : Nat)
    (hread : env.GetEpochSlotID = Except.ok (epochId, slotId))
    (hno : ¬ (rb.epochId ≠ maxUint64 ∧ epochId < rb.epochId))
    (hdkg : (afterReset rb epochId).epochStage = RB_DKG_STAGE) :
    ∃ r, Loop fuel env rb true true true = some r ∧ r.2.1.epochId = epochId ∧
      (getMyRBProposerId env epochId = [] →
        r = (Outcome.nil, ⟨RB_DKG_STAGE, epochId⟩, [])) ∧
      (getMyRBProposerId env epochId ≠ [] → env.GetRBStage slotId = RB_DKG_STAGE →
        r.1 = (doDKGs env [] epochId (getMyRBProposerId env epochId)).1 ∧
        r.2.2 = (doDKGs env [] epochId (getMyRBProposerId env epochId)).2 ∧
        dealerRuns r.2.2 <+: getMyRBProposerId env epochId ∧
        dealerRuns r.2.2 ≠ [] ∧ signerRuns r.2.2 = [] ∧
        (r.1 = Outcome.nil →
          dealerRuns r.2.2 = getMyRBProposerId env epochId ∧
          r.2.1.epochStage = RB_SIGN_STAGE) ∧
        (r.1 ≠ Outcome.nil → r.2.1.epochStage = RB_DKG_STAGE)) ∧
      (getMyRBProposerId env epochId ≠ [] → env.GetRBStage slotId ≠ RB_DKG_STAGE →
        dealerRuns r.2.2 = [] ∧
        (r.2.1.epochStage = RB_SIGN_STAGE ∨ r.2.1.epochStage = RB_AFTER_SIGH_STAGE)) := by
  obtain ⟨n, rfl⟩ : ∃ n, fuel = n + 3 := ⟨fuel - 3, by omega⟩
  have hid := afterReset_epochId rb epochId hno
  rw [Loop_accepted_reset (n + 3) env rb epochId slotId hread hno]
  by_cases h0 : getMyRBProposerId env epochId = []
  · rw [if_pos (by simp [h0])]
    refine ⟨_, rfl, hid, ?_, fun h => absurd h0 h, fun h => absurd h0 h⟩
    intro _
    have : afterReset rb epochId = ⟨RB_DKG_STAGE, epochId⟩ := by
      cases hr : afterReset rb epochId with
      | mk st ei =>
        rw [hr] at hid hdkg
        simp only at hid hdkg
        rw [hid, hdkg]
    rw [this]
  · rw [if_neg (by simpa using h0), stageLoop_dkg env epochId _ _ n _ _ hdkg]
    obtain ⟨d1, d2, d3, d4⟩ :=
      dealerRuns_doDKGs env epochId (getMyRBProposerId env epochId) []
    by_cases hst : env.GetRBStage slotId = RB_DKG_STAGE
    · rw [if_pos hst]
      by_cases hok : (doDKGs env [] epochId (getMyRBProposerId env epochId)).1 = Outcome.nil
      · rw [if_pos hok]
        refine ⟨_, rfl, hid, fun h => absurd h h0, ?_, fun _ h => absurd hst h⟩
        intro _ _
        exact ⟨hok.symm, rfl, d1, d3 h0, d4, fun _ => ⟨d2 hok, rfl⟩, fun h => absurd rfl h⟩
      · rw [if_neg hok]
        refine ⟨_, rfl, hid, fun h => absurd h h0, ?_, fun _ h => absurd hst h⟩
        intro _ _
        exact ⟨rfl, rfl, d1, d3 h0, d4, fun h => absurd h hok, fun _ => hdkg⟩
    · rw [if_neg hst, stageLoop_sign env epochId _ _ n _ _ rfl]
      obtain ⟨s1, s2, s3, s4⟩ :=
        signerRuns_doSIGs env epochId (getMyRBProposerId env epochId) []
      split_ifs
      · exact ⟨_, rfl, hid, fun h => absurd h h0, fun _ h => absurd h hst,
          fun _ _ => ⟨rfl, Or.inl rfl⟩⟩
      · exact ⟨_, rfl, hid, fun h => absurd h h0, fun _ h => absurd h hst,
          fun _ _ => ⟨by simpa using s4, Or.inr rfl⟩⟩
      · exact ⟨_, rfl, hid, fun h => absurd h h0, fun _ h => absurd h hst,
          fun _ _ => ⟨by simpa using s4, Or.inl rfl⟩⟩
      · exact ⟨_, rfl, hid, fun h => absurd h h0, fun _ h => absurd h hst,
          fun _ _ => ⟨rfl, Or.inr rfl⟩⟩

/-- Witness of C6: the first tick of epoch 10, slot 0, of the owner of slot 0. -/
theorem Loop_dkg_state_witness :
    ∃ r, Loop 3 baseEnv Init true true true = some r ∧ r.2.1.epochId = 10 ∧
      (getMyRBProposerId baseEnv 10 = [] →
        r = (Outcome.nil, ⟨RB_DKG_STAGE, 10⟩, [])) ∧
      (getMyRBProposerId baseEnv 10 ≠ [] → baseEnv.GetRBStage 0 = RB_DKG_STAGE →
        r.1 = (doDKGs baseEnv [] 10 (getMyRBProposerId baseEnv 10)).1 ∧
        r.2.2 = (doDKGs baseEnv [] 10 (getMyRBProposerId baseEnv 10)).2 ∧
        dealerRuns r.2.2 <+: getMyRBProposerId baseEnv 10 ∧
        dealerRuns r.2.2 ≠ [] ∧ signerRuns r.2.2 = [] ∧
        (r.1 = Outcome.nil →
          dealerRuns r.2.2 = getMyRBProposerId baseEnv 10 ∧
          r.2.1.epochStage = RB_SIGN_STAGE) ∧
        (r.1 ≠ Outcome.nil → r.2.1.epochStage = RB_DKG_STAGE)) ∧
      (getMyRBProposerId baseEnv 10 ≠ [] → baseEnv.GetRBStage 0 ≠ RB_DKG_STAGE →
        dealerRuns r.2.2 = [] ∧
        (r.2.1.epochStage = RB_SIGN_STAGE ∨ r.2.1.epochStage = RB_AFTER_SIGH_STAGE)) :=
  Loop_dkg_state 3 (by decide) baseEnv Init 10 0 rfl (by decide) (by decide)

/-- C7: for a tick of a node that owns at least one proposer index, which reads
`(epochId, slot)`, is not a rollback and is in stage SIGN after the epoch checks.
If the slot's stage is below SIGN the tick returns nil with the fields unchanged
and no event.  If it equals SIGN the tick is the run of `doSIGs` over the owned
indices; when that succeeds every owned index was signed once, in order, and the
stage becomes AFTER_SIGN, and when it fails the error is returned with the stage
still SIGN.  If it is above SIGN the stage becomes AFTER_SIGN and there is no
event. -/
theorem Loop_sign_state {q : ℕ} (fuel : Nat) (hf : 3 ≤ fuel) (env : Env q)
    (rb : RandomBeacon) (epochId slotId : Nat)
    (hread : env.GetEpochSlotID = Except.ok (epochId, slotId))
    (hno : ¬ (rb.epochId ≠ maxUint64 ∧ epochId < rb.epochId))
    (hsign : (afterReset rb epochId).epochStage = RB_SIGN_STAGE)
    (hown : getMyRBProposerId env epochId ≠ []) :
    ∃ r, Loop fuel env rb true true true = some r ∧
      (env.GetRBStage slotId < RB_SIGN_STAGE → r = (Outcome.nil, rb, [])) ∧
      (env.GetRBStage slotId = RB_SIGN_STAGE →
        r.1 = (doSIGs env [] epochId (getMyRBProposerId env epochId)).1 ∧
        r.2.2 = (doSIGs env [] epochId (getMyRBProposerId env epochId)).2 ∧
        signerRuns r.2.2 <+: getMyRBProposerId env epochId ∧
        signerRuns r.2.2 ≠ [] ∧ dealerRuns r.2.2 = [] ∧
        (r.1 = Outcome.nil →
          signerRuns r.2.2 = getMyRBProposerId env epochId ∧
          r.2.1 = { rb with epochStage := RB_AFTER_SIGH_STAGE }) ∧
        (r.1 ≠ Outcome.nil → r.2.1 = rb)) ∧
      (RB_SIGN_STAGE < env.GetRBStage slotId →
        r = (Outcome.nil, { rb with epochStage := RB_AFTER_SIGH_STAGE }, [])) := by
  obtain ⟨n, rfl⟩ : ∃ n, fuel = n + 3 := ⟨fuel - 3, by omega⟩
  have hrb : afterReset rb epochId = rb := by
    unfold afterReset at hsign ⊢
    split_ifs at hsign ⊢ with h
    · exact absurd hsign (show RB_DKG_STAGE ≠ RB_SIGN_STAGE by decide)
    · rfl
  rw [hrb] at hsign
  rw [Loop_accepted_reset (n + 3) env rb epochId slotId hread hno, hrb,
    if_neg (by simpa using hown), stageLoop_sign env epochId _ _ (n + 1) _ _ hsign]
  obtain ⟨s1, s2, s3, s4⟩ :=
    signerRuns_doSIGs env epochId (getMyRBProposerId env epochId) []
  by_cases h1 : env.GetRBStage slotId < RB_SIGN_STAGE
  · rw [if_pos h1]
    refine ⟨_, rfl, fun _ => rfl, fun h => ?_, fun h => ?_⟩
    · rw [h] at h1; exact absurd h1 (lt_irrefl _)
    · exact absurd (lt_trans h h1) (lt_irrefl _)
  · rw [if_neg h1]
    by_cases h2 : env.GetRBStage slotId = RB_SIGN_STAGE
    · rw [if_pos h2]
      by_cases hok : (doSIGs env [] epochId (getMyRBProposerId env epochId)).1 = Outcome.nil
      · rw [if_pos hok]
        refine ⟨_, rfl, fun h => absurd h h1, fun _ => ?_, fun h => ?_⟩
        · exact ⟨hok.symm, rfl, s1, s3 hown, s4, fun _ => ⟨s2 hok, rfl⟩,
            fun h => absurd rfl h⟩
        · rw [h2] at h; exact absurd h (lt_irrefl _)
      · rw [if_neg hok]
        refine ⟨_, rfl, fun h => absurd h h1, fun _ => ?_, fun h => ?_⟩
        · exact ⟨rfl, rfl, s1, s3 hown, s4, fun h => absurd h hok, fun _ => rfl⟩
        · rw [h2] at h; exact absurd h (lt_irrefl _)
    · rw [if_neg h2]
      exact ⟨_, rfl, fun h => absurd h h1, fun h => absurd h h2, fun _ => rfl⟩

/-- Witness of C7: stored epoch 10 in stage SIGN, tick of epoch 10 in a SIGN slot. -/
theorem Loop_sign_state_witness :
    ∃ r, Loop 3 signTick ⟨RB_SIGN_STAGE, 10⟩ true true true = some r ∧
      (signTick.GetRBStage 5 < RB_SIGN_STAGE → r = (Outcome.nil, ⟨RB_SIGN_STAGE, 10⟩, [])) ∧
      (signTick.GetRBStage 5 = RB_SIGN_STAGE →
        r.1 = (doSIGs signTick [] 10 (getMyRBProposerId signTick 10)).1 ∧
        r.2.2 = (doSIGs signTick [] 10 (getMyRBProposerId signTick 10)).2 ∧
        signerRuns r.2.2 <+: getMyRBProposerId signTick 10 ∧
        signerRuns r.2.2 ≠ [] ∧ dealerRuns r.2.2 = [] ∧
        (r.1 = Outcome.nil →
          signerRuns r.2.2 = getMyRBProposerId signTick 10 ∧
          r.2.1 = { (⟨RB_SIGN_STAGE, 10⟩ : RandomBeacon) with
            epochStage := RB_AFTER_SIGH_STAGE }) ∧
        (r.1 ≠ Outcome.nil → r.2.1 = ⟨RB_SIGN_STAGE, 10⟩)) ∧
      (RB_SIGN_STAGE < signTick.GetRBStage 5 →
        r = (Outcome.nil, { (⟨RB_SIGN_STAGE, 10⟩ : RandomBeacon) with
          epochStage := RB_AFTER_SIGH_STAGE }, [])) :=
  Loop_sign_state 3 (by decide) signTick ⟨RB_SIGN_STAGE, 10⟩ 10 5 rfl (by decide) (by decide)
    (by decide)

namespace RandomBeacon

variable {q : ℕ}

lemma stageLoop_stage (env : Env q) (e : Nat) (ids : List Nat) (rbStage : Int) (fuel : Nat)
    (hf : 3 ≤ fuel) (rb : RandomBeacon) (tr : List (Event q)) :
    ∃ r, stageLoop env e ids rbStage fuel rb tr = some r ∧
      r.2.1.epochId = rb.epochId ∧ rb.epochStage ≤ r.2.1.epochStage ∧
      (r.2.1.epochStage = RB_DKG_STAGE → rb.epochStage = RB_DKG_STAGE) ∧
      (rb.epochStage ≠ RB_DKG_STAGE → rb.epochStage ≠ RB_SIGN_STAGE →
        r = (Outcome.nil, rb, tr)) := by
  obtain ⟨n, rfl⟩ : ∃ n, fuel = n + 3 := ⟨fuel - 3, by omega⟩
  have c1 : RB_SIGN_STAGE ≠ RB_DKG_STAGE := by decide
  have c2 : RB_AFTER_SIGH_STAGE ≠ RB_DKG_STAGE := by decide
  have c3 : RB_DKG_STAGE ≤ RB_SIGN_STAGE := by decide
  have c4 : RB_DKG_STAGE ≤ RB_AFTER_SIGH_STAGE := by decide
  have c5 : RB_SIGN_STAGE ≤ RB_AFTER_SIGH_STAGE := by decide
  by_cases hd : rb.epochStage = RB_DKG_STAGE
  · rw [stageLoop_dkg env e ids rbStage n rb tr hd]
    split_ifs
    · exact ⟨_, rfl, rfl, by rw [hd]; exact c3, fun h => absurd h c1, fun h => absurd hd h⟩
    · exact ⟨_, rfl, rfl, le_refl _, fun _ => hd, fun h => absurd hd h⟩
    · rw [stageLoop_sign env e ids rbStage n _ tr rfl]
      split_ifs
      · exact ⟨_, rfl, rfl, by rw [hd]; exact c3, fun h => absurd h c1, fun h => absurd hd h⟩
      · exact ⟨_, rfl, rfl, by rw [hd]; exact c4, fun h => absurd h c2, fun h => absurd hd h⟩
      · exact ⟨_, rfl, rfl, by rw [hd]; exact c3, fun h => absurd h c1, fun h => absurd hd h⟩
      · exact ⟨_, rfl, rfl, by rw [hd]; exact c4, fun h => absurd h c2, fun h => absurd hd h⟩
  · by_cases hs : rb.epochStage = RB_SIGN_STAGE
    · rw [stageLoop_sign env e ids rbStage (n + 1) rb tr hs]
      split_ifs
      · exact ⟨_, rfl, rfl, le_refl _, fun h => absurd h hd, fun _ h => absurd hs h⟩
      · exact ⟨_, rfl, rfl, by rw [hs]; exact c5, fun h => absurd h c2, fun _ h => absurd hs h⟩
      · exact ⟨_, rfl, rfl, le_refl _, fun h => absurd h hd, fun _ h => absurd hs h⟩
      · exact ⟨_, rfl, rfl, by rw [hs]; exact c5, fun h => absurd h c2, fun _ h => absurd hs h⟩
    · rw [stageLoop_after env e ids rbStage (n + 2) rb tr hd hs]
      exact ⟨_, rfl, rfl, le_refl _, fun h => absurd h hd, fun _ _ => rfl⟩

lemma Loop_total (fuel : Nat) (hf : 3 ≤ fuel) (env : Env q) (rb : RandomBeacon)
    (a b c : Bool) :
    ∃ r, Loop fuel env rb a b c = some r ∧
      (r.2.1 = rb ∨ ∃ e s, a = true ∧ b = true ∧ c = true ∧
        env.GetEpochSlotID = Except.ok (e, s) ∧ ¬ (rb.epochId ≠ maxUint64 ∧ e < rb.epochId)) := by
  by_cases hp : a = false ∨ b = false ∨ c = false
  · refine ⟨(Outcome.err Err.invalidLoopParam, rb, []), ?_, Or.inl rfl⟩
    unfold Loop
    rw [if_pos hp]
  · have ha : a = true := by cases a <;> simp_all
    have hb : b = true := by cases b <;> simp_all
    have hc : c = true := by cases c <;> simp_all
    subst ha hb hc
    cases hread : env.GetEpochSlotID with
    | error code =>
      refine ⟨(Outcome.nil, rb, []), ?_, Or.inl rfl⟩
      unfold Loop
      simp [hread]
    | ok es =>
      obtain ⟨e, s⟩ := es
      by_cases hrb : rb.epochId ≠ maxUint64 ∧ e < rb.epochId
      · exact ⟨_, Loop_rollback fuel env rb e s hread hrb, Or.inl rfl⟩
      · rw [Loop_accepted_reset fuel env rb e s hread hrb]
        split_ifs
        · exact ⟨_, rfl, Or.inr ⟨e, s, rfl, rfl, rfl, rfl, hrb⟩⟩
        · obtain ⟨r, hr, _⟩ := stageLoop_stage env e (getMyRBProposerId env e)
            (env.GetRBStage s) fuel hf (afterReset rb e) []
          exact ⟨r, hr, Or.inr ⟨e, s, rfl, rfl, rfl, rfl, hrb⟩⟩

/-- One accepted tick: the stored epoch id becomes the epoch read, the stage does
not fall below the stage after the epoch checks, and it is DKG afterwards only if
it was DKG after the epoch checks. -/
lemma Loop_accepted_step (fuel : Nat) (hf : 3 ≤ fuel) (env : Env q) (rb : RandomBeacon)
    (e s : Nat) (hread : env.GetEpochSlotID = Except.ok (e, s))
    (hno : ¬ (rb.epochId ≠ maxUint64 ∧ e < rb.epochId)) :
    ∃ r, Loop fuel env rb true true true = some r ∧
      r.1 ≠ Outcome.err Err.rollback ∧
      r.2.1.epochId = e ∧ (afterReset rb e).epochStage ≤ r.2.1.epochStage ∧
      (r.2.1.epochStage = RB_DKG_STAGE → (afterReset rb e).epochStage = RB_DKG_STAGE) ∧
      ((afterReset rb e).epochStage ≠ RB_DKG_STAGE →
        (afterReset rb e).epochStage ≠ RB_SIGN_STAGE →
          r = (Outcome.nil, afterReset rb e, [])) := by
  rw [Loop_accepted_reset fuel env rb e s hread hno]
  have hid := afterReset_epochId rb e hno
  split_ifs
  · exact ⟨_, rfl, by simp, hid, le_refl _, fun h => h, fun _ _ => rfl⟩
  · obtain ⟨r, hr, h1, h2, h3, h4⟩ := stageLoop_stage env e (getMyRBProposerId env e)
      (env.GetRBStage s) fuel hf (afterReset rb e) []
    obtain ⟨r', hr', hout⟩ := stageLoop_total env e (getMyRBProposerId env e)
      (env.GetRBStage s) fuel hf (afterReset rb e) []
    rw [hr] at hr'
    cases hr'
    refine ⟨r, hr, ?_, h1.trans hid, h2, h3, h4⟩
    rcases hout with h | h
    · rw [h]; simp
    · exact h.1

end RandomBeacon

/-- C8, counterexample: two ticks that carry the same epoch id `2^64-1`.  The
first, in a late slot, brings the stage to AFTER_SIGN; the second, in a slot of
stage DKG, is not a no-op: it runs the dealer for slot 0 and stores stage SIGN. -/
theorem Loop_stage_monotone_counterexample :
    maxTickLate.GetEpochSlotID = Except.ok (2 ^ 64 - 1, 9) ∧
    maxTickEarly.GetEpochSlotID = Except.ok (2 ^ 64 - 1, 0) ∧
    runTicks 3 Init [(maxTickLate, true, true, true), (maxTickEarly, true, true, true)] =
      [⟨RB_AFTER_SIGH_STAGE, 2 ^ 64 - 1⟩, ⟨RB_SIGN_STAGE, 2 ^ 64 - 1⟩] ∧
    (Loop 3 maxTickEarly ⟨RB_AFTER_SIGH_STAGE, 2 ^ 64 - 1⟩ true true true).map
        (fun r => (r.1, r.2.1, dealerRuns r.2.2)) =
      some (Outcome.nil, ⟨RB_SIGN_STAGE, 2 ^ 64 - 1⟩, [0]) :=
  ⟨rfl, rfl, by decide, by decide⟩

/-- C9, counterexample: after a tick of epoch `2^64-1` the stored epoch id is
`2^64-1`; the next tick reads the smaller epoch 10 and is not rejected: it returns
nil and stores epoch 10. -/
theorem Loop_epoch_tracking_counterexample :
    maxTickLate.GetEpochSlotID = Except.ok (2 ^ 64 - 1, 9) ∧
    baseEnv.GetEpochSlotID = Except.ok (10, 0) ∧
    (runTicks 3 Init [(maxTickLate, true, true, true), (baseEnv, true, true, true)]).map
        (fun rb => rb.epochId) = [2 ^ 64 - 1, 10] ∧
    (Loop 3 baseEnv ⟨RB_AFTER_SIGH_STAGE, 2 ^ 64 - 1⟩ true true true).map
        (fun r => (r.1, r.2.1)) = some (Outcome.nil, ⟨RB_SIGN_STAGE, 10⟩) :=
  ⟨rfl, rfl, by decide, by decide⟩

/-- C8, amended: for ticks that carry one epoch id other than `2^64-1`, starting
from the initial fields or from fields already in that epoch: every tick returns,
the stored stage never decreases in the order DKG < SIGN < AFTER_SIGN, and the
stored epoch id stays that epoch; once the stage is AFTER_SIGN a further tick of
the epoch returns nil with the fields unchanged and no event.  For every tick of
any epoch, the stage is DKG afterwards without having been DKG before only when
the stored id was the sentinel `2^64-1` (first tick) or smaller than the epoch
read. -/
theorem Loop_stage_monotone {q : ℕ} (fuel : Nat) (hf : 3 ≤ fuel) (epochId : Nat)
    (he : epochId ≠ maxUint64) :
    (∀ (ticks : List (Env q × Bool × Bool × Bool)) (rb : RandomBeacon),
      (rb.epochId = epochId ∨ rb = Init) →
      (∀ t ∈ ticks, t.2 = (true, true, true) ∧
        ∃ s, t.1.GetEpochSlotID = Except.ok (epochId, s)) →
      (runTicks fuel rb ticks).length = ticks.length ∧
      List.Chain (fun a b => a.epochStage ≤ b.epochStage) rb (runTicks fuel rb ticks) ∧
      (∀ rb2 ∈ runTicks fuel rb ticks, rb2.epochId = epochId)) ∧
    (∀ (env : Env q) (rb : RandomBeacon) (s : Nat),
      env.GetEpochSlotID = Except.ok (epochId, s) → rb.epochId = epochId →
      rb.epochStage = RB_AFTER_SIGH_STAGE →
      Loop fuel env rb true true true = some (Outcome.nil, rb, [])) ∧
    (∀ (env : Env q) (rb : RandomBeacon) (a b c : Bool)
      (r : Outcome × RandomBeacon × List (Event q)),
      Loop fuel env rb a b c = some r → r.2.1.epochStage = RB_DKG_STAGE →
      rb.epochStage ≠ RB_DKG_STAGE →
      ∃ e s, env.GetEpochSlotID = Except.ok (e, s) ∧
        (rb.epochId = maxUint64 ∨ rb.epochId < e)) := by
  have hsame : ∀ rb : RandomBeacon, rb.epochId = epochId → afterReset rb epochId = rb := by
    intro rb h
    unfold afterReset
    rw [if_neg]
    rw [h]
    simp [he]
  have hinit : afterReset Init epochId = ⟨RB_DKG_STAGE, epochId⟩ := by
    unfold afterReset
    have : Init.epochId = maxUint64 ∨ Init.epochId < epochId := Or.inl rfl
    rw [if_pos this]
  refine ⟨?_, ?_, ?_⟩
  · intro ticks
    induction ticks with
    | nil => intro rb _ _; simp [runTicks]
    | cons t rest ih =>
      intro rb hrb hall
      obtain ⟨env, a, b, c⟩ := t
      obtain ⟨hflags, s, hread⟩ := hall (env, a, b, c) (List.mem_cons_self _ _)
      simp only [Prod.mk.injEq] at hflags
      obtain ⟨rfl, rfl, rfl⟩ := hflags
      have hno : ¬ (rb.epochId ≠ maxUint64 ∧ epochId < rb.epochId) := by
        rcases hrb with h | h
        · rw [h]; simp
        · rw [h]; simp [Init]
      obtain ⟨r, hr, _, h2, h3, _, _⟩ :=
        Loop_accepted_step fuel hf env rb epochId s hread hno
      have hle : rb.epochStage ≤ r.2.1.epochStage := by
        rcases hrb with h | h
        · rw [hsame rb h] at h3; exact h3
        · rw [h, hinit] at h3; rw [h]; exact h3
      obtain ⟨i1, i2, i3⟩ := ih r.2.1 (Or.inl h2)
        (fun t ht => hall t (List.mem_cons_of_mem _ ht))
      simp only [runTicks, hr]
      refine ⟨by simp [i1], List.Chain.cons hle i2, ?_⟩
      intro rb2 hmem
      rcases List.mem_cons.mp hmem with h | h
      · rw [h]; exact h2
      · exact i3 rb2 h
  · intro env rb s hread hid hst
    have hno : ¬ (rb.epochId ≠ maxUint64 ∧ epochId < rb.epochId) := by rw [hid]; simp
    obtain ⟨r, hr, _, _, _, _, h6⟩ := Loop_accepted_step fuel hf env rb epochId s hread hno
    rw [hsame rb hid] at h6
    rw [hr, h6 (by rw [hst]; decide) (by rw [hst]; decide)]
  · intro env rb a b c r hr hdkg hnd
    obtain ⟨r2, hr2, hcase⟩ := Loop_total fuel hf env rb a b c
    rw [hr] at hr2
    cases hr2
    rcases hcase with h | ⟨e, s, rfl, rfl, rfl, hread, hno⟩
    · rw [h] at hdkg; exact absurd hdkg hnd
    · refine ⟨e, s, hread, ?_⟩
      obtain ⟨r3, hr3, _, _, _, h5, _⟩ := Loop_accepted_step fuel hf env rb e s hread hno
      rw [hr] at hr3
      cases hr3
      have h7 := h5 hdkg
      by_contra hcon
      unfold afterReset at h7
      rw [if_neg hcon] at h7
      exact hnd h7

/-- Witness of C8: three ticks of epoch 10 from the initial fields. -/
theorem Loop_stage_monotone_witness :
    (runTicks 3 Init [(baseEnv, true, true, true), (signTick, true, true, true),
        (signTick, true, true, true)]).length = 3 ∧
      List.Chain (fun a b => a.epochStage ≤ b.epochStage) Init
        (runTicks 3 Init [(baseEnv, true, true, true), (signTick, true, true, true),
          (signTick, true, true, true)]) ∧
      (∀ rb2 ∈ runTicks 3 Init [(baseEnv, true, true, true), (signTick, true, true, true),
          (signTick, true, true, true)], rb2.epochId = 10) :=
  (Loop_stage_monotone 3 (by decide) 10 (by decide)).1
    [(baseEnv, true, true, true), (signTick, true, true, true), (signTick, true, true, true)]
    Init (Or.inr rfl)
    (by
      intro t ht
      simp only [List.mem_cons, List.mem_singleton, List.not_mem_nil, or_false] at ht
      rcases ht with h | h | h
      · rw [h]; exact ⟨rfl, 0, rfl⟩
      · rw [h]; exact ⟨rfl, 5, rfl⟩
      · rw [h]; exact ⟨rfl, 5, rfl⟩)

/-- C9, amended: a tick that reads `(epochId, slot)` is rejected with the
rollback error, fields unchanged, exactly when the stored id is not `2^64-1` and
larger than `epochId`; otherwise the stored id afterwards is `epochId`, and when
the stored id was `2^64-1` or smaller the tick is the tick started in stage DKG
of epoch `epochId`.  Across ticks whose epoch ids all differ from `2^64-1`, a
stored id other than `2^64-1` never decreases and never becomes `2^64-1`. -/
theorem Loop_epoch_tracking {q : ℕ} (fuel : Nat) (hf : 3 ≤ fuel) :
    (∀ (env : Env q) (rb : RandomBeacon) (epochId slotId : Nat),
      env.GetEpochSlotID = Except.ok (epochId, slotId) →
      ∃ r, Loop fuel env rb true true true = some r ∧
        ((rb.epochId ≠ maxUint64 ∧ epochId < rb.epochId) →
          r = (Outcome.err Err.rollback, rb, [])) ∧
        (¬ (rb.epochId ≠ maxUint64 ∧ epochId < rb.epochId) →
          r.1 ≠ Outcome.err Err.rollback ∧ r.2.1.epochId = epochId) ∧
        ((rb.epochId = maxUint64 ∨ rb.epochId < epochId) →
          Loop fuel env rb true true true =
            Loop fuel env ⟨RB_DKG_STAGE, epochId⟩ true true true)) ∧
    (∀ (ticks : List (Env q × Bool × Bool × Bool)) (rb : RandomBeacon),
      (∀ t ∈ ticks, ∀ e s, t.1.GetEpochSlotID = Except.ok (e, s) → e ≠ maxUint64) →
      (runTicks fuel rb ticks).length = ticks.length ∧
      List.Chain
        (fun a b => a.epochId ≠ maxUint64 → a.epochId ≤ b.epochId ∧ b.epochId ≠ maxUint64)
        rb (runTicks fuel rb ticks)) := by
  constructor
  · intro env rb e s hread
    have hreset : (rb.epochId = maxUint64 ∨ rb.epochId < e) →
        Loop fuel env rb true true true = Loop fuel env ⟨RB_DKG_STAGE, e⟩ true true true := by
      intro h
      have hno1 : ¬ (rb.epochId ≠ maxUint64 ∧ e < rb.epochId) := by
        rcases h with h | h
        · simp [h]
        · intro hc; omega
      have hno2 : ¬ ((⟨RB_DKG_STAGE, e⟩ : RandomBeacon).epochId ≠ maxUint64 ∧
          e < (⟨RB_DKG_STAGE, e⟩ : RandomBeacon).epochId) := by simp
      rw [Loop_accepted_reset fuel env rb e s hread hno1,
        Loop_accepted_reset fuel env _ e s hread hno2]
      have e1 : afterReset rb e = ⟨RB_DKG_STAGE, e⟩ := by
        unfold afterReset; rw [if_pos h]
      have e2 : afterReset ⟨RB_DKG_STAGE, e⟩ e = ⟨RB_DKG_STAGE, e⟩ := by
        unfold afterReset; split_ifs <;> rfl
      rw [e1, e2]
    by_cases hrb : rb.epochId ≠ maxUint64 ∧ e < rb.epochId
    · refine ⟨_, Loop_rollback fuel env rb e s hread hrb, fun _ => rfl,
        fun h => absurd hrb h, hreset⟩
    · obtain ⟨r, hr, h1, h2, _⟩ := Loop_accepted_step fuel hf env rb e s hread hrb
      exact ⟨r, hr, fun h => absurd h hrb, fun _ => ⟨h1, h2⟩, hreset⟩
  · intro ticks
    induction ticks with
    | nil => intro rb _; simp [runTicks]
    | cons t rest ih =>
      intro rb hall
      obtain ⟨env, a, b, c⟩ := t
      obtain ⟨r, hr, hcase⟩ := Loop_total fuel hf env rb a b c
      obtain ⟨i1, i2⟩ := ih r.2.1 (fun t ht => hall t (List.mem_cons_of_mem _ ht))
      simp only [runTicks, hr]
      refine ⟨by simp [i1], List.Chain.cons ?_ i2⟩
      intro hset
      rcases hcase with h | ⟨e, s, rfl, rfl, rfl, hread, hno⟩
      · rw [h]; exact ⟨le_refl _, hset⟩
      · obtain ⟨r3, hr3, _, h2, _⟩ := Loop_accepted_step fuel hf env rb e s hread hno
        rw [hr] at hr3
        cases hr3
        have hne := hall (env, true, true, true) (List.mem_cons_self _ _) e s hread
        rw [h2]
        refine ⟨?_, hne⟩
        by_contra hlt
        exact hno ⟨hset, by omega⟩

/-- Witness of C9: the first tick of epoch 10. -/
theorem Loop_epoch_tracking_witness :
    ∃ r, Loop 3 baseEnv Init true true true = some r ∧
      ((Init.epochId ≠ maxUint64 ∧ 10 < Init.epochId) →
        r = (Outcome.err Err.rollback, Init, [])) ∧
      (¬ (Init.epochId ≠ maxUint64 ∧ 10 < Init.epochId) →
        r.1 ≠ Outcome.err Err.rollback ∧ r.2.1.epochId = 10) ∧
      ((Init.epochId = maxUint64 ∨ Init.epochId < 10) →
        Loop 3 baseEnv Init true true true =
          Loop 3 baseEnv ⟨RB_DKG_STAGE, 10⟩ true true true) :=
  (Loop_epoch_tracking 3 (by decide)).1 baseEnv Init 10 0 rfl

namespace RandomBeacon

variable {q : ℕ}

/-- Below `2^63` the conversion `int64` keeps the value. -/
lemma int64_of_lt (x : Nat) (hx : x < 2 ^ 63) : int64 x = (x : Int) := by
  unfold int64
  have h1 : x % 2 ^ 64 = x := Nat.mod_eq_of_lt (by omega)
  rw [h1, if_pos hx]

/-- When the payload is packed, `saveRandom` is the call of the hook with the
packed arguments. -/
lemma saveRandom_packed (env : Env q) (h : List (Event q)) (e r : Nat)
    (hp : env.PackGenR (int64 e) r = none) :
    saveRandom env h e (some r) = doSendRBTx env h (RbMsg.genR (int64 e) r) := by
  simp only [saveRandom, sendRandom, getGenRTxPayloadBytes, hp]

/-- When the encoding fails, `saveRandom` returns that error and the hook is not
called. -/
lemma saveRandom_pack_error (env : Env q) (h : List (Event q)) (e r c : Nat)
    (hp : env.PackGenR (int64 e) r = some c) :
    saveRandom env h e (some r) = (Outcome.err (Err.external c), []) := by
  simp only [saveRandom, sendRandom, getGenRTxPayloadBytes, hp]

lemma saveRandom_some (env : Env q) (h : List (Event q)) (e r : Nat) :
    ((saveRandom env h e (some r)).2 = [] ∨
      (saveRandom env h e (some r)).2 = [Event.sendTx (RbMsg.genR (int64 e) r)]) ∧
    ((saveRandom env h e (some r)).1 = Outcome.nil ∨
      ∃ c, (saveRandom env h e (some r)).1 = Outcome.err (Err.external c)) := by
  cases hp : env.PackGenR (int64 e) r with
  | none =>
    rw [saveRandom_packed env h e r hp]
    exact ⟨Or.inr (doSendRBTx_snd _ _ _), doSendRBTx_fst _ _ _⟩
  | some c =>
    rw [saveRandom_pack_error env h e r c hp]
    exact ⟨Or.inl rfl, Or.inr ⟨c, rfl⟩⟩

lemma DoComputeRandom_exists (env : Env q) (h : List (Event q)) (e : Nat) (r : Int)
    (hr : env.GetR ((e + 1) % 2 ^ 64) = some r) (hr0 : r ≠ 0) :
    DoComputeRandom env h e = (Outcome.nil, []) := by
  unfold DoComputeRandom
  simp only [hr]
  rw [if_pos (by simpa [randomExists] using hr0)]

lemma DoComputeRandom_fresh (env : Env q) (e : Nat)
    (hnext : env.GetR ((e + 1) % 2 ^ 64) = none ∨ env.GetR ((e + 1) % 2 ^ 64) = some 0) :
    randomExists (env.GetR ((e + 1) % 2 ^ 64)) = false := by
  rcases hnext with h1 | h1 <;> rw [h1] <;> simp [randomExists]

lemma DoComputeRandom_empty (env : Env q) (h : List (Event q)) (e : Nat)
    (hnext : env.GetR ((e + 1) % 2 ^ 64) = none ∨ env.GetR ((e + 1) % 2 ^ 64) = some 0)
    (hg : env.getRBProposerGroupF e = []) :
    DoComputeRandom env h e = (Outcome.err Err.noProposerGroup, []) := by
  unfold DoComputeRandom
  simp only [DoComputeRandom_fresh env e hnext, getRBProposerGroup, hg]
  rfl

lemma DoComputeRandom_fallback_eq (env : Env q) (h : List (Event q)) (e : Nat) (r : Int)
    (hnext : env.GetR ((e + 1) % 2 ^ 64) = none ∨ env.GetR ((e + 1) % 2 ^ 64) = some 0)
    (hg : env.getRBProposerGroupF e ≠ [])
    (hsig : (collectSig env e).length < env.cfg.MinRBProposerCnt)
    (hR : env.GetR e = some r) :
    DoComputeRandom env h e =
      saveRandom env h ((e + 1) % 2 ^ 64) (some (SetBytes (env.Keccak256 (bigBytes r)))) := by
  unfold DoComputeRandom
  simp only [DoComputeRandom_fresh env e hnext, getRBProposerGroup]
  have : ¬ (env.getRBProposerGroupF e).length = 0 := by simpa using hg
  simp only [this, hsig, hR, if_false, if_true, Bool.false_eq_true]

lemma DoComputeRandom_pairing (env : Env q) (h : List (Event q)) (e : Nat)
    (gsig : G1 q) (gPub : G2 q) (mBuf : Bytes)
    (hnext : env.GetR ((e + 1) % 2 ^ 64) = none ∨ env.GetR ((e + 1) % 2 ^ 64) = some 0)
    (hg : env.getRBProposerGroupF e ≠ [])
    (hsig : env.cfg.MinRBProposerCnt ≤ (collectSig env e).length)
    (h1 : computeGsig env e = some gsig) (h2 : computeGPub env e = some gPub)
    (h3 : env.GetRBM e = Except.ok mBuf) :
    DoComputeRandom env h e =
      if Pair gsig env.Hbase ≠ Pair (G1.ScalarBaseMult (SetBytes mBuf)) gPub then
        (Outcome.err Err.pairingCheckFailed,
          [Event.lagrangeSig, Event.lagrangePub, Event.getRBM e, Event.pair])
      else
        ((saveRandom env
            (h ++ [Event.lagrangeSig, Event.lagrangePub, Event.getRBM e, Event.pair])
            ((e + 1) % 2 ^ 64) (some (SetBytes (env.Keccak256 (env.Marshal gsig))))).1,
          [Event.lagrangeSig, Event.lagrangePub, Event.getRBM e, Event.pair] ++
          (saveRandom env
            (h ++ [Event.lagrangeSig, Event.lagrangePub, Event.getRBM e, Event.pair])
            ((e + 1) % 2 ^ 64) (some (SetBytes (env.Keccak256 (env.Marshal gsig))))).2) := by
  unfold DoComputeRandom
  simp only [DoComputeRandom_fresh env e hnext, getRBProposerGroup]
  have hl : ¬ (env.getRBProposerGroupF e).length = 0 := by simpa using hg
  have hs : ¬ (collectSig env e).length < env.cfg.MinRBProposerCnt := by omega
  unfold computeGPub at h2
  cases hc : commitSums env e with
  | none => rw [hc] at h2; simp at h2
  | some c =>
    rw [hc] at h2
    simp only [Option.some_bind] at h2
    have hstr : (Pair gsig env.Hbase).String ≠
        (Pair (G1.ScalarBaseMult (SetBytes mBuf)) gPub).String ↔
        Pair gsig env.Hbase ≠ Pair (G1.ScalarBaseMult (SetBytes mBuf)) gPub := by
      cases hp1 : Pair gsig env.Hbase
      cases hp2 : Pair (G1.ScalarBaseMult (SetBytes mBuf)) gPub
      simp [GT.String]
    simp only [hl, hs, h1, h2, h3, if_false, Bool.false_eq_true, List.singleton_append,
      List.cons_append, List.nil_append]
    by_cases hp : Pair gsig env.Hbase ≠ Pair (G1.ScalarBaseMult (SetBytes mBuf)) gPub
    · rw [if_pos (hstr.mpr hp), if_pos hp]
    · rw [if_neg (fun hh => hp (hstr.mp hh)), if_neg hp]

/-- A call of `DoComputeRandom` hands the hook no message or exactly one, a random
with the epoch argument `int64(epochId+1)`. -/
lemma DoComputeRandom_submissions (env : Env q) (h : List (Event q)) (e : Nat) :
    submissions (DoComputeRandom env h e).2 = [] ∨
      ∃ rnd, submissions (DoComputeRandom env h e).2 =
        [RbMsg.genR (int64 ((e + 1) % 2 ^ 64)) rnd] := by
  unfold DoComputeRandom
  simp only
  split_ifs
  · left; rfl
  · left; rfl
  · split
    · left; rfl
    · rename_i randomInt _
      rcases (saveRandom_some env h ((e + 1) % 2 ^ 64)
        (SetBytes (env.Keccak256 (bigBytes randomInt)))).1 with hs | hs
      · left; rw [hs]; rfl
      · right
        exact ⟨_, by rw [hs]; rfl⟩
  · split
    · left; rfl
    · split
      · left; rfl
      · split
        · left; rfl
        · split
          · left; rfl
          · split_ifs
            · left; rfl
            · rename_i gsig _ _ _ _ _ _ _ _ _ _ _
              rcases (saveRandom_some env
                (h ++ ([Event.lagrangeSig] ++ [Event.lagrangePub] ++ [Event.getRBM e] ++
                  [Event.pair]))
                ((e + 1) % 2 ^ 64) (SetBytes (env.Keccak256 (env.Marshal gsig)))).1 with hs | hs
              · left
                simp only [hs]
                rfl
              · right
                refine ⟨SetBytes (env.Keccak256 (env.Marshal gsig)), ?_⟩
                simp only [hs]
                rfl

end RandomBeacon

/-- C3, counterexample: on `packFails` every premise of the claim holds (committee
of three, `R[11]` unset, no signature payload, `R[10] = 5`) and the encoding of the
payload fails: `DoComputeRandom` returns that error and makes no submission.  On
`lateEpoch`, for epoch `2^63 - 1`, the one submission carries the epoch argument
`-2^63`, not `2^63`. -/
theorem DoComputeRandom_fallback_counterexample :
    (packFails.getRBProposerGroupF 10 ≠ [] ∧ packFails.GetR 11 = none ∧
      (collectSig packFails 10).length < packFails.cfg.MinRBProposerCnt ∧
      packFails.GetR 10 = some 5 ∧
      DoComputeRandom packFails [] 10 = (Outcome.err (Err.external 7), []) ∧
      submissions (DoComputeRandom packFails [] 10).2 = []) ∧
    (lateEpoch.getRBProposerGroupF (2 ^ 63 - 1) ≠ [] ∧ lateEpoch.GetR (2 ^ 63) = none ∧
      (collectSig lateEpoch (2 ^ 63 - 1)).length < lateEpoch.cfg.MinRBProposerCnt ∧
      lateEpoch.GetR (2 ^ 63 - 1) = some 5 ∧
      DoComputeRandom lateEpoch [] (2 ^ 63 - 1) =
        (Outcome.nil, [Event.sendTx (RbMsg.genR (-(2 ^ 63)) 5)])) := by
  decide

/-- C3, amended: take a non-empty committee, `R[e+1]` unset or zero (`e+1` as the
code computes it, modulo `2^64`) with `e+1` below `2^63`, fewer than
`MinRBProposerCnt` collected signature payloads and `R[e]` readable.  If the
encoding of the payload succeeds, the events of `DoComputeRandom` are exactly one
call of the hook, with the message that publishes `SetBytes(Keccak256(R[e].Bytes()))`
as the random of epoch `e+1`; there is no Lagrange or pairing event; the call
returns nil when the hook succeeds; and the published value is the same in every
environment with the same hash function and the same `R[e]`.  If the encoding
fails, the call returns that error and there is no event. -/
theorem DoComputeRandom_fallback {q : ℕ} (env : Env q) (h : List (Event q)) (epochId : Nat)
    (r : Int) (hg : env.getRBProposerGroupF epochId ≠ [])
    (hnext : env.GetR ((epochId + 1) % 2 ^ 64) = none ∨
      env.GetR ((epochId + 1) % 2 ^ 64) = some 0)
    (hlt : (epochId + 1) % 2 ^ 64 < 2 ^ 63)
    (hsig : (collectSig env epochId).length < env.cfg.MinRBProposerCnt)
    (hR : env.GetR epochId = some r) :
    (env.PackGenR (((epochId + 1) % 2 ^ 64 : ℕ) : Int)
        (SetBytes (env.Keccak256 (bigBytes r))) = none →
      (DoComputeRandom env h epochId).2 =
        [Event.sendTx (RbMsg.genR (((epochId + 1) % 2 ^ 64 : ℕ) : Int)
          (SetBytes (env.Keccak256 (bigBytes r))))] ∧
      submissions (DoComputeRandom env h epochId).2 =
        [RbMsg.genR (((epochId + 1) % 2 ^ 64 : ℕ) : Int)
          (SetBytes (env.Keccak256 (bigBytes r)))] ∧
      Event.lagrangeSig ∉ (DoComputeRandom env h epochId).2 ∧
      Event.lagrangePub ∉ (DoComputeRandom env h epochId).2 ∧
      Event.pair ∉ (DoComputeRandom env h epochId).2 ∧
      (env.SendTx h (RbMsg.genR (((epochId + 1) % 2 ^ 64 : ℕ) : Int)
          (SetBytes (env.Keccak256 (bigBytes r)))) = none →
        (DoComputeRandom env h epochId).1 = Outcome.nil) ∧
      (∀ c, env.SendTx h (RbMsg.genR (((epochId + 1) % 2 ^ 64 : ℕ) : Int)
          (SetBytes (env.Keccak256 (bigBytes r)))) = some c →
        (DoComputeRandom env h epochId).1 = Outcome.err (Err.external c))) ∧
    (∀ c, env.PackGenR (((epochId + 1) % 2 ^ 64 : ℕ) : Int)
        (SetBytes (env.Keccak256 (bigBytes r))) = some c →
      DoComputeRandom env h epochId = (Outcome.err (Err.external c), [])) ∧
    (∀ (env2 : Env q) (h2 : List (Event q)) (e2 : Nat),
      env2.Keccak256 = env.Keccak256 → env2.getRBProposerGroupF e2 ≠ [] →
      (env2.GetR ((e2 + 1) % 2 ^ 64) = none ∨ env2.GetR ((e2 + 1) % 2 ^ 64) = some 0) →
      (e2 + 1) % 2 ^ 64 < 2 ^ 63 →
      (collectSig env2 e2).length < env2.cfg.MinRBProposerCnt →
      env2.GetR e2 = some r →
      env2.PackGenR (((e2 + 1) % 2 ^ 64 : ℕ) : Int)
        (SetBytes (env.Keccak256 (bigBytes r))) = none →
      submissions (DoComputeRandom env2 h2 e2).2 =
        [RbMsg.genR (((e2 + 1) % 2 ^ 64 : ℕ) : Int)
          (SetBytes (env.Keccak256 (bigBytes r)))]) := by
  have key : ∀ (env2 : Env q) (h2 : List (Event q)) (e2 : Nat),
      env2.getRBProposerGroupF e2 ≠ [] →
      (env2.GetR ((e2 + 1) % 2 ^ 64) = none ∨ env2.GetR ((e2 + 1) % 2 ^ 64) = some 0) →
      (e2 + 1) % 2 ^ 64 < 2 ^ 63 →
      (collectSig env2 e2).length < env2.cfg.MinRBProposerCnt →
      env2.GetR e2 = some r →
      env2.PackGenR (((e2 + 1) % 2 ^ 64 : ℕ) : Int)
        (SetBytes (env2.Keccak256 (bigBytes r))) = none →
      DoComputeRandom env2 h2 e2 =
        doSendRBTx env2 h2 (RbMsg.genR (((e2 + 1) % 2 ^ 64 : ℕ) : Int)
          (SetBytes (env2.Keccak256 (bigBytes r)))) := by
    intro env2 h2 e2 a1 a2 a5 a3 a4 a6
    rw [DoComputeRandom_fallback_eq env2 h2 e2 r a2 a1 a3 a4,
      saveRandom_packed env2 h2 _ _ (by rw [int64_of_lt _ a5]; exact a6), int64_of_lt _ a5]
  refine ⟨?_, ?_, ?_⟩
  · intro hp
    have hev := key env h epochId hg hnext hlt hsig hR hp
    rw [hev, doSendRBTx_snd]
    refine ⟨rfl, rfl, by simp, by simp, by simp, ?_, ?_⟩
    · intro hs
      simp only [doSendRBTx, hs]
    · intro c hs
      simp only [doSendRBTx, hs]
  · intro c hp
    rw [DoComputeRandom_fallback_eq env h epochId r hnext hg hsig hR]
    exact saveRandom_pack_error env h _ _ c (by rw [int64_of_lt _ hlt]; exact hp)
  · intro env2 h2 e2 hk a1 a2 a5 a3 a4 a6
    rw [← hk] at a6 ⊢
    rw [key env2 h2 e2 a1 a2 a5 a3 a4 a6, doSendRBTx_snd]
    rfl

/-- Witness of the amended C3: `R[10] = 5`, `R[11]` unset, no signature payload on
chain, the encoding and the hook succeed. -/
theorem DoComputeRandom_fallback_witness :
    (DoComputeRandom fallbackEnv [] 10).2 = [Event.sendTx (RbMsg.genR 11 5)] ∧
    (DoComputeRandom fallbackEnv [] 10).1 = Outcome.nil :=
  ⟨((DoComputeRandom_fallback fallbackEnv [] 10 5 (by decide) (Or.inl rfl) (by decide)
      (by decide) rfl).1 rfl).1,
    ((DoComputeRandom_fallback fallbackEnv [] 10 5 (by decide) (Or.inl rfl) (by decide)
      (by decide) rfl).1 rfl).2.2.2.2.2.1 rfl⟩

/-- C4, counterexample: the committee of epoch 10 is empty and `R[11] = 5` is
already set; `DoComputeRandom` returns nil, not an error. -/
theorem DoComputeRandom_no_publish_counterexample :
    emptyCommitteeEnv.getRBProposerGroupF 10 = [] ∧
    DoComputeRandom emptyCommitteeEnv [] 10 = (Outcome.nil, []) :=
  ⟨rfl, by decide⟩

/-- C4, amended: when `R[e+1]` is unset or zero, `DoComputeRandom` returns an error
and hands nothing to the hook if the committee is empty, and also if at least
`MinRBProposerCnt` signature payloads are collected, `gsig`, `gPub` and the message
are obtained and `e(gsig, Hbase)` differs from `e(m·g1, gPub)`.  When `R[e+1]` is
set and non-zero it returns nil, again without calling the hook. -/
theorem DoComputeRandom_no_publish {q : ℕ} (env : Env q) (h : List (Event q))
    (epochId : Nat) :
    ((env.GetR ((epochId + 1) % 2 ^ 64) = none ∨
        env.GetR ((epochId + 1) % 2 ^ 64) = some 0) →
      (env.getRBProposerGroupF epochId = [] →
        (DoComputeRandom env h epochId).1 = Outcome.err Err.noProposerGroup ∧
        submissions (DoComputeRandom env h epochId).2 = []) ∧
      (∀ (gsig : G1 q) (gPub : G2 q) (mBuf : Bytes),
        env.getRBProposerGroupF epochId ≠ [] →
        env.cfg.MinRBProposerCnt ≤ (collectSig env epochId).length →
        computeGsig env epochId = some gsig → computeGPub env epochId = some gPub →
        env.GetRBM epochId = Except.ok mBuf →
        Pair gsig env.Hbase ≠ Pair (G1.ScalarBaseMult (SetBytes mBuf)) gPub →
        (DoComputeRandom env h epochId).1 = Outcome.err Err.pairingCheckFailed ∧
        submissions (DoComputeRandom env h epochId).2 = [])) ∧
    (∀ r : Int, env.GetR ((epochId + 1) % 2 ^ 64) = some r → r ≠ 0 →
      (DoComputeRandom env h epochId).1 = Outcome.nil ∧
      submissions (DoComputeRandom env h epochId).2 = []) := by
  refine ⟨fun hnext => ⟨?_, ?_⟩, ?_⟩
  · intro hg
    rw [DoComputeRandom_empty env h epochId hnext hg]
    exact ⟨rfl, rfl⟩
  · intro gsig gPub mBuf hg hsig h1 h2 h3 hp
    rw [DoComputeRandom_pairing env h epochId gsig gPub mBuf hnext hg hsig h1 h2 h3, if_pos hp]
    exact ⟨rfl, rfl⟩
  · intro r hr hr0
    rw [DoComputeRandom_exists env h epochId r hr hr0]
    exact ⟨rfl, rfl⟩

/-- C5: if `R[e+1]` is set and non-zero, `DoComputeRandom` returns nil with no
event.  Hence, if a first call handed the hook a non-zero random and that value
is `R[e+1]` when the second call runs, the message carries the epoch argument
`int64(e+1)`, the second call returns nil with no event, and the two calls together made exactly
that one submission. -/
theorem DoComputeRandom_idempotent {q : ℕ} (env1 env2 : Env q) (h1 h2 : List (Event q))
    (epochId : Nat) :
    (∀ r : Int, env1.GetR ((epochId + 1) % 2 ^ 64) = some r → r ≠ 0 →
      DoComputeRandom env1 h1 epochId = (Outcome.nil, [])) ∧
    (∀ (n : Int) (rnd : Nat),
      RbMsg.genR n rnd ∈ submissions (DoComputeRandom env1 h1 epochId).2 →
      rnd ≠ 0 → env2.GetR ((epochId + 1) % 2 ^ 64) = some (rnd : Int) →
      n = int64 ((epochId + 1) % 2 ^ 64) ∧
      DoComputeRandom env2 h2 epochId = (Outcome.nil, []) ∧
      submissions ((DoComputeRandom env1 h1 epochId).2 ++ (DoComputeRandom env2 h2 epochId).2)
        = [RbMsg.genR n rnd]) := by
  refine ⟨fun r hr hr0 => DoComputeRandom_exists env1 h1 epochId r hr hr0, ?_⟩
  intro n rnd hmem hrnd hrec
  have h2nd := DoComputeRandom_exists env2 h2 epochId (rnd : Int) hrec (by exact_mod_cast hrnd)
  rcases DoComputeRandom_submissions env1 h1 epochId with hs | ⟨rnd2, hs⟩
  · rw [hs] at hmem; simp at hmem
  · rw [hs] at hmem
    simp only [List.mem_singleton, RbMsg.genR.injEq] at hmem
    obtain ⟨rfl, rfl⟩ := hmem
    refine ⟨rfl, h2nd, ?_⟩
    rw [h2nd, List.append_nil, hs]

/-- An instance of C5: the fallback call on `fallbackEnv` publishes 5 for epoch 11;
once that is recorded, the second call does nothing. -/
theorem DoComputeRandom_idempotent_witness :
    submissions ((DoComputeRandom fallbackEnv [] 10).2 ++ (DoComputeRandom recordedEnv [] 10).2)
      = [RbMsg.genR 11 5] :=
  ((DoComputeRandom_idempotent fallbackEnv recordedEnv [] [] 10).2 11 5 (by decide) (by decide)
    rfl).2.2

namespace wanpos

open Polynomial

variable {q : ℕ}

lemma scalarInv_eq [Fact q.Prime] (a : ZMod q) : scalarInv a = a⁻¹ := by
  unfold scalarInv
  cases hf : (List.range q).find? (fun (r : ℕ) => decide ((r : ZMod q) * a = 1)) with
  | none =>
    simp only [Option.elim]
    by_cases ha : a = 0
    · rw [ha, inv_zero]
    · exfalso
      rw [List.find?_eq_none] at hf
      have h1 := hf (a⁻¹).val (List.mem_range.mpr (ZMod.val_lt _))
      simp only [ZMod.natCast_val, ZMod.cast_id', id_eq, decide_eq_true_eq] at h1
      exact h1 (inv_mul_cancel₀ ha)
  | some r =>
    simp only [Option.elim]
    have h1 := List.find?_some hf
    simp only [decide_eq_true_eq] at h1
    exact eq_inv_of_mul_eq_one_left h1

/-- The abscissa of position `j` as a scalar. -/
lemma take_map_getD (X : List Nat) (n j : Nat) (hj : j < n) (hn : n ≤ X.length) :
    ((X.take n).map (fun (v : ℕ) => (v : ZMod q))).getD j 0 = ((X.getD j 0 : ℕ) : ZMod q) := by
  have h1 : j < ((X.take n).map (fun (v : ℕ) => (v : ZMod q))).length := by
    simp; omega
  have h2 : j < X.length := by omega
  rw [List.getD_eq_getElem _ _ h1, List.getD_eq_getElem _ _ h2]
  simp

lemma injOn_of_nodup (X : List Nat) (t : Nat) (hlen : t + 1 ≤ X.length)
    (hnd : ((X.take (t + 1)).map (fun (v : ℕ) => (v : ZMod q))).Nodup) :
    Set.InjOn (fun j => ((X.getD j 0 : ℕ) : ZMod q)) (Finset.range (t + 1) : Set ℕ) := by
  intro i hi j hj hij
  simp only [Finset.coe_range, Set.mem_Iio] at hi hj
  simp only at hij
  rw [← take_map_getD X (t + 1) i hi hlen, ← take_map_getD X (t + 1) j hj hlen] at hij
  have hl : ((X.take (t + 1)).map (fun (v : ℕ) => (v : ZMod q))).length = t + 1 := by
    simp; omega
  rw [List.getD_eq_getElem _ _ (by omega), List.getD_eq_getElem _ _ (by omega)] at hij
  exact (hnd.getElem_inj_iff).mp hij

lemma evaluateB_eq [Fact q.Prime] (X : List Nat) (t : Nat) (hlen : t + 1 ≤ X.length)
    (hnd : ((X.take (t + 1)).map (fun (v : ℕ) => (v : ZMod q))).Nodup) :
    evaluateB X t = some ((List.range (t + 1)).map (fun i =>
      (Lagrange.basis (Finset.range (t + 1)) (fun j => ((X.getD j 0 : ℕ) : ZMod q)) i).eval 0))
    := by
  unfold evaluateB
  simp only
  rw [if_neg (by omega), if_neg (not_not.mpr hnd)]
  congr 1
  apply List.map_congr_left
  intro i hi
  rw [List.mem_range] at hi
  rw [Lagrange.basis, eval_prod]
  have hfin : (Finset.range (t + 1)).erase i =
      ((List.range (t + 1)).filter (fun j => decide (j ≠ i))).toFinset := by
    ext j
    simp only [Finset.mem_erase, Finset.mem_range, List.mem_toFinset, List.mem_filter,
      List.mem_range, decide_eq_true_eq]
    tauto
  rw [hfin, List.prod_toFinset _ ((List.nodup_range _).filter _)]
  congr 1
  apply List.map_congr_left
  intro j hj
  have hj2 : j < t + 1 := by
    have := (List.mem_filter.mp hj).1
    simpa using this
  rw [take_map_getD X (t + 1) j hj2 hlen, take_map_getD X (t + 1) i hi hlen, scalarInv_eq,
    Lagrange.basisDivisor]
  simp only [eval_mul, eval_C, eval_sub, eval_X]
  ring

lemma lagrange_eval_zero [Fact q.Prime] (X : List Nat) (t : Nat) (hlen : t + 1 ≤ X.length)
    (hnd : ((X.take (t + 1)).map (fun (v : ℕ) => (v : ZMod q))).Nodup)
    (F : (ZMod q)[X]) (hdeg : ∀ m, t + 1 ≤ m → F.coeff m = 0) :
    ∑ i ∈ Finset.range (t + 1),
      (Lagrange.basis (Finset.range (t + 1)) (fun j => ((X.getD j 0 : ℕ) : ZMod q)) i).eval 0 *
        F.eval ((X.getD i 0 : ℕ) : ZMod q) = F.eval 0 := by
  have hinj := injOn_of_nodup X t hlen hnd
  have hd : F.degree < (Finset.range (t + 1)).card := by
    rw [Finset.card_range]
    exact (degree_lt_iff_coeff_zero F (t + 1)).mpr hdeg
  have h1 := Lagrange.eq_interpolate hinj hd
  conv_rhs => rw [h1]
  rw [Lagrange.interpolate_apply, eval_finset_sum]
  apply Finset.sum_congr rfl
  intro i _
  rw [eval_mul, eval_C]
  ring

lemma horner_poly (poly : List (ZMod q)) :
    ∃ F : (ZMod q)[X], (∀ m, poly.length ≤ m → F.coeff m = 0) ∧
      ∀ x, F.eval x = poly.foldr (fun c acc => c + x * acc) 0 := by
  induction poly with
  | nil => exact ⟨0, by simp, by simp⟩
  | cons c l ih =>
    obtain ⟨F, h1, h2⟩ := ih
    refine ⟨C c + X * F, ?_, ?_⟩
    · intro m hm
      simp only [List.length_cons] at hm
      obtain ⟨k, rfl⟩ : ∃ k, m = k + 1 := ⟨m - 1, by omega⟩
      rw [coeff_add, coeff_C_succ, coeff_X_mul, zero_add]
      exact h1 k (by omega)
    · intro x
      simp [h2]

lemma foldl_G1_Add (l : List (G1 q)) (a : G1 q) :
    l.foldl G1.Add a = ⟨a.dlog + (l.map (fun p => p.dlog)).sum⟩ := by
  induction l generalizing a with
  | nil => simp
  | cons p l ih =>
    rw [List.foldl_cons, ih]
    simp [G1.Add, add_assoc]

lemma foldl_G2_Add (l : List (G2 q)) (a : G2 q) :
    l.foldl G2.Add a = ⟨a.dlog + (l.map (fun p => p.dlog)).sum⟩ := by
  induction l generalizing a with
  | nil => simp
  | cons p l ih =>
    rw [List.foldl_cons, ih]
    simp [G2.Add, add_assoc]

lemma zipWith_range_map {α β γ : Type} (f : α → β → γ) (l : List α) (g : ℕ → β) (n : Nat)
    (d : α) (hn : n ≤ l.length) :
    List.zipWith f l ((List.range n).map g) = (List.range n).map (fun i => f (l.getD i d) (g i))
    := by
  apply List.ext_getElem
  · simp; omega
  · intro i h1 h2
    have hi : i < n := by simpa using h2
    have hl : i < l.length := by omega
    simp [List.getElem?_eq_getElem hl]

lemma sum_range_map (f : ℕ → ZMod q) (n : Nat) :
    ((List.range n).map f).sum = ∑ i ∈ Finset.range n, f i := by
  rfl

lemma LagrangeSig_eq [Fact q.Prime] (sig : List (G1 q)) (X : List Nat) (t : Nat)
    (F : (ZMod q)[X]) (c : ZMod q) (hlen : t + 1 ≤ X.length) (hsig : t + 1 ≤ sig.length)
    (hnd : ((X.take (t + 1)).map (fun (v : ℕ) => (v : ZMod q))).Nodup)
    (hdeg : ∀ m, t + 1 ≤ m → F.coeff m = 0)
    (hval : ∀ i, i < t + 1 →
      (sig.getD i ⟨0⟩).dlog = c * F.eval ((X.getD i 0 : ℕ) : ZMod q)) :
    LagrangeSig sig X t = some ⟨c * F.eval 0⟩ := by
  unfold LagrangeSig
  rw [if_neg (by omega), evaluateB_eq X t hlen hnd]
  simp only [Option.map_some']
  rw [zipWith_range_map _ sig _ (t + 1) ⟨0⟩ hsig, foldl_G1_Add, List.map_map, sum_range_map]
  simp only [G1.ScalarBaseMult, Nat.cast_zero, zero_add, Option.some.injEq, G1.mk.injEq]
  rw [← lagrange_eval_zero X t hlen hnd F hdeg, Finset.mul_sum]
  apply Finset.sum_congr rfl
  intro i hi
  simp only [Function.comp, G1.ScalarMult, ZMod.natCast_val, ZMod.cast_id', id_eq]
  rw [hval i (Finset.mem_range.mp hi)]
  ring

lemma LagrangePub_eq [Fact q.Prime] (cm : List (G2 q)) (X : List Nat) (t : Nat)
    (F : (ZMod q)[X]) (c : ZMod q) (hlen : t + 1 ≤ X.length) (hcm : t + 1 ≤ cm.length)
    (hnd : ((X.take (t + 1)).map (fun (v : ℕ) => (v : ZMod q))).Nodup)
    (hdeg : ∀ m, t + 1 ≤ m → F.coeff m = 0)
    (hval : ∀ i, i < t + 1 →
      (cm.getD i ⟨0⟩).dlog = c * F.eval ((X.getD i 0 : ℕ) : ZMod q)) :
    LagrangePub cm X t = some ⟨c * F.eval 0⟩ := by
  unfold LagrangePub
  rw [if_neg (by omega), evaluateB_eq X t hlen hnd]
  simp only [Option.map_some']
  rw [zipWith_range_map _ cm _ (t + 1) ⟨0⟩ hcm, foldl_G2_Add, List.map_map, sum_range_map]
  simp only [G2.ScalarBaseMult, Nat.cast_zero, zero_add, Option.some.injEq, G2.mk.injEq]
  rw [← lagrange_eval_zero X t hlen hnd F hdeg, Finset.mul_sum]
  apply Finset.sum_congr rfl
  intro i hi
  simp only [Function.comp, G2.ScalarMult, ZMod.natCast_val, ZMod.cast_id', id_eq]
  rw [hval i (Finset.mem_range.mp hi)]
  ring

end wanpos

namespace RandomBeacon

open Polynomial

variable {q : ℕ}

lemma EvaluatePoly_eq (poly : List (ZMod q)) (x t : Nat) (hl : poly.length = t + 1) :
    wanpos.EvaluatePoly poly x t = poly.foldr (fun c acc => c + (x : ZMod q) * acc) 0 := by
  unfold wanpos.EvaluatePoly
  rw [List.take_of_length_le (by omega)]

/-- What `generateDKG` returns is an honest deal for the committee it read. -/
lemma generateDKG_honest (env : Env q) (h : List (Event q)) (e id : Nat)
    (p : RbDKGTxPayload q) (hg : generateDKG env h e id = Except.ok p) :
    honestDeal env e p ∧ p.EpochId = e ∧ p.ProposerId = id := by
  unfold generateDKG at hg
  simp only at hg
  split_ifs at hg with h0
  split at hg
  · cases hg
  · rename_i s hs
    simp only [Except.ok.injEq] at hg
    subst hg
    refine ⟨?_, rfl, rfl⟩
    have hlen : (wanpos.RandPoly env.cfg.PolymDegree s (env.randCoef h) : List (ZMod q)).length
        = env.cfg.PolymDegree + 1 := by
      simp [wanpos.RandPoly]
    obtain ⟨F, hF1, hF2⟩ := wanpos.horner_poly
      (wanpos.RandPoly env.cfg.PolymDegree s (env.randCoef h) : List (ZMod q))
    refine ⟨F, ?_, ?_⟩
    · intro m hm
      exact hF1 m (by rw [hlen]; exact hm)
    · intro j hj
      have hev : wanpos.EvaluatePoly
          (wanpos.RandPoly env.cfg.PolymDegree s (env.randCoef h) : List (ZMod q))
          (SetBytes (env.GetPolynomialX
            ((getRBProposerGroup env e).getD j (G1.ScalarBaseMult 0)) (j % 2 ^ 32)) % q)
          env.cfg.PolymDegree = F.eval (abscissa env e j) := by
        rw [EvaluatePoly_eq _ _ _ hlen, hF2, abscissa, ZMod.natCast_mod]
      constructor
      · rw [List.getElem?_eq_getElem (by simpa using hj)]
        simp only [List.getElem_zipWith, List.getElem_map, List.getElem_range, Option.some.injEq]
        rw [hev, List.getD_eq_getElem _ _ hj]
      · rw [List.getElem?_eq_getElem (by simpa using hj)]
        simp only [List.getElem_map, List.getElem_range, Option.some.injEq]
        rw [hev]

lemma ModInverse_spec (g n k : Nat) (h : ModInverse g n = some k) :
    ((k : ℕ) : ZMod n) * ((g : ℕ) : ZMod n) = 1 := by
  unfold ModInverse at h
  have h1 := List.find?_some h
  simp only [decide_eq_true_eq] at h1
  have h2 : (((k * g : ℕ)) : ZMod n) = ((1 : ℕ) : ZMod n) :=
    (ZMod.natCast_eq_natCast_iff' _ _ _).mpr h1
  simpa using h2

lemma foldl_gskStep_none (L : List (RbDKGTxPayload q)) (d : Nat) (sk : Option Nat) :
    L.foldl (gskStep d sk) none = none := by
  induction L with
  | nil => rfl
  | cons p L ih => rw [List.foldl_cons]; simpa [gskStep] using ih

lemma foldl_gskStep_nil_inv (L : List (RbDKGTxPayload q)) (d : Nat) (acc : Option (G1 q))
    (g : G1 q) (h : L.foldl (gskStep d none) acc = some g) : L = [] := by
  cases L with
  | nil => rfl
  | cons p L =>
    rw [List.foldl_cons] at h
    have : gskStep d none acc p = none := by
      unfold gskStep
      split <;> simp_all
    rw [this, foldl_gskStep_none] at h
    cases h

/-- The sums over honest deals: there is one polynomial `F` of degree at most `t`
such that the signer loop of `doSIG` for index `j` adds `k·F(x_j)·PK[j]` and the
commitment loop of `DoComputeRandom` adds `F(x_j)·g2`. -/
lemma honest_sums [NeZero q] (env : Env q) (e : Nat) (L : List (RbDKGDataCollector q))
    (hL : ∀ d ∈ L, honestDeal env e d.data) :
    ∃ F : (ZMod q)[X], (∀ m, env.cfg.PolymDegree + 1 ≤ m → F.coeff m = 0) ∧
      (L = [] → F = 0) ∧
      ∀ j, j < (getRBProposerGroup env e).length →
        (∀ (k : Nat) (acc : G1 q),
          (L.map (fun d => d.data)).foldl (gskStep j (some k)) (some acc) =
            some ⟨acc.dlog + (k : ZMod q) * (F.eval (abscissa env e j) *
              ((getRBProposerGroup env e).getD j (G1.ScalarBaseMult 0)).dlog)⟩) ∧
        (∀ acc : G2 q,
          L.foldl (commitStep j) (some acc) = some ⟨acc.dlog + F.eval (abscissa env e j)⟩) := by
  induction L with
  | nil =>
    refine ⟨0, by simp, fun _ => rfl, ?_⟩
    intro j _
    exact ⟨fun k acc => by simp, fun acc => by simp⟩
  | cons d L ih =>
    obtain ⟨F, hF1, _, hF2⟩ := ih (fun x hx => hL x (List.mem_cons_of_mem _ hx))
    obtain ⟨Fd, hd1, hd2⟩ := hL d (List.mem_cons_self _ _)
    refine ⟨Fd + F, ?_, by simp, ?_⟩
    · intro m hm
      rw [coeff_add, hd1 m hm, hF1 m hm, add_zero]
    · intro j hj
      obtain ⟨e1, e2⟩ := hd2 j hj
      obtain ⟨i1, i2⟩ := hF2 j hj
      constructor
      · intro k acc
        rw [List.map_cons, List.foldl_cons]
        have : gskStep j (some k) (some acc) d.data = some (acc.Add
            ((G1.ScalarMult ((getRBProposerGroup env e).getD j (G1.ScalarBaseMult 0))
              (Fd.eval (abscissa env e j)).val).ScalarMult k)) := by
          unfold gskStep
          rw [e1]
        rw [this, i1]
        simp only [G1.Add, G1.ScalarMult, ZMod.natCast_val, ZMod.cast_id', id_eq, eval_add,
          Option.some.injEq, G1.mk.injEq]
        ring
      · intro acc
        rw [List.foldl_cons]
        have : commitStep j (some acc) d =
            some (acc.Add (G2.ScalarBaseMult (Fd.eval (abscissa env e j)).val)) := by
          unfold commitStep
          rw [e2]
        rw [this, i2]
        simp only [G2.Add, G2.ScalarBaseMult, ZMod.natCast_val, ZMod.cast_id', id_eq, eval_add,
          Option.some.injEq, G2.mk.injEq]
        ring

/-- The payload that a run of `doSIG` hands to the hook. -/
lemma doSIG_submitted (env : Env q) (h : List (Event q)) (e d : Nat) (p : RbSIGTxPayload q)
    (hp : Event.sendTx (RbMsg.sig p) ∈ (doSIG env h e d).2) :
    ∃ (prikey : Nat) (gsk : G1 q) (mBuf : Bytes),
      env.cfg.SelfPrK = some prikey ∧
      ((List.range (getRBProposerGroup env e).length).filterMap
          (fun id => env.GetDkg e (id % 2 ^ 32))).foldl
        (gskStep d (ModInverse prikey q)) (some (G1.ScalarBaseMult 0)) = some gsk ∧
      env.GetRBM e = Except.ok mBuf ∧
      p = ⟨e, d, gsk.ScalarMult (SetBytes mBuf)⟩ := by
  unfold doSIG at hp
  simp only [sendSIG] at hp
  split_ifs at hp
  · simp at hp
  · simp at hp
  · split at hp
    · simp at hp
    · split at hp
      · simp at hp
      · split at hp
        · simp at hp
        · rename_i prikey hk _ gsk hgsk _ mBuf hm
          rw [doSendRBTx_snd] at hp
          simp only [List.singleton_append, List.cons_append, List.nil_append, List.mem_cons,
            List.mem_singleton, Event.sendTx.injEq, RbMsg.sig.injEq, reduceCtorEq, false_or,
            List.not_mem_nil, or_false] at hp
          exact ⟨prikey, gsk, mBuf, hk, hgsk, hm, hp⟩

lemma filterMap_eq_filter_map {α β : Type} (f : α → Option β) (g : α → β) (l : List α)
    (h : ∀ a ∈ l, ∀ b, f a = some b → b = g a) :
    l.filterMap f = (l.filter (fun a => (f a).isSome)).map g := by
  induction l with
  | nil => rfl
  | cons a l ih =>
    have ih2 := ih (fun x hx => h x (List.mem_cons_of_mem _ hx))
    cases hfa : f a with
    | none => simp [List.filterMap_cons, hfa, ih2]
    | some b =>
      have := h a (List.mem_cons_self _ _) b hfa
      simp [List.filterMap_cons, hfa, ih2, this]

lemma allInRange_map {α β : Type} (f : α → Option β) (g : α → β) (l : List α)
    (h : ∀ a ∈ l, f a = some (g a)) : allInRange (l.map f) = some (l.map g) := by
  induction l with
  | nil => rfl
  | cons a l ih =>
    rw [List.map_cons, h a (List.mem_cons_self _ _), allInRange,
      ih (fun x hx => h x (List.mem_cons_of_mem _ hx))]
    rfl

lemma honestDeal_congr (env env2 : Env q) (e : Nat) (p : RbDKGTxPayload q)
    (h1 : env2.getRBProposerGroupF e = env.getRBProposerGroupF e)
    (h2 : env2.cfg.PolymDegree = env.cfg.PolymDegree)
    (h3 : env2.GetPolynomialX = env.GetPolynomialX)
    (hp : honestDeal env2 e p) : honestDeal env e p := by
  unfold honestDeal abscissa getRBProposerGroup at hp ⊢
  rw [h1, h2, h3] at hp
  exact hp

lemma collectDkg_data (env : Env q) (e : Nat) :
    (collectDkg env e).map (fun d => d.data) =
      (List.range (getRBProposerGroup env e).length).filterMap
        (fun id => env.GetDkg e (id % 2 ^ 32)) := by
  unfold collectDkg
  simp only
  rw [List.map_filterMap]
  congr 1
  funext id
  cases env.GetDkg e (id % 2 ^ 32) <;> rfl

lemma abscissa_eq (env : Env q) (e id : Nat) (hid : id < 2 ^ 32) :
    abscissa env e id = ((SetBytes (env.GetPolynomialX
      ((getRBProposerGroup env e).getD id (G1.ScalarBaseMult 0)) id) : ℕ) : ZMod q) := by
  unfold abscissa
  rw [Nat.mod_eq_of_lt hid]

/-- The signature share that an honest signer with key `sk d` hands to the hook,
when every deal on chain is honest with sum polynomial `F`. -/
lemma doSIG_share (env envs : Env q) (hs : List (Event q)) (e d : Nat) (sk : Nat)
    (F : (ZMod q)[X]) (p : RbSIGTxPayload q)
    (hkey : (getRBProposerGroup env e).getD d (G1.ScalarBaseMult 0) = G1.ScalarBaseMult sk)
    (hF0 : collectDkg env e = [] → F = 0)
    (hF : ∀ (k : Nat) (acc : G1 q),
      ((collectDkg env e).map (fun d => d.data)).foldl (gskStep d (some k)) (some acc) =
        some ⟨acc.dlog + (k : ZMod q) * (F.eval (abscissa env e d) *
          ((getRBProposerGroup env e).getD d (G1.ScalarBaseMult 0)).dlog)⟩)
    (h1 : envs.getRBProposerGroupF e = env.getRBProposerGroupF e)
    (h2 : ∀ i, envs.GetDkg e i = env.GetDkg e i)
    (h3 : envs.GetRBM e = env.GetRBM e)
    (h4 : envs.cfg.SelfPrK = some sk)
    (hp : Event.sendTx (RbMsg.sig p) ∈ (doSIG envs hs e d).2) :
    ∃ mBuf, env.GetRBM e = Except.ok mBuf ∧
      p = ⟨e, d, ⟨((SetBytes mBuf : ℕ) : ZMod q) * F.eval (abscissa env e d)⟩⟩ := by
  obtain ⟨prikey, gsk, mBuf, a1, a2, a3, a4⟩ := doSIG_submitted envs hs e d p hp
  rw [h4] at a1
  cases a1
  rw [h3] at a3
  refine ⟨mBuf, a3, ?_⟩
  have hlist : (List.range (getRBProposerGroup envs e).length).filterMap
      (fun id => envs.GetDkg e (id % 2 ^ 32)) = (collectDkg env e).map (fun d => d.data) := by
    rw [collectDkg_data]
    unfold getRBProposerGroup
    rw [h1]
    congr 1
    funext id
    exact h2 _
  rw [hlist] at a2
  have hgsk : gsk.dlog = F.eval (abscissa env e d) := by
    cases hk : ModInverse sk q with
    | none =>
      rw [hk] at a2
      have hnil := foldl_gskStep_nil_inv _ _ _ _ a2
      rw [hnil] at a2
      simp only [List.foldl_nil, Option.some.injEq] at a2
      have hc : collectDkg env e = [] := by simpa using hnil
      rw [← a2, hF0 hc]
      simp [G1.ScalarBaseMult]
    | some k =>
      rw [hk, hF k] at a2
      simp only [Option.some.injEq] at a2
      rw [← a2, hkey]
      simp only [G1.ScalarBaseMult, Nat.cast_zero, zero_add]
      have hinv := ModInverse_spec sk q k hk
      calc (k : ZMod q) * (F.eval (abscissa env e d) * (sk : ZMod q))
          = ((k : ZMod q) * (sk : ZMod q)) * F.eval (abscissa env e d) := by ring
        _ = F.eval (abscissa env e d) := by rw [hinv, one_mul]
  rw [a4]
  simp only [G1.ScalarMult, hgsk]

lemma DoComputeRandom_fallback_none (env : Env q) (h : List (Event q)) (e : Nat)
    (hnext : env.GetR ((e + 1) % 2 ^ 64) = none ∨ env.GetR ((e + 1) % 2 ^ 64) = some 0)
    (hg : env.getRBProposerGroupF e ≠ [])
    (hsig : (collectSig env e).length < env.cfg.MinRBProposerCnt)
    (hR : env.GetR e = none) :
    DoComputeRandom env h e = (Outcome.err Err.getRandomFail, []) := by
  unfold DoComputeRandom
  simp only [DoComputeRandom_fresh env e hnext, getRBProposerGroup]
  have : ¬ (env.getRBProposerGroupF e).length = 0 := by simpa using hg
  simp only [this, hsig, hR, if_false, if_true, Bool.false_eq_true]

/-- The collected signature payloads, when every stored payload of index `id` is
`(e, id, c·F(x_id)·g1)`: the payloads of an ascending list of distinct committee
indices. -/
lemma collectSig_honest (env : Env q) (e : Nat) (c : ZMod q) (F : (ZMod q)[X])
    (hN32 : (getRBProposerGroup env e).length ≤ 2 ^ 32)
    (hshare : ∀ d p, d < (getRBProposerGroup env e).length → env.GetSig e d = some p →
      p = ⟨e, d, ⟨c * F.eval (abscissa env e d)⟩⟩) :
    ∃ S : List Nat, S.Nodup ∧ (∀ id ∈ S, id < (getRBProposerGroup env e).length) ∧
      collectSig env e = S.map (fun id =>
        (⟨⟨e, id, ⟨c * F.eval (abscissa env e id)⟩⟩,
          (getRBProposerGroup env e).getD id (G1.ScalarBaseMult 0)⟩ : RbSIGDataCollector q)) := by
  unfold collectSig
  simp only
  refine ⟨_, ?_, ?_, filterMap_eq_filter_map _ _ _ ?_⟩
  · exact (List.nodup_range _).filter _
  · intro id hid
    have := (List.mem_filter.mp hid).1
    simpa using this
  · intro id hid b hb
    have hid2 : id < (getRBProposerGroup env e).length := by simpa using hid
    rw [Nat.mod_eq_of_lt (by omega)] at hb
    cases hs : env.GetSig e id with
    | none => rw [hs] at hb; cases hb
    | some p =>
      rw [hs] at hb
      simp only [Option.map_some', Option.some.injEq] at hb
      rw [← hb, hshare id p hid2 hs]

lemma computeGsig_honest [Fact q.Prime] (env : Env q) (e : Nat) (c : ZMod q) (F : (ZMod q)[X])
    (hN32 : (getRBProposerGroup env e).length ≤ 2 ^ 32)
    (hx : ∀ i j, i < (getRBProposerGroup env e).length →
      j < (getRBProposerGroup env e).length → abscissa env e i = abscissa env e j → i = j)
    (hdeg : ∀ m, env.cfg.PolymDegree + 1 ≤ m → F.coeff m = 0)
    (hcount : env.cfg.PolymDegree + 1 ≤ (collectSig env e).length)
    (hshare : ∀ d p, d < (getRBProposerGroup env e).length → env.GetSig e d = some p →
      p = ⟨e, d, ⟨c * F.eval (abscissa env e d)⟩⟩) :
    computeGsig env e = some ⟨c * F.eval 0⟩ := by
  obtain ⟨S, hS1, hS2, hS3⟩ := collectSig_honest env e c F hN32 hshare
  have hlen : env.cfg.PolymDegree + 1 ≤ S.length := by
    rw [hS3] at hcount; simpa using hcount
  unfold computeGsig xSig
  simp only
  rw [hS3, List.map_map, List.map_map]
  have habs : ∀ id ∈ S, abscissa env e id = ((SetBytes (env.GetPolynomialX
      ((getRBProposerGroup env e).getD id (G1.ScalarBaseMult 0)) id) : ℕ) : ZMod q) := by
    intro id hid
    exact abscissa_eq env e id (by have := hS2 id hid; omega)
  apply wanpos.LagrangeSig_eq _ _ _ F c
  · simpa using hlen
  · simpa using hlen
  · rw [← List.map_take, List.map_map]
    apply List.Nodup.map_on
    · intro a ha b hb hab
      have ha2 := List.mem_of_mem_take ha
      have hb2 := List.mem_of_mem_take hb
      simp only [Function.comp] at hab
      rw [← habs a ha2, ← habs b hb2] at hab
      exact hx a b (hS2 a ha2) (hS2 b hb2) hab
    · exact hS1.sublist (List.take_sublist _ _)
  · exact hdeg
  · intro i hi
    have hiS : i < S.length := by omega
    rw [List.getD_eq_getElem _ _ (by simpa using hiS),
      List.getD_eq_getElem _ _ (by simpa using hiS)]
    simp only [List.getElem_map, Function.comp]
    rw [habs _ (List.getElem_mem _)]

lemma computeGPub_honest [Fact q.Prime] (env : Env q) (e : Nat) (F : (ZMod q)[X])
    (hN : env.cfg.PolymDegree + 1 ≤ (getRBProposerGroup env e).length)
    (hx : ∀ i j, i < (getRBProposerGroup env e).length →
      j < (getRBProposerGroup env e).length → abscissa env e i = abscissa env e j → i = j)
    (hdeg : ∀ m, env.cfg.PolymDegree + 1 ≤ m → F.coeff m = 0)
    (hcommit : ∀ j, j < (getRBProposerGroup env e).length → ∀ acc : G2 q,
      (collectDkg env e).foldl (commitStep j) (some acc) =
        some ⟨acc.dlog + F.eval (abscissa env e j)⟩) :
    computeGPub env e = some ⟨F.eval 0⟩ := by
  have hcs : commitSums env e = some ((List.range (getRBProposerGroup env e).length).map
      (fun i => (⟨F.eval (abscissa env e i)⟩ : G2 q))) := by
    unfold commitSums
    simp only
    apply allInRange_map
    intro i hi
    rw [hcommit i (by simpa using hi)]
    simp [G2.ScalarBaseMult]
  have hcast : ∀ i, ((SetBytes (env.GetPolynomialX
      ((getRBProposerGroup env e).getD i (G1.ScalarBaseMult 0)) (i % 2 ^ 32)) % q : ℕ) : ZMod q)
      = abscissa env e i := by
    intro i
    rw [ZMod.natCast_mod]
    rfl
  unfold computeGPub
  rw [hcs, Option.some_bind]
  have := wanpos.LagrangePub_eq
    ((List.range (getRBProposerGroup env e).length).map
      (fun i => (⟨F.eval (abscissa env e i)⟩ : G2 q)))
    (xAll env e) env.cfg.PolymDegree F 1 (by simpa [xAll] using hN) (by simpa using hN)
    (by
      unfold xAll
      simp only
      rw [← List.map_take, List.map_map]
      apply List.Nodup.map_on
      · intro a ha b hb hab
        have ha2 : a < (getRBProposerGroup env e).length := by
          simpa using List.mem_of_mem_take ha
        have hb2 : b < (getRBProposerGroup env e).length := by
          simpa using List.mem_of_mem_take hb
        simp only [Function.comp] at hab
        rw [hcast a, hcast b] at hab
        exact hx a b ha2 hb2 hab
      · exact (List.nodup_range _).sublist (List.take_sublist _ _))
    hdeg
    (by
      intro i hi
      have hi2 : i < (getRBProposerGroup env e).length := by omega
      rw [List.getD_eq_getElem _ _ (by simpa using hi2),
        List.getD_eq_getElem _ _ (by simpa [xAll] using hi2)]
      simp only [xAll, List.getElem_map, List.getElem_range, one_mul]
      rw [hcast i])
  rw [this, one_mul]

lemma submittedSig_mem (ev : List (Event q)) (p : RbSIGTxPayload q)
    (h : submittedSig ev = some p) : Event.sendTx (RbMsg.sig p) ∈ ev := by
  unfold submittedSig at h
  obtain ⟨a, ha, hp⟩ := List.exists_of_findSome?_eq_some h
  split at hp
  · simp only [Option.some.injEq] at hp
    rw [← hp]; exact ha
  · cases hp

end RandomBeacon

/-- An instance of the amended C4: on the chain of the witness of C2 with `Hbase`
replaced by `2·g2` the two pairings differ, an error is returned and nothing is
handed to the hook. -/
theorem DoComputeRandom_no_publish_witness :
    (DoComputeRandom { sigChain with Hbase := G2.ScalarBaseMult 2 } [] 10).1 =
        Outcome.err Err.pairingCheckFailed ∧
      submissions (DoComputeRandom { sigChain with Hbase := G2.ScalarBaseMult 2 } [] 10).2 = [] :=
  ((DoComputeRandom_no_publish { sigChain with Hbase := G2.ScalarBaseMult 2 } [] 10).1
    (Or.inl rfl)).2 ⟨4⟩ ⟨6⟩ [3] (by decide) (by decide) (by decide) (by decide) rfl (by decide)

namespace RandomBeacon

variable {q : ℕ}

lemma submissions_append (a b : List (Event q)) :
    submissions (a ++ b) = submissions a ++ submissions b := by
  simp [submissions, List.filterMap_append]

lemma generateDKG_ids (env : Env q) (h : List (Event q)) (e id : Nat)
    (p : RbDKGTxPayload q) (hg : generateDKG env h e id = Except.ok p) :
    p.EpochId = e ∧ p.ProposerId = id := by
  unfold generateDKG at hg
  simp only at hg
  split_ifs at hg
  split at hg
  · cases hg
  · simp only [Except.ok.injEq] at hg
    subst hg
    exact ⟨rfl, rfl⟩

/-- A dealer run that returns nil made exactly one submission, the DKG payload of
its index. -/
lemma doDKG_success (env : Env q) (h : List (Event q)) (e id : Nat)
    (hok : (doDKG env h e id).1 = Outcome.nil) :
    ∃ p : RbDKGTxPayload q, (doDKG env h e id).2 = [Event.beginDKG e id, Event.sendTx (RbMsg.dkg p)]
      ∧ p.EpochId = e ∧ p.ProposerId = id := by
  unfold doDKG at hok ⊢
  simp only at hok ⊢
  cases hg : generateDKG env (h ++ [Event.beginDKG e id]) e id with
  | error err => rw [hg] at hok; simp at hok
  | ok p =>
    obtain ⟨h1, h2⟩ := generateDKG_ids env _ e id p hg
    refine ⟨p, ?_, h1, h2⟩
    simp [sendDKG, doSendRBTx_snd]

/-- A signer run that returns nil made exactly one submission, the signature
payload of its index. -/
lemma doSIG_success (env : Env q) (h : List (Event q)) (e id : Nat)
    (hok : (doSIG env h e id).1 = Outcome.nil) :
    ∃ p : RbSIGTxPayload q,
      (doSIG env h e id).2 = [Event.beginSIG e id, Event.getRBM e, Event.sendTx (RbMsg.sig p)]
      ∧ p.EpochId = e ∧ p.ProposerId = id := by
  unfold doSIG at hok ⊢
  simp only [sendSIG] at hok ⊢
  by_cases c1 : (getRBProposerGroup env e).length = 0
  · rw [if_pos c1] at hok; simp at hok
  rw [if_neg c1] at hok ⊢
  by_cases c2 : ((List.range (getRBProposerGroup env e).length).filterMap
      (fun id => env.GetDkg e (id % 2 ^ 32))).length < env.cfg.MinRBProposerCnt
  · rw [if_pos c2] at hok; simp at hok
  rw [if_neg c2] at hok ⊢
  cases hk : env.cfg.SelfPrK with
  | none =>
    rw [hk] at hok
    simp at hok
  | some prikey =>
    rw [hk] at hok
    simp only at hok ⊢
    cases hgsk : ((List.range (getRBProposerGroup env e).length).filterMap
        (fun id => env.GetDkg e (id % 2 ^ 32))).foldl (gskStep id (ModInverse prikey q))
        (some (G1.ScalarBaseMult 0)) with
    | none =>
      rw [hgsk] at hok
      simp at hok
    | some gsk =>
      rw [hgsk] at hok
      simp only at hok ⊢
      cases hm : env.GetRBM e with
      | error c =>
        rw [hm] at hok
        simp at hok
      | ok mBuf =>
        refine ⟨⟨e, id, gsk.ScalarMult (SetBytes mBuf)⟩, ?_, rfl, rfl⟩
        simp only [doSendRBTx_snd]
        rfl

lemma doDKGs_append (env : Env q) (e : Nat) (pre rest : List Nat) :
    ∀ h : List (Event q), doDKGs env h e (pre ++ rest) =
      if (doDKGs env h e pre).1 = Outcome.nil then
        ((doDKGs env (h ++ (doDKGs env h e pre).2) e rest).1,
          (doDKGs env h e pre).2 ++ (doDKGs env (h ++ (doDKGs env h e pre).2) e rest).2)
      else doDKGs env h e pre := by
  induction pre with
  | nil => intro h; simp [doDKGs]
  | cons id pre ih =>
    intro h
    rw [List.cons_append, doDKGs_cons, doDKGs_cons]
    by_cases h1 : (doDKG env h e id).1 = Outcome.nil
    · rw [if_pos h1, if_pos h1, ih]
      simp only
      by_cases h2 : (doDKGs env (h ++ (doDKG env h e id).2) e pre).1 = Outcome.nil
      · rw [if_pos h2, if_pos h2]
        simp [List.append_assoc]
      · rw [if_neg h2, if_neg h2]
    · rw [if_neg h1, if_neg h1, if_neg h1]

lemma doSIGs_append (env : Env q) (e : Nat) (pre rest : List Nat) :
    ∀ h : List (Event q), doSIGs env h e (pre ++ rest) =
      if (doSIGs env h e pre).1 = Outcome.nil then
        ((doSIGs env (h ++ (doSIGs env h e pre).2) e rest).1,
          (doSIGs env h e pre).2 ++ (doSIGs env (h ++ (doSIGs env h e pre).2) e rest).2)
      else doSIGs env h e pre := by
  induction pre with
  | nil => intro h; simp [doSIGs]
  | cons id pre ih =>
    intro h
    rw [List.cons_append, doSIGs_cons, doSIGs_cons]
    by_cases h1 : (doSIG env h e id).1 = Outcome.nil
    · rw [if_pos h1, if_pos h1, ih]
      simp only
      by_cases h2 : (doSIGs env (h ++ (doSIG env h e id).2) e pre).1 = Outcome.nil
      · rw [if_pos h2, if_pos h2]
        simp [List.append_assoc]
      · rw [if_neg h2, if_neg h2]
    · rw [if_neg h1, if_neg h1, if_neg h1]

/-- The submissions of a run of `doDKGs` that returns nil: one DKG payload of the
epoch per index, in list order. -/
lemma doDKGs_success (env : Env q) (e : Nat) (ids : List Nat) :
    ∀ h : List (Event q), (doDKGs env h e ids).1 = Outcome.nil →
      (submissions (doDKGs env h e ids).2).map msgProposerId = ids.map some ∧
      ∀ m ∈ submissions (doDKGs env h e ids).2, isDkgMsg m = true ∧ msgEpochId m = (e : Int) := by
  induction ids with
  | nil => intro h _; simp [doDKGs, submissions]
  | cons id rest ih =>
    intro h hok
    rw [doDKGs_cons] at hok ⊢
    by_cases h1 : (doDKG env h e id).1 = Outcome.nil
    · rw [if_pos h1] at hok ⊢
      obtain ⟨p, hp, hp1, hp2⟩ := doDKG_success env h e id h1
      obtain ⟨i1, i2⟩ := ih _ hok
      simp only [submissions_append, List.map_append, i1]
      rw [hp]
      refine ⟨by simp [submissions, msgProposerId, hp2], ?_⟩
      intro m hm
      rcases List.mem_append.mp hm with hm | hm
      · simp only [submissions, List.filterMap_cons, List.filterMap_nil,
          List.mem_singleton] at hm
        rw [hm]
        exact ⟨rfl, by simp only [msgEpochId, hp1]⟩
      · rw [← hp] at hm
        exact i2 m hm
    · rw [if_neg h1] at hok
      exact absurd hok h1

/-- The submissions of a run of `doSIGs` that returns nil: one signature payload of
the epoch per index, in list order. -/
lemma doSIGs_success (env : Env q) (e : Nat) (ids : List Nat) :
    ∀ h : List (Event q), (doSIGs env h e ids).1 = Outcome.nil →
      (submissions (doSIGs env h e ids).2).map msgProposerId = ids.map some ∧
      ∀ m ∈ submissions (doSIGs env h e ids).2, isSigMsg m = true ∧ msgEpochId m = (e : Int) := by
  induction ids with
  | nil => intro h _; simp [doSIGs, submissions]
  | cons id rest ih =>
    intro h hok
    rw [doSIGs_cons] at hok ⊢
    by_cases h1 : (doSIG env h e id).1 = Outcome.nil
    · rw [if_pos h1] at hok ⊢
      obtain ⟨p, hp, hp1, hp2⟩ := doSIG_success env h e id h1
      obtain ⟨i1, i2⟩ := ih _ hok
      simp only [submissions_append, List.map_append, i1]
      rw [hp]
      refine ⟨by simp [submissions, msgProposerId, hp2], ?_⟩
      intro m hm
      rcases List.mem_append.mp hm with hm | hm
      · simp only [submissions, List.filterMap_cons, List.filterMap_nil,
          List.mem_singleton] at hm
        rw [hm]
        exact ⟨rfl, by simp only [msgEpochId, hp1]⟩
      · rw [← hp] at hm
        exact i2 m hm
    · rw [if_neg h1] at hok
      exact absurd hok h1

end RandomBeacon

open RandomBeacon

namespace RandomBeacon

variable {q : ℕ}

/-- The payload of `generateDKG` for a non-empty committee and a successful draw. -/
lemma generateDKG_ok (env : Env q) (h : List (Event q)) (e id s : Nat)
    (hg : env.getRBProposerGroupF e ≠ []) (hs : env.randInt h = Except.ok s) :
    ∃ p, generateDKG env h e id = Except.ok p ∧ p.EpochId = e ∧ p.ProposerId = id ∧
      p.Enshare.length = (env.getRBProposerGroupF e).length ∧
      p.Commit.length = (env.getRBProposerGroupF e).length ∧
      p.Proof.length = (env.getRBProposerGroupF e).length ∧
      ∀ j, j < (env.getRBProposerGroupF e).length →
        p.Enshare[j]? = some (G1.ScalarMult
          ((env.getRBProposerGroupF e).getD j (G1.ScalarBaseMult 0))
          (wanpos.EvaluatePoly
            (wanpos.RandPoly env.cfg.PolymDegree s (env.randCoef h) : List (ZMod q))
            (SetBytes (env.GetPolynomialX
              ((env.getRBProposerGroupF e).getD j (G1.ScalarBaseMult 0)) (j % 2 ^ 32)) % q)
            env.cfg.PolymDegree).val) ∧
        p.Commit[j]? = some (G2.ScalarBaseMult
          (wanpos.EvaluatePoly
            (wanpos.RandPoly env.cfg.PolymDegree s (env.randCoef h) : List (ZMod q))
            (SetBytes (env.GetPolynomialX
              ((env.getRBProposerGroupF e).getD j (G1.ScalarBaseMult 0)) (j % 2 ^ 32)) % q)
            env.cfg.PolymDegree).val) := by
  have hl : ¬ (getRBProposerGroup env e).length = 0 := by
    unfold getRBProposerGroup; simpa using hg
  unfold generateDKG
  simp only [hl, if_false, hs]
  refine ⟨_, rfl, rfl, rfl, ?_, ?_, ?_, ?_⟩
  · simp [getRBProposerGroup]
  · simp [getRBProposerGroup]
  · simp [getRBProposerGroup]
  · intro j hj
    have hj2 : j < (getRBProposerGroup env e).length := hj
    constructor
    · rw [List.getElem?_eq_getElem (by simpa using hj2)]
      simp only [List.getElem_zipWith, List.getElem_map, List.getElem_range, Option.some.injEq]
      simp only [getRBProposerGroup, List.getD_eq_getElem _ _ hj]
    · rw [List.getElem?_eq_getElem (by simpa using hj2)]
      simp only [List.getElem_map, List.getElem_range, Option.some.injEq]
      simp only [getRBProposerGroup, List.getD_eq_getElem _ _ hj]

end RandomBeacon

open RandomBeacon

/-- C12, counterexample: a committee of one member with `PolymDegree = 1`, so
`N < t + 1`; `generateDKG` returns a payload, not an error. -/
theorem generateDKG_errors_counterexample :
    (smallCommittee.getRBProposerGroupF 10).length = 1 ∧
    smallCommittee.cfg.PolymDegree = 1 ∧
    (generateDKG smallCommittee [] 10 0).toOption =
      some ⟨10, 0, [⟨3⟩], [⟨3⟩], [⟨⟨0⟩, ⟨0⟩, 3⟩]⟩ := by
  decide

/-- C12, amended: `generateDKG` returns the error "can't find random beacon
proposer group" when the committee is empty and the error of the random source
when that fails; for a non-empty committee of any size `N`, smaller than
`PolymDegree + 1` or not, and a successful draw it returns a payload with `N`
encrypted shares. -/
theorem generateDKG_errors {q : ℕ} (env : Env q) (h : List (Event q))
    (epochId proposerId : Nat) :
    (env.getRBProposerGroupF epochId = [] →
      generateDKG env h epochId proposerId = Except.error Err.noProposerGroup) ∧
    (∀ c, env.getRBProposerGroupF epochId ≠ [] → env.randInt h = Except.error c →
      generateDKG env h epochId proposerId = Except.error (Err.external c)) ∧
    (∀ s, env.getRBProposerGroupF epochId ≠ [] → env.randInt h = Except.ok s →
      ∃ p, generateDKG env h epochId proposerId = Except.ok p ∧
        p.Enshare.length = (env.getRBProposerGroupF epochId).length) := by
  refine ⟨?_, ?_, ?_⟩
  · intro hg
    unfold generateDKG getRBProposerGroup
    simp [hg]
  · intro c hg hr
    have : ¬ (getRBProposerGroup env epochId).length = 0 := by
      unfold getRBProposerGroup; simpa using hg
    unfold generateDKG
    simp only [this, if_false, hr]
  · intro s hg hs
    obtain ⟨p, hp, _, _, hlen, _⟩ := generateDKG_ok env h epochId proposerId s hg hs
    exact ⟨p, hp, hlen⟩

/-- An instance of the amended C12: the random source of the dealer fails with
code 4. -/
theorem generateDKG_errors_witness :
    generateDKG { baseEnv with randInt := fun _ => Except.error 4 } [] 10 0 =
      Except.error (Err.external 4) :=
  (generateDKG_errors { baseEnv with randInt := fun _ => Except.error 4 } [] 10 0).2.1 4
    (by decide) rfl

/-- C13: for a non-empty committee, with `K` the number of committee indices for
which `vm.GetDkg` gives a payload: if `K < MinRBProposerCnt`, `doSIG` returns
"insufficient proposer", its only event is the entry log, so neither the message
is read nor the hook called; if `K ≥ MinRBProposerCnt`, `doSIG` does not return
"insufficient proposer". -/
theorem doSIG_quorum {q : ℕ} (env : Env q) (h : List (Event q)) (epochId proposerId : Nat)
    (hg : env.getRBProposerGroupF epochId ≠ []) :
    (((List.range (env.getRBProposerGroupF epochId).length).filterMap
        (fun id => env.GetDkg epochId (id % 2 ^ 32))).length < env.cfg.MinRBProposerCnt →
      doSIG env h epochId proposerId =
        (Outcome.err Err.insufficientProposer, [Event.beginSIG epochId proposerId]) ∧
      Event.getRBM epochId ∉ (doSIG env h epochId proposerId).2 ∧
      submissions (doSIG env h epochId proposerId).2 = []) ∧
    (env.cfg.MinRBProposerCnt ≤ ((List.range (env.getRBProposerGroupF epochId).length).filterMap
        (fun id => env.GetDkg epochId (id % 2 ^ 32))).length →
      (doSIG env h epochId proposerId).1 ≠ Outcome.err Err.insufficientProposer) := by
  have hl : ¬ (getRBProposerGroup env epochId).length = 0 := by
    unfold getRBProposerGroup; simpa using hg
  constructor
  · intro hK
    have hev : doSIG env h epochId proposerId =
        (Outcome.err Err.insufficientProposer, [Event.beginSIG epochId proposerId]) := by
      unfold doSIG
      simp only
      rw [if_neg hl, if_pos (show ((List.range (getRBProposerGroup env epochId).length).filterMap
        (fun id => env.GetDkg epochId (id % 2 ^ 32))).length < env.cfg.MinRBProposerCnt from hK)]
    rw [hev]
    exact ⟨rfl, by simp, rfl⟩
  · intro hK
    have hK2 : ¬ ((List.range (getRBProposerGroup env epochId).length).filterMap
        (fun id => env.GetDkg epochId (id % 2 ^ 32))).length < env.cfg.MinRBProposerCnt := by
      unfold getRBProposerGroup; omega
    unfold doSIG
    simp only [sendSIG]
    rw [if_neg hl, if_neg hK2]
    split
    · simp
    · split
      · simp
      · split
        · simp
        · rename_i gsk _ _ mBuf _
          rcases doSendRBTx_fst env
            (h ++ ([Event.beginSIG epochId proposerId] ++ [Event.getRBM epochId]))
            (RbMsg.sig ⟨epochId, proposerId, gsk.ScalarMult (SetBytes mBuf)⟩) with h1 | ⟨c, h1⟩
            <;> simp_all

/-- Witness of C13: no DKG payload is on chain, so `K = 0 < 2`. -/
theorem doSIG_quorum_witness :
    doSIG baseEnv [] 10 0 = (Outcome.err Err.insufficientProposer, [Event.beginSIG 10 0]) :=
  ((doSIG_quorum baseEnv [] 10 0 (by decide)).1 (by decide)).1

namespace RandomBeacon

variable {q : ℕ}

/-- Horner evaluation of a coefficient list is the sum of the monomials. -/
lemma foldr_horner_sum (l : List (ZMod q)) (x : ZMod q) :
    l.foldr (fun c acc => c + x * acc) 0 =
      ∑ k in Finset.range l.length, l.getD k 0 * x ^ k := by
  induction l with
  | nil => simp
  | cons c l ih =>
    rw [List.foldr_cons, ih, List.length_cons, Finset.sum_range_succ', Finset.mul_sum]
    simp only [List.getD_cons_succ, List.getD_cons_zero, pow_zero, mul_one]
    rw [add_comm]
    congr 1
    apply Finset.sum_congr rfl
    intro k _
    ring

/-- The coefficient list of `RandPoly` has `degree + 1` entries and starts with the
constant term. -/
lemma RandPoly_shape (t s : Nat) (a : Nat → Nat) :
    (wanpos.RandPoly t s a : List (ZMod q)).length = t + 1 ∧
    (wanpos.RandPoly t s a : List (ZMod q)).head? = some (s : ZMod q) := by
  unfold wanpos.RandPoly
  simp

end RandomBeacon

open RandomBeacon

/-- C14: for a non-empty committee `PK[0..N-1]` (with `N ≤ 2^32`) and a successful
draw `s`, `generateDKG` returns a payload with the given epoch id and proposer id
and exactly `N` entries in each of `Enshare`, `Commit` and `Proof`; there is a
coefficient list `poly`, the one `RandPoly(t, s)` returns, with `t + 1` entries
and first entry `s` such that for
every `j < N` the scalar `s_j = EvaluatePoly(poly, x_j)`, with
`x_j = SetBytes(GetPolynomialX(PK[j], j)) mod q`, is the sum of the monomials
`poly[k]·x_j^k` for `k ≤ t` and satisfies `Enshare[j] = s_j·PK[j]` and
`Commit[j] = s_j·g2`. -/
theorem generateDKG_payload {q : ℕ} (env : Env q) (h : List (Event q))
    (epochId proposerId s : Nat)
    (hg : env.getRBProposerGroupF epochId ≠ [])
    (hN : (env.getRBProposerGroupF epochId).length ≤ 2 ^ 32)
    (hs : env.randInt h = Except.ok s) :
    ∃ (p : RbDKGTxPayload q) (poly : List (ZMod q)),
      generateDKG env h epochId proposerId = Except.ok p ∧
      p.EpochId = epochId ∧ p.ProposerId = proposerId ∧
      p.Enshare.length = (env.getRBProposerGroupF epochId).length ∧
      p.Commit.length = (env.getRBProposerGroupF epochId).length ∧
      p.Proof.length = (env.getRBProposerGroupF epochId).length ∧
      poly = wanpos.RandPoly env.cfg.PolymDegree s (env.randCoef h) ∧
      poly.length = env.cfg.PolymDegree + 1 ∧ poly.head? = some (s : ZMod q) ∧
      ∀ j, j < (env.getRBProposerGroupF epochId).length →
        ∃ sj : ZMod q,
          sj = wanpos.EvaluatePoly poly
            (SetBytes (env.GetPolynomialX
              ((env.getRBProposerGroupF epochId).getD j (G1.ScalarBaseMult 0)) j) % q)
            env.cfg.PolymDegree ∧
          sj = ∑ k in Finset.range (env.cfg.PolymDegree + 1), poly.getD k 0 *
            (((SetBytes (env.GetPolynomialX
              ((env.getRBProposerGroupF epochId).getD j (G1.ScalarBaseMult 0)) j) % q : ℕ) :
                ZMod q)) ^ k ∧
          p.Enshare[j]? = some (G1.ScalarMult
            ((env.getRBProposerGroupF epochId).getD j (G1.ScalarBaseMult 0)) sj.val) ∧
          p.Commit[j]? = some (G2.ScalarBaseMult sj.val) := by
  obtain ⟨p, hp, he, hi, h1, h2, h3, hj⟩ := generateDKG_ok env h epochId proposerId s hg hs
  obtain ⟨hlen, hhead⟩ := @RandPoly_shape q env.cfg.PolymDegree s (env.randCoef h)
  refine ⟨p, wanpos.RandPoly env.cfg.PolymDegree s (env.randCoef h), hp, he, hi, h1, h2, h3,
    rfl, hlen, hhead, ?_⟩
  intro j hjN
  have hmod : j % 2 ^ 32 = j := Nat.mod_eq_of_lt (by omega)
  have := hj j hjN
  rw [hmod] at this
  refine ⟨_, rfl, ?_, this.1, this.2⟩
  rw [EvaluatePoly_eq _ _ _ hlen, foldr_horner_sum, hlen]

/-- Witness of C14: the dealer of the three-member committee of epoch 10. -/
theorem generateDKG_payload_witness :
    ∃ p : RbDKGTxPayload 7, generateDKG baseEnv [] 10 0 = Except.ok p ∧
      p.EpochId = 10 ∧ p.ProposerId = 0 ∧
      p.Enshare.length = 3 ∧ p.Commit.length = 3 ∧ p.Proof.length = 3 := by
  obtain ⟨p, _, hp, he, hi, h1, h2, h3, _⟩ :=
    generateDKG_payload baseEnv [] 10 0 2 (by decide) (by decide) rfl
  exact ⟨p, hp, he, hi, h1, h2, h3⟩

namespace RandomBeacon

variable {q : ℕ}

/-- The loop of `doSIG` over payloads whose entry `d` is in range adds
`skinver · Enshare[d]` term by term. -/
lemma foldl_gskStep_shares (L : List (RbDKGTxPayload q)) (d k : Nat) :
    ∀ (shares : List (G1 q)) (acc : G1 q),
      L.map (fun x => x.Enshare[d]?) = shares.map some →
      L.foldl (gskStep d (some k)) (some acc) =
        some (shares.foldl (fun a s => a.Add (s.ScalarMult k)) acc) := by
  induction L with
  | nil =>
    intro shares acc hsh
    cases shares with
    | nil => rfl
    | cons s r => simp at hsh
  | cons x L ih =>
    intro shares acc hsh
    cases shares with
    | nil => simp at hsh
    | cons s r =>
      simp only [List.map_cons, List.cons.injEq] at hsh
      rw [List.foldl_cons, List.foldl_cons]
      have : gskStep d (some k) (some acc) x = some (acc.Add (s.ScalarMult k)) := by
        unfold gskStep
        rw [hsh.1]
      rw [this]
      exact ih r _ hsh.2

/-- The term-by-term sum of `k · s` over a list of points. -/
lemma foldl_Add_ScalarMult (shares : List (G1 q)) (k : Nat) (acc : G1 q) :
    shares.foldl (fun a s => a.Add (s.ScalarMult k)) acc =
      ⟨acc.dlog + (k : ZMod q) * (shares.map (fun p => p.dlog)).sum⟩ := by
  induction shares generalizing acc with
  | nil => simp
  | cons s r ih =>
    rw [List.foldl_cons, ih]
    simp only [G1.Add, G1.ScalarMult, List.map_cons, List.sum_cons]
    congr 1
    ring

/-- The discrete logarithms of the shares `s_i·(sk·g1)` add up to `(Σ s_i)·sk`. -/
lemma sum_dlog_honest (ss : List Nat) (sk : Nat) :
    (ss.map ((fun (p : G1 q) => p.dlog) ∘
      (fun (si : ℕ) => ({ dlog := (si : ZMod q) * (sk : ZMod q) } : G1 q)))).sum =
      ((ss.sum : ℕ) : ZMod q) * (sk : ZMod q) := by
  induction ss with
  | nil => simp
  | cons a r ih =>
    rw [List.map_cons, List.sum_cons, ih, List.sum_cons, Nat.cast_add, add_mul]
    rfl

end RandomBeacon

open RandomBeacon

/-- C15: let the committee be non-empty, the collected DKG payloads reach the
quorum, the secret key `sk` have the inverse `k` modulo `q`, `shares` be the
entries `Enshare_i[d]` of the collected payloads and `M` the message bytes.  Then
`doSIG` hands to the hook the payload `(epochId, d, g)`, where `g`, which the
code builds by adding `k·Enshare_i[d]` term by term to `0·g1` and multiplying by
the unreduced integer `M`, equals `(M mod q)·(k·Σ_i Enshare_i[d])`; and when every
`Enshare_i[d]` is `s_i·(sk·g1)`, `g = (M mod q)·((Σ_i s_i)·g1)`. -/
theorem doSIG_sigshare {q : ℕ} (env : Env q) (h : List (Event q)) (epochId d sk k : Nat)
    (mBuf : Bytes) (shares : List (G1 q))
    (hg : env.getRBProposerGroupF epochId ≠ [])
    (hK : env.cfg.MinRBProposerCnt ≤
      ((List.range (env.getRBProposerGroupF epochId).length).filterMap
        (fun id => env.GetDkg epochId (id % 2 ^ 32))).length)
    (hsk : env.cfg.SelfPrK = some sk)
    (hinv : ModInverse sk q = some k)
    (hsh : ((List.range (env.getRBProposerGroupF epochId).length).filterMap
        (fun id => env.GetDkg epochId (id % 2 ^ 32))).map (fun x => x.Enshare[d]?) =
      shares.map some)
    (hM : env.GetRBM epochId = Except.ok mBuf) :
    ∃ g : G1 q,
      (doSIG env h epochId d).2 =
        [Event.beginSIG epochId d, Event.getRBM epochId,
          Event.sendTx (RbMsg.sig ⟨epochId, d, g⟩)] ∧
      g = G1.ScalarMult
        (shares.foldl (fun acc s => acc.Add (s.ScalarMult k)) (G1.ScalarBaseMult 0))
        (SetBytes mBuf) ∧
      g = G1.ScalarMult (G1.ScalarMult (shares.foldl G1.Add (G1.ScalarBaseMult 0)) k)
        (SetBytes mBuf % q) ∧
      ∀ ss : List Nat, shares = ss.map (fun si => G1.ScalarMult (G1.ScalarBaseMult sk) si) →
        g = G1.ScalarMult (G1.ScalarBaseMult ss.sum) (SetBytes mBuf % q) := by
  have hl : ¬ (env.getRBProposerGroupF epochId).length = 0 := by simpa using hg
  refine ⟨_, ?_, rfl, ?_, ?_⟩
  · unfold doSIG getRBProposerGroup
    simp only
    rw [if_neg hl, if_neg (by omega), hsk]
    simp only
    rw [hinv, foldl_gskStep_shares _ _ _ _ _ hsh]
    simp only
    rw [hM]
    simp only [sendSIG, doSendRBTx_snd]
    rfl
  · rw [foldl_Add_ScalarMult, wanpos.foldl_G1_Add]
    simp only [G1.ScalarMult, G1.ScalarBaseMult, ZMod.natCast_mod, Nat.cast_zero, zero_add]
  · intro ss hss
    have hk := ModInverse_spec sk q k hinv
    rw [foldl_Add_ScalarMult, hss]
    simp only [G1.ScalarMult, G1.ScalarBaseMult, ZMod.natCast_mod, Nat.cast_zero, zero_add,
      List.map_map, G1.mk.injEq]
    rw [sum_dlog_honest]
    calc ((SetBytes mBuf : ℕ) : ZMod q) * ((k : ZMod q) * (((ss.sum : ℕ) : ZMod q) * (sk : ZMod q)))
        = ((SetBytes mBuf : ℕ) : ZMod q) * ((ss.sum : ℕ) : ZMod q) *
            ((k : ZMod q) * (sk : ZMod q)) := by ring
      _ = ((SetBytes mBuf : ℕ) : ZMod q) * ((ss.sum : ℕ) : ZMod q) := by rw [hk, mul_one]

/-- Witness of C15: the owner of slot 1, with key 2 and inverse 4 modulo 7, signs
the message 3 over the three deals of `dkgChain`, each with `Enshare[1] = 4·(2·g1)`. -/
theorem doSIG_sigshare_witness :
    (doSIG (signerEnv 1) [] 10 1).2 =
      [Event.beginSIG 10 1, Event.getRBM 10,
        Event.sendTx (RbMsg.sig ⟨10, 1, G1.ScalarMult (G1.ScalarBaseMult 12) 3⟩)] := by
  obtain ⟨g, hev, _, _, hg⟩ :=
    doSIG_sigshare (signerEnv 1) [] 10 1 2 4 [⟨3, by decide⟩] [⟨1⟩, ⟨1⟩, ⟨1⟩]
      (by decide) (by decide) rfl (by decide) (by decide) rfl
  rw [hg [4, 4, 4] (by decide)] at hev
  exact hev

namespace RandomBeacon

variable {q : ℕ}

/-- Every collected signature payload was read at some committee index `i`, and
when its proposer id is `i` its `xSig` value reduced modulo the group order is the
entry `i` of `xAll`. -/
lemma xSig_mod_xAll (env : Env q) (e : Nat) (d : RbSIGDataCollector q)
    (hd : d ∈ collectSig env e) :
    ∃ i, i < (getRBProposerGroup env e).length ∧
      env.GetSig e (i % 2 ^ 32) = some d.data ∧
      d.pk = (getRBProposerGroup env e).getD i (G1.ScalarBaseMult 0) ∧
      (d.data.ProposerId = i % 2 ^ 32 →
        SetBytes (env.GetPolynomialX d.pk d.data.ProposerId) % q = (xAll env e).getD i 0) := by
  unfold collectSig at hd
  simp only [List.mem_filterMap, List.mem_range, Option.map_eq_some'] at hd
  obtain ⟨i, hi, s, hs, rfl⟩ := hd
  refine ⟨i, hi, hs, rfl, ?_⟩
  intro hid
  simp only at hid ⊢
  rw [hid]
  unfold xAll
  simp only [List.getD_eq_getElem?_getD, List.getElem?_map, List.getElem?_range hi,
    Option.map_some', Option.getD_some]

end RandomBeacon

open RandomBeacon

/-- C16, the code at the failing input: with group order 7 and
`GetPolynomialX(pk, i)` the bytes of `i + 8`, the abscissas `xSig` that
`DoComputeRandom` passes to `LagrangeSig` for the payloads of slots 0 and 1 are 8
and 9, outside `[0, 7)`, while `xAll` holds the reduced values 1, 2, 3 for the
same members. -/
theorem xSig_not_reduced :
    xSig wideHash 10 = [8, 9] ∧ xAll wideHash 10 = [1, 2, 3] ∧
    (collectSig wideHash 10).map (fun d => d.data.ProposerId) = [0, 1] ∧
    computeGsig wideHash 10 =
      wanpos.LagrangeSig [⟨1⟩, ⟨1⟩] [8, 9] wideHash.cfg.PolymDegree := by
  decide

/-- C17, the code at the failing input: every stored DKG payload has one
`Enshare` entry and two `Commit` entries, the committee has three members and the
quorum is met.  `doSIG` for proposer id 1, with an invertible key, panics at
`Enshare[1]` right after its entry log, and `DoComputeRandom`, whose signature
interpolation succeeds, panics at `Commit[2]`. -/
theorem index_out_of_range_panics :
    shortVectors.cfg.SelfPrK = some 2 ∧ ModInverse 2 7 = some 4 ∧
    doSIG shortVectors [] 10 1 = (Outcome.panic, [Event.beginSIG 10 1]) ∧
    (computeGsig shortVectors 10).isSome = true ∧
    commitSums shortVectors 10 = none ∧
    DoComputeRandom shortVectors [] 10 = (Outcome.panic, [Event.lagrangeSig]) := by
  decide

namespace binary.BigEndian

/-- What `PutUint64` writes has eight bytes. -/
lemma PutUint64_length (v : Nat) : (PutUint64 v).length = 8 := rfl

/-- Reading back what `PutUint64` wrote gives the low 64 bits. -/
lemma SetBytes_PutUint64 (v : Nat) : SetBytes (PutUint64 v) = v % 2 ^ 64 := by
  unfold PutUint64 SetBytes
  simp only [List.foldl_cons, List.foldl_nil]
  norm_num
  omega

/-- On a slice of eight bytes `Uint64` is `SetBytes`. -/
lemma Uint64_eight (b : Bytes) (h : b.length = 8) : Uint64 b = some (SetBytes b) := by
  unfold Uint64
  rw [if_neg (by omega), List.take_of_length_le (by omega)]

/-- The round trip of `PutUint64` and `Uint64`. -/
lemma Uint64_PutUint64 (v : Nat) : Uint64 (PutUint64 v) = some (v % 2 ^ 64) := by
  rw [Uint64_eight _ (PutUint64_length v), SetBytes_PutUint64]

end binary.BigEndian

namespace PosAvgRet

open binary.BigEndian

/-- A lookup that finds no entry, or an entry of value zero, goes on to compute. -/
lemma GetPosAverageReturnRate_miss (env : AvgEnv) (db : AvgDb) (epochID : Nat)
    (hmiss : ∀ val, db epochID = some val → val.length = 8 ∧ SetBytes val = 0) :
    GetPosAverageReturnRate env db epochID = computeRate env db epochID := by
  unfold GetPosAverageReturnRate
  cases hv : db epochID with
  | none => rfl
  | some val =>
    obtain ⟨h8, h0⟩ := hmiss val hv
    simp only [Uint64_eight val h8, h0]
    rfl

/-- A lookup that finds eight bytes of non-zero value returns it at once. -/
lemma GetPosAverageReturnRate_hit (env : AvgEnv) (db : AvgDb) (epochID : Nat) (val : Bytes)
    (hv : db epochID = some val) (h8 : val.length = 8) (h0 : SetBytes val ≠ 0) :
    GetPosAverageReturnRate env db epochID = ⟨some (SetBytes val, none), db, []⟩ := by
  unfold GetPosAverageReturnRate
  simp only [hv, Uint64_eight val h8]
  rw [if_pos h0]

end PosAvgRet

open PosAvgRet binary.BigEndian

/-- C18: over an explicit key-value store `db`.  (1) When the entry stored for
the epoch has eight bytes and non-zero big-endian value `p`, the call returns
`(p, nil)`, leaves the store as it is and reads neither reward nor stake (no
event).  (2) When there is no entry, or an 8-byte entry of value zero, the stake
lookup gives a positive `amount` and `YearReward·RETURN_DIVIDE` is not negative,
the call returns `v = floor(YearReward(epoch)·RETURN_DIVIDE / amount) mod 2^64`,
stores under the epoch the eight bytes whose big-endian value is `v`, leaves the
other entries, and, when `v ≠ 0`, a second call on the new store returns `v`
without reading reward or stake.  (3) When the stake lookup fails with `err`, the
call returns `(0, err)` and leaves the store as it is. -/
theorem GetPosAverageReturnRate_spec (env : AvgEnv) (db : AvgDb) (epochID : Nat) :
    (∀ val, db epochID = some val → val.length = 8 → SetBytes val ≠ 0 →
      GetPosAverageReturnRate env db epochID = ⟨some (SetBytes val, none), db, []⟩) ∧
    (∀ amount, (∀ val, db epochID = some val → val.length = 8 ∧ SetBytes val = 0) →
      GetAllStakeAndReturn env epochID = Except.ok amount → 0 < amount →
      0 ≤ env.YearReward epochID * env.RETURN_DIVIDE →
      ∃ v : Nat,
        (v : Int) = (env.YearReward epochID * env.RETURN_DIVIDE / amount) % 2 ^ 64 ∧
        (GetPosAverageReturnRate env db epochID).ret = some (v, none) ∧
        (GetPosAverageReturnRate env db epochID).db epochID = some (PutUint64 v) ∧
        (∀ k, k ≠ epochID → (GetPosAverageReturnRate env db epochID).db k = db k) ∧
        (GetPosAverageReturnRate env db epochID).events =
          [AvgEvent.yearReward epochID, AvgEvent.stake epochID,
            AvgEvent.put epochID (PutUint64 v)] ∧
        (PutUint64 v).length = 8 ∧ SetBytes (PutUint64 v) = v ∧
        (v ≠ 0 →
          (GetPosAverageReturnRate env
              (GetPosAverageReturnRate env db epochID).db epochID).ret = some (v, none) ∧
          (GetPosAverageReturnRate env
              (GetPosAverageReturnRate env db epochID).db epochID).events = [])) ∧
    (∀ err, (∀ val, db epochID = some val → val.length = 8 ∧ SetBytes val = 0) →
      GetAllStakeAndReturn env epochID = Except.error err →
      GetPosAverageReturnRate env db epochID =
        ⟨some (0, some err), db, [AvgEvent.yearReward epochID, AvgEvent.stake epochID]⟩) := by
  refine ⟨?_, ?_, ?_⟩
  · intro val hv h8 h0
    exact GetPosAverageReturnRate_hit env db epochID val hv h8 h0
  · intro amount hmiss hst hpos hnn
    have hq : 0 ≤ env.YearReward epochID * env.RETURN_DIVIDE / amount :=
      Int.ediv_nonneg hnn (le_of_lt hpos)
    have hne : amount ≠ 0 := ne_of_gt hpos
    have hres : GetPosAverageReturnRate env db epochID =
        ⟨some ((Int.ediv (env.YearReward epochID * env.RETURN_DIVIDE) amount).natAbs % 2 ^ 64,
            none),
          fun k => if k = epochID then
            some (PutUint64
              ((Int.ediv (env.YearReward epochID * env.RETURN_DIVIDE) amount).natAbs % 2 ^ 64))
            else db k,
          [AvgEvent.yearReward epochID, AvgEvent.stake epochID] ++
            [AvgEvent.put epochID (PutUint64
              ((Int.ediv (env.YearReward epochID * env.RETURN_DIVIDE) amount).natAbs
                % 2 ^ 64))]⟩ := by
      rw [GetPosAverageReturnRate_miss env db epochID hmiss]
      unfold computeRate
      simp only [hst]
      rw [if_neg hne]
    obtain ⟨V, hV⟩ : ∃ V : Nat,
        V = (Int.ediv (env.YearReward epochID * env.RETURN_DIVIDE) amount).natAbs % 2 ^ 64 :=
      ⟨_, rfl⟩
    rw [← hV] at hres
    have hlt : V < 2 ^ 64 := by rw [hV]; exact Nat.mod_lt _ (by positivity)
    have hback : SetBytes (PutUint64 V) = V := by
      rw [SetBytes_PutUint64, Nat.mod_eq_of_lt hlt]
    have hdb : (fun k => if k = epochID then some (PutUint64 V) else db k) epochID =
        some (PutUint64 V) := by simp
    refine ⟨V, ?_, ?_, ?_, ?_, ?_, rfl, hback, ?_⟩
    · have : Int.ediv (env.YearReward epochID * env.RETURN_DIVIDE) amount =
          env.YearReward epochID * env.RETURN_DIVIDE / amount := rfl
      rw [hV, this]
      push_cast
      rw [abs_of_nonneg hq]
    · rw [hres]
    · rw [hres]
      exact hdb
    · intro k hk
      rw [hres]
      simp [hk]
    · rw [hres]
      rfl
    · intro hv0
      rw [hres]
      simp only
      rw [GetPosAverageReturnRate_hit env _ epochID (PutUint64 V) hdb (PutUint64_length V)
        (by rw [hback]; exact hv0), hback]
      exact ⟨rfl, rfl⟩
  · intro err hmiss hst
    rw [GetPosAverageReturnRate_miss env db epochID hmiss]
    unfold computeRate
    simp only [hst]

/-- Witness of C18: on `avgEnv` with an empty store the call for epoch 5 returns
`1000·10000 / 2500000 = 4`, and so does a second call on the store it leaves. -/
theorem GetPosAverageReturnRate_spec_witness :
    (GetPosAverageReturnRate avgEnv (fun _ => none) 5).ret = some (4, none) ∧
    (GetPosAverageReturnRate avgEnv
      (GetPosAverageReturnRate avgEnv (fun _ => none) 5).db 5).ret = some (4, none) := by
  obtain ⟨v, hv, h1, _, _, _, _, _, h2⟩ :=
    (GetPosAverageReturnRate_spec avgEnv (fun _ => none) 5).2.1 2500000
      (fun val hval => by cases hval) rfl (by decide) (by decide)
  have h4 : v = 4 := by
    have : (v : Int) = 4 := by rw [hv]; decide
    exact_mod_cast this
  subst h4
  exact ⟨h1, (h2 (by decide)).1⟩

namespace RandomBeacon

variable {q : ℕ}

/-- The first `k + 1` entries of a list are the first `k` and entry `k`. -/
lemma take_succ_getD (l : List Nat) (k : Nat) (hk : k < l.length) :
    l.take (k + 1) = l.take k ++ [l.getD k 0] := by
  rw [List.take_succ, List.getElem?_eq_getElem hk, List.getD_eq_getElem _ _ hk]
  rfl

/-- A list split at entry `k`. -/
lemma split_at_getD (l : List Nat) (k : Nat) (hk : k < l.length) :
    l = l.take k ++ l.getD k 0 :: l.drop (k + 1) := by
  rw [List.getD_eq_getElem _ _ hk, ← List.drop_eq_getElem_cons hk, List.take_append_drop]

/-- If the first `k` dealer runs succeed, each in the history that the earlier
ones leave, `doDKGs` on the first `k` indices returns nil. -/
lemma doDKGs_take_ok (env : Env q) (h : List (Event q)) (e : Nat) (ids : List Nat) :
    ∀ k, k ≤ ids.length →
      (∀ j, j < k →
        (doDKG env (h ++ (doDKGs env h e (ids.take j)).2) e (ids.getD j 0)).1 = Outcome.nil) →
      (doDKGs env h e (ids.take k)).1 = Outcome.nil := by
  intro k
  induction k with
  | zero => intro _ _; simp [doDKGs]
  | succ k ih =>
    intro hk hall
    have hpre := ih (by omega) (fun j hj => hall j (by omega))
    rw [take_succ_getD ids k (by omega), doDKGs_append, if_pos hpre, doDKGs_cons,
      if_pos (hall k (by omega))]
    simp [doDKGs]

/-- If the first `k` signer runs succeed, each in the history that the earlier
ones leave, `doSIGs` on the first `k` indices returns nil. -/
lemma doSIGs_take_ok (env : Env q) (h : List (Event q)) (e : Nat) (ids : List Nat) :
    ∀ k, k ≤ ids.length →
      (∀ j, j < k →
        (doSIG env (h ++ (doSIGs env h e (ids.take j)).2) e (ids.getD j 0)).1 = Outcome.nil) →
      (doSIGs env h e (ids.take k)).1 = Outcome.nil := by
  intro k
  induction k with
  | zero => intro _ _; simp [doSIGs]
  | succ k ih =>
    intro hk hall
    have hpre := ih (by omega) (fun j hj => hall j (by omega))
    rw [take_succ_getD ids k (by omega), doSIGs_append, if_pos hpre, doSIGs_cons,
      if_pos (hall k (by omega))]
    simp [doSIGs]


/-- The first `k + 1` ids, for `k` an index of the list. -/
lemma take_succ_eq (l : List Nat) (k : Nat) (hk : k < l.length) :
    l.take k ++ [l.getD k 0] = l.take (k + 1) := (take_succ_getD l k hk).symm

end RandomBeacon

open RandomBeacon

/-- C11: `doDKGs` and `doSIGs` run the per-index operation in list order; run `k`
is the call for entry `k` of the list in the history that the earlier runs leave.
If every run succeeds, nil is returned, there was one run per index, in order, and
one submission per index, the payload of that index and epoch.  If the runs before
`k` succeed and run `k` does not return nil, what it returned is returned, the
events are those of the earlier runs (with their one submission each) followed by
those of run `k`, and no later index is attempted.  In `Loop` such a failure
leaves the stored stage where it was.  The owned indices are handed over in
ascending order. -/
theorem doDKGs_doSIGs_per_index {q : ℕ} (env : Env q) (h : List (Event q)) (epochId : Nat) :
    (∀ ids : List Nat,
      (∀ k, k < ids.length →
        (doDKG env (h ++ (doDKGs env h epochId (ids.take k)).2) epochId
          (ids.getD k 0)).1 = Outcome.nil) →
      (doDKGs env h epochId ids).1 = Outcome.nil ∧
      dealerRuns (doDKGs env h epochId ids).2 = ids ∧
      (submissions (doDKGs env h epochId ids).2).map msgProposerId = ids.map some ∧
      ∀ m ∈ submissions (doDKGs env h epochId ids).2,
        isDkgMsg m = true ∧ msgEpochId m = (epochId : Int)) ∧
    (∀ ids : List Nat,
      (∀ k, k < ids.length →
        (doSIG env (h ++ (doSIGs env h epochId (ids.take k)).2) epochId
          (ids.getD k 0)).1 = Outcome.nil) →
      (doSIGs env h epochId ids).1 = Outcome.nil ∧
      signerRuns (doSIGs env h epochId ids).2 = ids ∧
      (submissions (doSIGs env h epochId ids).2).map msgProposerId = ids.map some ∧
      ∀ m ∈ submissions (doSIGs env h epochId ids).2,
        isSigMsg m = true ∧ msgEpochId m = (epochId : Int)) ∧
    (∀ (ids : List Nat) (k : Nat), k < ids.length →
      (∀ j, j < k →
        (doDKG env (h ++ (doDKGs env h epochId (ids.take j)).2) epochId
          (ids.getD j 0)).1 = Outcome.nil) →
      (doDKG env (h ++ (doDKGs env h epochId (ids.take k)).2) epochId
        (ids.getD k 0)).1 ≠ Outcome.nil →
      doDKGs env h epochId ids =
        ((doDKG env (h ++ (doDKGs env h epochId (ids.take k)).2) epochId (ids.getD k 0)).1,
          (doDKGs env h epochId (ids.take k)).2 ++
            (doDKG env (h ++ (doDKGs env h epochId (ids.take k)).2) epochId
              (ids.getD k 0)).2) ∧
      dealerRuns (doDKGs env h epochId ids).2 = ids.take (k + 1) ∧
      (submissions (doDKGs env h epochId (ids.take k)).2).map msgProposerId =
        (ids.take k).map some) ∧
    (∀ (ids : List Nat) (k : Nat), k < ids.length →
      (∀ j, j < k →
        (doSIG env (h ++ (doSIGs env h epochId (ids.take j)).2) epochId
          (ids.getD j 0)).1 = Outcome.nil) →
      (doSIG env (h ++ (doSIGs env h epochId (ids.take k)).2) epochId
        (ids.getD k 0)).1 ≠ Outcome.nil →
      doSIGs env h epochId ids =
        ((doSIG env (h ++ (doSIGs env h epochId (ids.take k)).2) epochId (ids.getD k 0)).1,
          (doSIGs env h epochId (ids.take k)).2 ++
            (doSIG env (h ++ (doSIGs env h epochId (ids.take k)).2) epochId
              (ids.getD k 0)).2) ∧
      signerRuns (doSIGs env h epochId ids).2 = ids.take (k + 1) ∧
      (submissions (doSIGs env h epochId (ids.take k)).2).map msgProposerId =
        (ids.take k).map some) ∧
    (∀ (fuel : Nat) (rb : RandomBeacon) (slotId : Nat), 3 ≤ fuel →
      env.GetEpochSlotID = Except.ok (epochId, slotId) →
      ¬ (rb.epochId ≠ maxUint64 ∧ epochId < rb.epochId) →
      getMyRBProposerId env epochId ≠ [] →
      ((afterReset rb epochId).epochStage = RB_DKG_STAGE →
        env.GetRBStage slotId = RB_DKG_STAGE →
        (doDKGs env [] epochId (getMyRBProposerId env epochId)).1 ≠ Outcome.nil →
        Loop fuel env rb true true true =
          some ((doDKGs env [] epochId (getMyRBProposerId env epochId)).1,
            afterReset rb epochId,
            (doDKGs env [] epochId (getMyRBProposerId env epochId)).2)) ∧
      ((afterReset rb epochId).epochStage = RB_SIGN_STAGE →
        env.GetRBStage slotId = RB_SIGN_STAGE →
        (doSIGs env [] epochId (getMyRBProposerId env epochId)).1 ≠ Outcome.nil →
        Loop fuel env rb true true true =
          some ((doSIGs env [] epochId (getMyRBProposerId env epochId)).1,
            afterReset rb epochId,
            (doSIGs env [] epochId (getMyRBProposerId env epochId)).2))) ∧
    ((env.getRBProposerGroupF epochId).length ≤ 2 ^ 32 →
      (getMyRBProposerId env epochId).Pairwise (fun a b => a < b)) := by
  refine ⟨?_, ?_, ?_, ?_, ?_, ?_⟩
  · intro ids hall
    have hok : (doDKGs env h epochId ids).1 = Outcome.nil := by
      have := doDKGs_take_ok env h epochId ids ids.length (le_refl _)
        (fun j hj => hall j hj)
      rwa [List.take_length] at this
    exact ⟨hok, (dealerRuns_doDKGs env epochId ids h).2.1 hok,
      doDKGs_success env epochId ids h hok⟩
  · intro ids hall
    have hok : (doSIGs env h epochId ids).1 = Outcome.nil := by
      have := doSIGs_take_ok env h epochId ids ids.length (le_refl _)
        (fun j hj => hall j hj)
      rwa [List.take_length] at this
    exact ⟨hok, (signerRuns_doSIGs env epochId ids h).2.1 hok,
      doSIGs_success env epochId ids h hok⟩
  · intro ids k hk hbefore hid
    have hpre := doDKGs_take_ok env h epochId ids k (le_of_lt hk) hbefore
    have hev : doDKGs env h epochId ids =
        ((doDKG env (h ++ (doDKGs env h epochId (ids.take k)).2) epochId (ids.getD k 0)).1,
          (doDKGs env h epochId (ids.take k)).2 ++
            (doDKG env (h ++ (doDKGs env h epochId (ids.take k)).2) epochId
              (ids.getD k 0)).2) := by
      conv_lhs => rw [split_at_getD ids k hk]
      rw [doDKGs_append, if_pos hpre, doDKGs_cons, if_neg hid]
    refine ⟨hev, ?_, (doDKGs_success env epochId _ h hpre).1⟩
    rw [hev]
    simp only [dealerRuns_append, dealerRuns_doDKG]
    rw [(dealerRuns_doDKGs env epochId _ h).2.1 hpre, take_succ_eq ids k hk]
  · intro ids k hk hbefore hid
    have hpre := doSIGs_take_ok env h epochId ids k (le_of_lt hk) hbefore
    have hev : doSIGs env h epochId ids =
        ((doSIG env (h ++ (doSIGs env h epochId (ids.take k)).2) epochId (ids.getD k 0)).1,
          (doSIGs env h epochId (ids.take k)).2 ++
            (doSIG env (h ++ (doSIGs env h epochId (ids.take k)).2) epochId
              (ids.getD k 0)).2) := by
      conv_lhs => rw [split_at_getD ids k hk]
      rw [doSIGs_append, if_pos hpre, doSIGs_cons, if_neg hid]
    refine ⟨hev, ?_, (doSIGs_success env epochId _ h hpre).1⟩
    rw [hev]
    simp only [signerRuns_append, signerRuns_doSIG]
    rw [(signerRuns_doSIGs env epochId _ h).2.1 hpre, take_succ_eq ids k hk]
  · intro fuel rb slotId hf hread hno hown
    obtain ⟨n, rfl⟩ : ∃ n, fuel = n + 3 := ⟨fuel - 3, by omega⟩
    have hloop := Loop_accepted_reset (n + 3) env rb epochId slotId hread hno
    rw [if_neg (by simpa using hown)] at hloop
    constructor
    · intro hst hslot hfail
      rw [hloop, stageLoop_dkg env epochId _ _ n _ _ hst, if_pos hslot, if_neg hfail]
      rfl
    · intro hst hslot hfail
      have hnlt : ¬ env.GetRBStage slotId < RB_SIGN_STAGE := by
        rw [hslot]; exact lt_irrefl _
      rw [hloop, stageLoop_sign env epochId _ _ (n + 1) _ _ hst, if_neg hnlt, if_pos hslot,
        if_neg hfail]
      rfl
  · intro hN
    cases hpk : env.cfg.SelfPuK with
    | none =>
      have : getMyRBProposerId env epochId = [] := by
        unfold getMyRBProposerId
        simp only [hpk]
        split_ifs <;> rfl
      rw [this]
      exact List.Pairwise.nil
    | some pk =>
      rw [getMyRBProposerId_eq env epochId pk hpk hN]
      exact List.Pairwise.filter _ (List.pairwise_lt_range _)

/-- An instance of C11.  On `ownsAllDealt` the node owns slots 0, 1, 2 and its three
signer runs succeed: `doSIGs` returns nil after three runs and three submissions.
On `hookFailsAtOne` the hook fails for slot 1: `doDKGs` returns that error after
the runs for 0 and 1, with the submission for 0 made, and slot 2 is not
attempted. -/
theorem doDKGs_doSIGs_per_index_witness :
    (getMyRBProposerId ownsAllDealt 10 = [0, 1, 2] ∧
      (doSIGs ownsAllDealt [] 10 [0, 1, 2]).1 = Outcome.nil ∧
      signerRuns (doSIGs ownsAllDealt [] 10 [0, 1, 2]).2 = [0, 1, 2] ∧
      (submissions (doSIGs ownsAllDealt [] 10 [0, 1, 2]).2).map msgProposerId =
        [some 0, some 1, some 2]) ∧
    (getMyRBProposerId hookFailsAtOne 10 = [0, 1, 2] ∧
      (doDKGs hookFailsAtOne [] 10 [0, 1, 2]).1 = Outcome.err (Err.external 1) ∧
      dealerRuns (doDKGs hookFailsAtOne [] 10 [0, 1, 2]).2 = [0, 1] ∧
      (submissions (doDKGs hookFailsAtOne [] 10 [0]).2).map msgProposerId = [some 0]) :=
  ⟨⟨by decide,
      ((doDKGs_doSIGs_per_index ownsAllDealt [] 10).2.1 [0, 1, 2] (by decide)).1,
      ((doDKGs_doSIGs_per_index ownsAllDealt [] 10).2.1 [0, 1, 2] (by decide)).2.1,
      ((doDKGs_doSIGs_per_index ownsAllDealt [] 10).2.1 [0, 1, 2] (by decide)).2.2.1⟩,
    ⟨by decide,
      by
        rw [((doDKGs_doSIGs_per_index hookFailsAtOne [] 10).2.2.1 [0, 1, 2] 1 (by decide)
          (by decide) (by decide)).1]
        decide,
      ((doDKGs_doSIGs_per_index hookFailsAtOne [] 10).2.2.1 [0, 1, 2] 1 (by decide)
        (by decide) (by decide)).2.1,
      ((doDKGs_doSIGs_per_index hookFailsAtOne [] 10).2.2.1 [0, 1, 2] 1 (by decide)
        (by decide) (by decide)).2.2⟩⟩

open RandomBeacon

/-- C2, counterexample: on `independentH` every premise of the claim holds: the
committee has `N = 3 ≥ t + 1 = 2` members with keys `1·g1, 2·g1, 3·g1` and the
distinct abscissas 1, 2, 3, every stored DKG payload is what `generateDKG` returns
on this chain, and the two stored signature payloads are what `doSIG` hands to the
hook for the owners of slots 0 and 1.  With `Hbase = 2·g2` the pairing check fails
and `DoComputeRandom` returns "Final Pairing Check Failed". -/
theorem DoComputeRandom_pairing_holds_counterexample :
    independentH.cfg.PolymDegree + 1 ≤ (independentH.getRBProposerGroupF 10).length ∧
    independentH.getRBProposerGroupF 10 =
      [G1.ScalarBaseMult 1, G1.ScalarBaseMult 2, G1.ScalarBaseMult 3] ∧
    xAll independentH 10 = [1, 2, 3] ∧
    (∀ i, i < 3 →
      independentH.GetDkg 10 i = (generateDKG independentH [] 10 i).toOption ∧
      (generateDKG independentH [] 10 i).toOption ≠ none) ∧
    (∀ d, d < 2 →
      independentH.GetSig 10 d =
        submittedSig (doSIG { independentH with cfg := (signerEnv d).cfg } [] 10 d).2 ∧
      independentH.GetSig 10 d ≠ none) ∧
    (collectSig independentH 10).length = 2 ∧
    DoComputeRandom independentH [] 10 =
      (Outcome.err Err.pairingCheckFailed,
        [Event.lagrangeSig, Event.lagrangePub, Event.getRBM 10, Event.pair]) := by
  decide

/-- C2, amended: take a committee of `N ≥ t+1` members (at most `2^32`) with
pairwise distinct abscissas and keys `pk_i = sk_i·g1`; let every DKG payload on
chain be what `generateDKG` returned to its dealer, and every signature payload on
chain be what `doSIG` handed to the hook for the owner of that slot, run on the
same committee, DKG payloads and message; let at least `t+1` signature payloads be
collected, and let `Hbase` be the generator `g2` with which the commitments are
formed.  Then `DoComputeRandom` obtains `gsig = m·S·g1` and `gPub = S·g2` for one
scalar `S`, they satisfy `e(gsig, Hbase) = e(m·g1, gPub)`, the call never returns
"Final Pairing Check Failed", and when `R[e+1]` is unset or zero and the quorum of
signature payloads is met its result is that of `saveRandom` for
`Keccak256(gsig.Marshal())` after the two interpolations, the message read and the
pairing. -/
theorem DoComputeRandom_pairing_holds {q : ℕ} [Fact q.Prime] (env : Env q) (epochId : Nat)
    (sk : Nat → Nat)
    (hN : env.cfg.PolymDegree + 1 ≤ (env.getRBProposerGroupF epochId).length)
    (hN32 : (env.getRBProposerGroupF epochId).length ≤ 2 ^ 32)
    (hx : ∀ i j, i < (env.getRBProposerGroupF epochId).length →
      j < (env.getRBProposerGroupF epochId).length →
      abscissa env epochId i = abscissa env epochId j → i = j)
    (hkeys : ∀ i, i < (env.getRBProposerGroupF epochId).length →
      (env.getRBProposerGroupF epochId).getD i (G1.ScalarBaseMult 0) =
        G1.ScalarBaseMult (sk i))
    (hdeal : ∀ i p, i < (env.getRBProposerGroupF epochId).length →
      env.GetDkg epochId i = some p →
      ∃ (envd : Env q) (hd : List (Event q)),
        envd.getRBProposerGroupF epochId = env.getRBProposerGroupF epochId ∧
        envd.cfg.PolymDegree = env.cfg.PolymDegree ∧
        envd.GetPolynomialX = env.GetPolynomialX ∧
        generateDKG envd hd epochId i = Except.ok p)
    (hsign : ∀ d p, d < (env.getRBProposerGroupF epochId).length →
      env.GetSig epochId d = some p →
      ∃ (envs : Env q) (hs : List (Event q)),
        envs.getRBProposerGroupF epochId = env.getRBProposerGroupF epochId ∧
        (∀ i, envs.GetDkg epochId i = env.GetDkg epochId i) ∧
        envs.GetRBM epochId = env.GetRBM epochId ∧
        envs.cfg.SelfPrK = some (sk d) ∧
        Event.sendTx (RbMsg.sig p) ∈ (doSIG envs hs epochId d).2)
    (hcount : env.cfg.PolymDegree + 1 ≤ (collectSig env epochId).length)
    (hH : env.Hbase = G2.ScalarBaseMult 1) :
    ∃ (gsig : G1 q) (gPub : G2 q) (mBuf : Bytes) (S : ZMod q),
      computeGsig env epochId = some gsig ∧ computeGPub env epochId = some gPub ∧
      env.GetRBM epochId = Except.ok mBuf ∧
      gsig = G1.ScalarMult ⟨S⟩ (SetBytes mBuf) ∧ gPub = ⟨S⟩ ∧
      Pair gsig env.Hbase = Pair (G1.ScalarBaseMult (SetBytes mBuf)) gPub ∧
      (∀ h : List (Event q),
        (DoComputeRandom env h epochId).1 ≠ Outcome.err Err.pairingCheckFailed) ∧
      (∀ h : List (Event q),
        (env.GetR ((epochId + 1) % 2 ^ 64) = none ∨
          env.GetR ((epochId + 1) % 2 ^ 64) = some 0) →
        env.cfg.MinRBProposerCnt ≤ (collectSig env epochId).length →
        DoComputeRandom env h epochId =
          ((saveRandom env
              (h ++ [Event.lagrangeSig, Event.lagrangePub, Event.getRBM epochId, Event.pair])
              ((epochId + 1) % 2 ^ 64)
              (some (SetBytes (env.Keccak256 (env.Marshal gsig))))).1,
            [Event.lagrangeSig, Event.lagrangePub, Event.getRBM epochId, Event.pair] ++
            (saveRandom env
              (h ++ [Event.lagrangeSig, Event.lagrangePub, Event.getRBM epochId, Event.pair])
              ((epochId + 1) % 2 ^ 64)
              (some (SetBytes (env.Keccak256 (env.Marshal gsig))))).2)) := by
  haveI : NeZero q := ⟨(Fact.out : q.Prime).ne_zero⟩
  have hL : ∀ d ∈ collectDkg env epochId, honestDeal env epochId d.data := by
    intro d hd
    unfold collectDkg getRBProposerGroup at hd
    simp only [List.mem_filterMap, List.mem_range, Option.map_eq_some'] at hd
    obtain ⟨id, hid, p, hp, rfl⟩ := hd
    rw [Nat.mod_eq_of_lt (by omega)] at hp
    obtain ⟨envd, hd, g1, g2, g3, g4⟩ := hdeal id p hid hp
    exact honestDeal_congr env envd epochId p g1 g2 g3
      (generateDKG_honest envd hd epochId id p g4).1
  obtain ⟨F, hF1, hF0, hF2⟩ := honest_sums env epochId (collectDkg env epochId) hL
  have hshare : ∀ d p, d < (getRBProposerGroup env epochId).length →
      env.GetSig epochId d = some p →
      ∃ mBuf, env.GetRBM epochId = Except.ok mBuf ∧
        p = ⟨epochId, d, ⟨((SetBytes mBuf : ℕ) : ZMod q) * F.eval (abscissa env epochId d)⟩⟩ := by
    intro d p hd hp
    obtain ⟨envs, hs, s1, s2, s3, s4, s5⟩ := hsign d p hd hp
    exact doSIG_share env envs hs epochId d (sk d) F p (hkeys d hd) hF0 (hF2 d hd).1
      s1 s2 s3 s4 s5
  have hpos : 0 < (collectSig env epochId).length := by omega
  obtain ⟨c0, hc0⟩ := List.exists_mem_of_length_pos hpos
  obtain ⟨mBuf, hm⟩ : ∃ mBuf, env.GetRBM epochId = Except.ok mBuf := by
    unfold collectSig getRBProposerGroup at hc0
    simp only [List.mem_filterMap, List.mem_range, Option.map_eq_some'] at hc0
    obtain ⟨id, hid, p, hp, _⟩ := hc0
    rw [Nat.mod_eq_of_lt (by omega)] at hp
    obtain ⟨mBuf, hm, _⟩ := hshare id p hid hp
    exact ⟨mBuf, hm⟩
  have hshare2 : ∀ d p, d < (getRBProposerGroup env epochId).length →
      env.GetSig epochId d = some p →
      p = ⟨epochId, d, ⟨((SetBytes mBuf : ℕ) : ZMod q) * F.eval (abscissa env epochId d)⟩⟩ := by
    intro d p hd hp
    obtain ⟨mBuf2, hm2, hp2⟩ := hshare d p hd hp
    rw [hm] at hm2
    cases hm2
    exact hp2
  have hgsig := computeGsig_honest env epochId ((SetBytes mBuf : ℕ) : ZMod q) F hN32 hx hF1
    hcount hshare2
  have hgpub := computeGPub_honest env epochId F hN hx hF1 (fun j hj => (hF2 j hj).2)
  have hpair : Pair (⟨((SetBytes mBuf : ℕ) : ZMod q) * F.eval 0⟩ : G1 q) env.Hbase =
      Pair (G1.ScalarBaseMult (SetBytes mBuf)) (⟨F.eval 0⟩ : G2 q) := by
    rw [hH]
    simp [Pair, G1.ScalarBaseMult, G2.ScalarBaseMult]
  have hg : env.getRBProposerGroupF epochId ≠ [] := by
    intro hc
    rw [hc] at hN
    simp at hN
  refine ⟨_, _, mBuf, F.eval 0, hgsig, hgpub, hm, rfl, rfl, hpair, ?_, ?_⟩
  · intro h
    by_cases hnext : env.GetR ((epochId + 1) % 2 ^ 64) = none ∨
        env.GetR ((epochId + 1) % 2 ^ 64) = some 0
    · by_cases hmin : (collectSig env epochId).length < env.cfg.MinRBProposerCnt
      · cases hR : env.GetR epochId with
        | none =>
          rw [DoComputeRandom_fallback_none env h epochId hnext hg hmin hR]
          simp
        | some r =>
          rw [DoComputeRandom_fallback_eq env h epochId r hnext hg hmin hR]
          rcases (saveRandom_some env h ((epochId + 1) % 2 ^ 64)
            (SetBytes (env.Keccak256 (bigBytes r)))).2 with h1 | ⟨c, h1⟩ <;> rw [h1] <;> simp
      · rw [DoComputeRandom_pairing env h epochId _ _ mBuf hnext hg (by omega) hgsig hgpub hm,
          if_neg (not_not.mpr hpair)]
        simp only
        rcases (saveRandom_some env
          (h ++ [Event.lagrangeSig, Event.lagrangePub, Event.getRBM epochId, Event.pair])
          ((epochId + 1) % 2 ^ 64)
          (SetBytes (env.Keccak256 (env.Marshal
            ⟨((SetBytes mBuf : ℕ) : ZMod q) * Polynomial.eval 0 F⟩)))).2 with h1 | ⟨c, h1⟩ <;>
          rw [h1] <;> simp
    · cases hr : env.GetR ((epochId + 1) % 2 ^ 64) with
      | none => exact absurd (Or.inl hr) hnext
      | some r =>
        have hr0 : r ≠ 0 := by
          intro hc
          rw [hc] at hr
          exact hnext (Or.inr hr)
        rw [DoComputeRandom_exists env h epochId r hr hr0]
        simp
  · intro h hnext hmin
    rw [DoComputeRandom_pairing env h epochId _ _ mBuf hnext hg hmin hgsig hgpub hm,
      if_neg (not_not.mpr hpair)]

/-- Witness of the amended C2: the committee of three over the group of order 7
with degree 1; all three members dealt, the owners of slots 0 and 1 signed, and
the random 4 is handed to the hook for epoch 11. -/
theorem DoComputeRandom_pairing_holds_witness :
    (∃ (gsig : G1 7) (gPub : G2 7) (mBuf : Bytes) (S : ZMod 7),
      computeGsig sigChain 10 = some gsig ∧ computeGPub sigChain 10 = some gPub ∧
      sigChain.GetRBM 10 = Except.ok mBuf ∧
      gsig = G1.ScalarMult ⟨S⟩ (SetBytes mBuf) ∧ gPub = ⟨S⟩ ∧
      Pair gsig sigChain.Hbase = Pair (G1.ScalarBaseMult (SetBytes mBuf)) gPub ∧
      (∀ h : List (Event 7),
        (DoComputeRandom sigChain h 10).1 ≠ Outcome.err Err.pairingCheckFailed) ∧
      (∀ h : List (Event 7),
        (sigChain.GetR ((10 + 1) % 2 ^ 64) = none ∨
          sigChain.GetR ((10 + 1) % 2 ^ 64) = some 0) →
        sigChain.cfg.MinRBProposerCnt ≤ (collectSig sigChain 10).length →
        DoComputeRandom sigChain h 10 =
          ((saveRandom sigChain
              (h ++ [Event.lagrangeSig, Event.lagrangePub, Event.getRBM 10, Event.pair])
              ((10 + 1) % 2 ^ 64)
              (some (SetBytes (sigChain.Keccak256 (sigChain.Marshal gsig))))).1,
            [Event.lagrangeSig, Event.lagrangePub, Event.getRBM 10, Event.pair] ++
            (saveRandom sigChain
              (h ++ [Event.lagrangeSig, Event.lagrangePub, Event.getRBM 10, Event.pair])
              ((10 + 1) % 2 ^ 64)
              (some (SetBytes (sigChain.Keccak256 (sigChain.Marshal gsig))))).2))) ∧
    DoComputeRandom sigChain [] 10 =
      (Outcome.nil, [Event.lagrangeSig, Event.lagrangePub, Event.getRBM 10, Event.pair,
        Event.sendTx (RbMsg.genR 11 4)]) :=
  ⟨@DoComputeRandom_pairing_holds 7 ⟨by norm_num⟩ sigChain 10 (fun i => i + 1)
    (by decide) (by decide)
    (by
      intro i j hi hj
      have hi3 : i < 3 := hi
      have hj3 : j < 3 := hj
      interval_cases i <;> interval_cases j <;> decide)
    (by
      intro i hi
      have hi3 : i < 3 := hi
      interval_cases i <;> decide)
    (by
      intro i p _ hp
      refine ⟨baseEnv, [], rfl, rfl, rfl, ?_⟩
      have hp2 : (if 10 = 10 ∧ i < 3 then (generateDKG baseEnv [] 10 i).toOption else none)
          = some p := hp
      split_ifs at hp2
      cases hg : generateDKG baseEnv [] 10 i with
      | error err => rw [hg] at hp2; cases hp2
      | ok p2 =>
        rw [hg] at hp2
        cases hp2
        rfl)
    (by
      intro d p _ hp
      refine ⟨signerEnv d, [], rfl, fun i => rfl, rfl, rfl, ?_⟩
      have hp2 : (if 10 = 10 ∧ d < 2 then submittedSig (doSIG (signerEnv d) [] 10 d).2
          else none) = some p := hp
      split_ifs at hp2
      exact submittedSig_mem _ _ hp2)
    (by decide)
    (by decide),
    by decide⟩
